import Mathlib

/-!
# Digital Health Wallet: access control and grant lifecycle

A shallow embedding of the Express/SQLite server under `src/server`:
`database.js` (the four tables), `routes/shares.js`, `routes/reports.js`
and `routes/vitals.js`.

Modelling conventions

* A table is a list of rows in rowid order.  `db.get` is `List.find?`
  (first matching row), `db.all` is a filter followed by the `ORDER BY`
  (a stable insertion sort), `UPDATE` and `DELETE` act on every row that
  satisfies the `WHERE` clause.
* `INTEGER PRIMARY KEY AUTOINCREMENT` draws `max (sqlite_sequence, largest
  rowid) + 1`.
* `foreignKeys` is the connection's `PRAGMA foreign_keys` setting.  The
  source never issues the pragma, so the value is whatever the SQLite
  build defaults to; the handlers are modelled for both values.
* Route parameters and ids are natural numbers, request bodies are typed
  (an optional string where the handler expects a string), measurement
  values are JSON values (null, booleans, numbers, strings).  A measurement
  column, declared INTEGER or REAL, holds a bound value as SQLite's column
  affinity leaves it (`storedInColumn`); numbers are exact rationals.
* A handler is a function of the store (`handle`): its statements run back
  to back.  For the share handler, whose lookup and insert are separate
  statements, the statements are also modelled one by one (`stepShare`,
  `exec`), so that two share requests can overlap.
* The `err` branches of the callbacks (status 500) are modelled only where
  the statement itself can fail in the model: a foreign-key violation, and
  the explicitly injected failure of the report insert in the upload path.
-/

namespace HealthWallet

/-! ## JSON values of a request body -/

/-- JSON value as seen by a handler after `express.json()`;
`undefined` is a key that is not present.  Arrays and objects, which no
form of the client sends for a measurement, are left out. -/
inductive JsVal where
  | undefined
  | null
  | bool (b : Bool)
  | num (q : ℚ)
  | str (s : String)
deriving DecidableEq

/-- JavaScript truthiness (`if (v)`, `!v`, `v || w`). -/
def JsVal.truthy : JsVal → Bool
  | .undefined => false
  | .null => false
  | .bool b => b
  | .num q => decide (q ≠ 0)
  | .str s => decide (s ≠ "")

/-- The expression `v || null`. -/
def JsVal.orNull (v : JsVal) : JsVal :=
  if v.truthy then v else .null

/-- Truthiness of an optional string (`undefined` or a string). -/
def truthyStr : Option String → Bool
  | none => false
  | some s => decide (s ≠ "")

/-! ## Values as a numeric column stores them -/

/-- White space as SQLite skips it around a numeric literal: the space and
the characters tab, line feed, vertical tab, form feed, carriage return. -/
def sqlSpace (c : Char) : Bool := c.toNat == 32 || (9 ≤ c.toNat && c.toNat ≤ 13)

/-- Decimal digit. -/
def sqlDigit (c : Char) : Bool := 48 ≤ c.toNat && c.toNat ≤ 57

/-- Value of a run of decimal digits. -/
def digitsValue (ds : List Char) : Nat := ds.foldl (fun n c => 10 * n + (c.toNat - 48)) 0

/-- An optional sign; the flag is `true` for a minus. -/
def readSign : List Char → Bool × List Char
  | c :: r =>
    if c.toNat = 45 then (true, r) else if c.toNat = 43 then (false, r) else (false, c :: r)
  | [] => (false, [])

/-- The number a text denotes when it is a well-formed integer or real
literal for SQLite: white space, an optional sign, digits, optionally a dot
and digits, optionally `e` or `E` with an optional sign and at least one
digit, white space; at least one digit before the exponent.  `none` for any
other text (a hexadecimal literal, trailing characters, the empty text).
The value is the exact rational: rounding and overflow of 64-bit floats are
not modelled. -/
def sqlNumber (z : List Char) : Option ℚ :=
  let sg := readSign (z.dropWhile sqlSpace)
  let ip := sg.2.span sqlDigit
  let fp : List Char × List Char :=
    match ip.2 with
    | c :: r => if c.toNat = 46 then r.span sqlDigit else ([], c :: r)
    | [] => ([], [])
  let ex : Option Int × List Char :=
    match fp.2 with
    | c :: r =>
      if c.toNat = 101 ∨ c.toNat = 69 then
        let es := readSign r
        let ed := es.2.span sqlDigit
        if ed.1 = [] then (none, ed.2)
        else (some (if es.1 then -(digitsValue ed.1 : Int) else (digitsValue ed.1 : Int)), ed.2)
      else (some 0, c :: r)
    | [] => (some 0, [])
  match ex.1 with
  | none => none
  | some e =>
    if ex.2.dropWhile sqlSpace = [] ∧ ip.1 ++ fp.1 ≠ [] then
      let m : Int := digitsValue (ip.1 ++ fp.1)
      let k : Int := e - fp.1.length
      let v : ℚ := if 0 ≤ k then mkRat (m * 10 ^ k.toNat) 1 else mkRat m (10 ^ (-k).toNat)
      some (if sg.1 then -v else v)
    else none

/-- What a measurement column of `vitals` (declared INTEGER or REAL) holds,
as a later `SELECT` hands it back, after the JavaScript value `x` was bound
to its `?` in an `INSERT` or `UPDATE`.  The sqlite3 driver binds a boolean as
the integer 1 or 0, a number as a number, a string as text and `null` as
NULL, and leaves the parameter of an `undefined` unbound, which is NULL.
The column affinity then turns a text that is a well-formed numeric literal
into that number and keeps every other text as text; NULL and numbers stay.
An integer and the real of the same value read back as the same JavaScript
number, so the two column types need no separate treatment. -/
def storedInColumn : JsVal → JsVal
  | .undefined => .null
  | .null => .null
  | .bool b => .num (if b then 1 else 0)
  | .num q => .num q
  | .str t =>
    match sqlNumber t.data with
    | some q => .num q
    | none => .str t

/-- Stated from the column types of `vitals`, not from a handler: what a
measurement column holds for a value written to it.  NULL for `null` and for
no value, 1 for `true` and 0 for `false`, a number for itself, the number it
denotes for a text that is a numeric literal, the text itself for any other
text. -/
def HeldAs (x stored : JsVal) : Prop :=
  (x = .undefined ∨ x = .null → stored = .null) ∧
  (x = .bool true → stored = .num 1) ∧
  (x = .bool false → stored = .num 0) ∧
  (∀ q, x = .num q → stored = .num q) ∧
  (∀ t q, x = .str t → sqlNumber t.data = some q → stored = .num q) ∧
  (∀ t, x = .str t → sqlNumber t.data = none → stored = .str t)

/-- A value a measurement column can hold: NULL, a number, or a text that is
no numeric literal. -/
def Held : JsVal → Prop
  | .null => True
  | .num _ => True
  | .str t => sqlNumber t.data = none
  | .undefined => False
  | .bool _ => False

instance (x : JsVal) : Decidable (Held x) := by
  cases x <;> unfold Held <;> infer_instance

/-! ## Tables (database.js) -/

/-- Row of `users`. -/
structure User where
  id : Nat
  username : String
  email : String
deriving DecidableEq

/-- Row of `reports`. -/
structure Report where
  id : Nat
  user_id : Nat
  filename : String
  original_filename : String
  file_type : String
  report_type : String
  date : String
  created_at : Nat
deriving DecidableEq

/-- Row of `vitals`; a measurement column holds `JsVal.null` for SQL NULL. -/
structure Vital where
  id : Nat
  user_id : Nat
  report_id : Option Nat
  blood_pressure_systolic : JsVal
  blood_pressure_diastolic : JsVal
  blood_sugar_fasting : JsVal
  blood_sugar_postprandial : JsVal
  heart_rate : JsVal
  temperature : JsVal
  weight : JsVal
  height : JsVal
  cholesterol : JsVal
  date : String
  created_at : Nat
deriving DecidableEq

/-- Row of `access_shares` (a grant). -/
structure AccessShare where
  id : Nat
  report_id : Nat
  owner_id : Nat
  shared_with_user_id : Nat
  shared_with_email : String
  role : String
  created_at : Nat
deriving DecidableEq

/-- The database together with the uploads directory. -/
structure Store where
  foreignKeys : Bool
  users : List User
  reports : List Report
  vitals : List Vital
  access_shares : List AccessShare
  /-- file names present in the uploads directory -/
  blobs : List String
  /-- `sqlite_sequence` entries of the three AUTOINCREMENT tables -/
  reportSeq : Nat
  vitalSeq : Nat
  shareSeq : Nat
deriving DecidableEq

/-- The store right after `initDatabase`, with the given accounts. -/
def Store.init (fk : Bool) (users : List User) : Store :=
  { foreignKeys := fk, users := users, reports := [], vitals := [],
    access_shares := [], blobs := [], reportSeq := 0, vitalSeq := 0, shareSeq := 0 }

/-- Largest element of a list of ids (0 for the empty list). -/
def maxId : List Nat → Nat
  | [] => 0
  | x :: xs => max x (maxId xs)

/-- The rowid an AUTOINCREMENT table hands out next. -/
def nextId (seq : Nat) (ids : List Nat) : Nat :=
  max seq (maxId ids) + 1

/-! ## Responses -/

/-- Row of `GET /shares/report/:reportId`: the grant with the joined
`username` and `email` of the grantee (NULL when the join finds nobody). -/
structure ShareRow where
  share : AccessShare
  username : Option String
  email : Option String
deriving DecidableEq

/-- Row of `GET /reports/shared`. -/
structure SharedReportRow where
  report : Report
  role : String
  owner_id : Nat
  owner_username : Option String
deriving DecidableEq

/-- Element of the array `GET /vitals/trends` answers with: the `dataPoint`
object built for one row.  A key is `none` when the handler does not assign
it, and `some v` when it assigns the value `v` (which may be `null`). -/
structure TrendPoint where
  date : String
  systolic : Option JsVal
  diastolic : Option JsVal
  fasting : Option JsVal
  postprandial : Option JsVal
  heartRate : Option JsVal
  cholesterol : Option JsVal
  weight : Option JsVal
  temperature : Option JsVal
deriving DecidableEq

/-- Row of `GET /reports`: the report with its `share_count`. -/
structure ReportRow where
  report : Report
  share_count : Nat
deriving DecidableEq

/-- Row of `GET /shares/shared-with-me`. -/
structure SharedWithMeRow where
  report : Report
  role : String
  shared_at : Nat
  owner_username : Option String
  owner_email : Option String
deriving DecidableEq

/-- JSON body (or file stream) of a response. -/
inductive Body where
  | error (msg : String)
  | message (msg : String)
  | shareCreated (msg : String) (shareId : Nat)
  | vitalCreated (msg : String) (id : Nat)
  | uploaded (msg : String) (id : Nat) (filename originalFilename reportType date : String)
  | reportDetail (report : Report) (vitals : Option Vital)
  | download (filename : String) (asName : String)
  | shares (rows : List ShareRow)
  | sharedReports (rows : List SharedReportRow)
  | vitals (rows : List Vital)
  | trends (points : List TrendPoint)
  | reports (rows : List ReportRow)
  | sharedWithMe (rows : List SharedWithMeRow)
deriving DecidableEq

/-- HTTP status and body. -/
structure Response where
  status : Nat
  body : Body
deriving DecidableEq

/-- The error taxonomy of the responses: Validation is status 400. -/
def Response.isValidation (r : Response) : Prop := r.status = 400

/-- NotFound is status 404. -/
def Response.isNotFound (r : Response) : Prop := r.status = 404

instance (r : Response) : Decidable r.isValidation := by
  unfold Response.isValidation; infer_instance

instance (r : Response) : Decidable r.isNotFound := by
  unfold Response.isNotFound; infer_instance

/-! ## routes/shares.js -/

/-- Body of `POST /shares/:reportId`.  A key that is absent is `none`; for
`role` the destructuring default `viewer` then applies.  A `role` that is not
a string fails the role check like any string other than the two roles. -/
structure ShareBody where
  sharedWithEmail : Option String
  role : Option String
deriving DecidableEq

/-- Foreign keys of a new `access_shares` row, checked when enforcement is on. -/
def fkShareOk (s : Store) (reportId ownerId granteeId : Nat) : Bool :=
  !s.foreignKeys ||
    (s.reports.any (fun r => r.id == reportId) &&
     s.users.any (fun u => u.id == ownerId) &&
     s.users.any (fun u => u.id == granteeId))

/-- Handler `router.post('/:reportId')` of shares.js. -/
def postShare (s : Store) (now ownerId reportId : Nat) (body : ShareBody) : Store × Response :=
  let role := body.role.getD "viewer"
  if !truthyStr body.sharedWithEmail then
    (s, ⟨400, .error "Email address is required"⟩)
  else if !(["viewer", "editor"].contains role) then
    (s, ⟨400, .error "Invalid role. Must be viewer or editor"⟩)
  else
    let sharedWithEmail := body.sharedWithEmail.getD ""
    match s.reports.find? (fun r => r.id == reportId && r.user_id == ownerId) with
    | none => (s, ⟨404, .error "Report not found or access denied"⟩)
    | some _ =>
      match s.users.find? (fun u => u.email == sharedWithEmail) with
      | none => (s, ⟨404, .error "User with this email not found"⟩)
      | some sharedUser =>
        if sharedUser.id = ownerId then
          (s, ⟨400, .error "Cannot share report with yourself"⟩)
        else
          match s.access_shares.find?
              (fun g => g.report_id == reportId && g.shared_with_user_id == sharedUser.id) with
          | some existingShare =>
            ({ s with
                access_shares := s.access_shares.map
                  (fun g => if g.id = existingShare.id then { g with role := role } else g) },
             ⟨200, .message "Share updated successfully"⟩)
          | none =>
            if fkShareOk s reportId ownerId sharedUser.id then
              let lastID := nextId s.shareSeq (s.access_shares.map (·.id))
              ({ s with
                  access_shares := s.access_shares ++
                    [{ id := lastID, report_id := reportId, owner_id := ownerId,
                       shared_with_user_id := sharedUser.id,
                       shared_with_email := sharedWithEmail, role := role,
                       created_at := now }],
                  shareSeq := lastID },
               ⟨201, .shareCreated "Report shared successfully" lastID⟩)
            else
              (s, ⟨500, .error "Failed to create share"⟩)

/-- Clause `ORDER BY as_table.created_at DESC`. -/
def shareRowBefore (a b : ShareRow) : Prop := b.share.created_at ≤ a.share.created_at

instance : DecidableRel shareRowBefore := fun a b => by
  unfold shareRowBefore; infer_instance

/-- The `LEFT JOIN users u ON as_table.shared_with_user_id = u.id` of one grant. -/
def joinGrantee (users : List User) (g : AccessShare) : List ShareRow :=
  match users.filter (fun u => u.id == g.shared_with_user_id) with
  | [] => [⟨g, none, none⟩]
  | us => us.map (fun u => ⟨g, some u.username, some u.email⟩)

/-- Handler `router.get('/report/:reportId')` of shares.js. -/
def getSharesForReport (s : Store) (userId reportId : Nat) : Response :=
  match s.reports.find? (fun r => r.id == reportId && r.user_id == userId) with
  | none => ⟨404, .error "Report not found or access denied"⟩
  | some _ =>
    ⟨200, .shares (List.insertionSort shareRowBefore
      ((s.access_shares.filter (fun g => g.report_id == reportId)).flatMap (joinGrantee s.users)))⟩

/-- Handler `router.delete('/:shareId')` of shares.js. -/
def deleteShare (s : Store) (userId shareId : Nat) : Store × Response :=
  match s.access_shares.find?
      (fun g => g.id == shareId && s.reports.any (fun r => g.report_id == r.id && r.user_id == userId)) with
  | none => (s, ⟨404, .error "Share not found or access denied"⟩)
  | some _ =>
    ({ s with access_shares := s.access_shares.filter (fun g => !(g.id == shareId)) },
     ⟨200, .message "Access revoked successfully"⟩)

/-! ## routes/reports.js -/

/-- The measurement keys of a vitals payload (`undefined` when not sent). -/
structure VitalFields where
  bloodPressureSystolic : JsVal
  bloodPressureDiastolic : JsVal
  bloodSugarFasting : JsVal
  bloodSugarPostprandial : JsVal
  heartRate : JsVal
  temperature : JsVal
  weight : JsVal
  height : JsVal
  cholesterol : JsVal
deriving DecidableEq

/-- The `req.file` multer hands to the upload handler once the file filter
accepted the file and the bytes are on disk under `filename`. -/
structure UploadedFile where
  filename : String
  originalname : String
  /-- `path.extname(originalname)` -/
  extname : String
deriving DecidableEq

/-- Body of `POST /reports/upload`; `vitals` is the parsed payload, `none`
when the field is falsy or `JSON.parse` throws. -/
structure UploadBody where
  reportType : Option String
  date : Option String
  vitals : Option VitalFields
deriving DecidableEq

/-- The expression `reportId || null`. -/
def idOrNull : Option Nat → Option Nat
  | some 0 => none
  | x => x

/-- Foreign keys of a new `vitals` row, checked when enforcement is on. -/
def fkVitalOk (s : Store) (userId : Nat) (reportId : Option Nat) : Bool :=
  !s.foreignKeys ||
    (s.users.any (fun u => u.id == userId) &&
     match reportId with
     | none => true
     | some rid => s.reports.any (fun r => r.id == rid))

/-- Foreign key of a new `reports` row, checked when enforcement is on. -/
def fkReportOk (s : Store) (userId : Nat) : Bool :=
  !s.foreignKeys || s.users.any (fun u => u.id == userId)

/-- The row the two `INSERT INTO vitals` statements write: each measurement
is bound as `x || null` and held as the column stores it. -/
def mkVital (id userId : Nat) (reportId : Option Nat) (f : VitalFields) (date : String)
    (now : Nat) : Vital :=
  { id := id, user_id := userId, report_id := idOrNull reportId,
    blood_pressure_systolic := storedInColumn f.bloodPressureSystolic.orNull,
    blood_pressure_diastolic := storedInColumn f.bloodPressureDiastolic.orNull,
    blood_sugar_fasting := storedInColumn f.bloodSugarFasting.orNull,
    blood_sugar_postprandial := storedInColumn f.bloodSugarPostprandial.orNull,
    heart_rate := storedInColumn f.heartRate.orNull,
    temperature := storedInColumn f.temperature.orNull,
    weight := storedInColumn f.weight.orNull,
    height := storedInColumn f.height.orNull,
    cholesterol := storedInColumn f.cholesterol.orNull,
    date := date, created_at := now }

/-- Function `insertVitals` of reports.js; an insert error is only logged. -/
def insertVitals (s : Store) (now userId reportId : Nat) (vitalsData : VitalFields)
    (date : String) : Store :=
  if fkVitalOk s userId (idOrNull (some reportId)) then
    let lastID := nextId s.vitalSeq (s.vitals.map (·.id))
    { s with
        vitals := s.vitals ++ [mkVital lastID userId (some reportId) vitalsData date now],
        vitalSeq := lastID }
  else s

/-- Extension stored in `file_type`: `extname.substring(1).toLowerCase()`. -/
def fileTypeOf (f : UploadedFile) : String :=
  String.mk ((f.extname.data.drop 1).map Char.toLower)

/-- Handler `router.post('/upload')` of reports.js, together with the disk
write multer performs before it.  `insertFails` injects a failure of the
`INSERT INTO reports` statement. -/
def postUpload (s : Store) (now userId : Nat) (file : Option UploadedFile) (body : UploadBody)
    (insertFails : Bool) : Store × Response :=
  match file with
  | none => (s, ⟨400, .error "No file uploaded"⟩)
  | some f =>
    let written : Store := { s with blobs := f.filename :: s.blobs }
    let unlinked : Store := { s with blobs := s.blobs.filter (fun b => !(b == f.filename)) }
    if !truthyStr body.reportType || !truthyStr body.date then
      (unlinked, ⟨400, .error "Report type and date are required"⟩)
    else
      let reportType := body.reportType.getD ""
      let date := body.date.getD ""
      if insertFails || !fkReportOk s userId then
        (unlinked, ⟨500, .error "Failed to save report"⟩)
      else
        let reportId := nextId s.reportSeq (s.reports.map (·.id))
        let s1 : Store := { written with
          reports := s.reports ++
            [{ id := reportId, user_id := userId, filename := f.filename,
               original_filename := f.originalname, file_type := fileTypeOf f,
               report_type := reportType, date := date, created_at := now }],
          reportSeq := reportId }
        let s2 := match body.vitals with
          | some vitalsData => insertVitals s1 now userId reportId vitalsData date
          | none => s1
        (s2, ⟨201, .uploaded "Report uploaded successfully" reportId f.filename
                f.originalname reportType date⟩)

/-- Order of two TEXT values under the BINARY collation (`date` columns):
lexicographic on the characters. -/
def textLt (a b : String) : Prop := a.data < b.data

instance : DecidableRel textLt := fun a b => by
  unfold textLt; infer_instance

/-- Clause `ORDER BY r.date DESC, r.created_at DESC` on joined rows. -/
def sharedRowBefore (a b : SharedReportRow) : Prop :=
  textLt b.report.date a.report.date ∨
    (a.report.date = b.report.date ∧ b.report.created_at ≤ a.report.created_at)

instance : DecidableRel sharedRowBefore := fun a b => by
  unfold sharedRowBefore; infer_instance

/-- The `LEFT JOIN users u ON as_table.owner_id = u.id` of one joined row. -/
def joinOwner (users : List User) (r : Report) (g : AccessShare) : List SharedReportRow :=
  match users.filter (fun u => u.id == g.owner_id) with
  | [] => [⟨r, g.role, g.owner_id, none⟩]
  | us => us.map (fun u => ⟨r, g.role, g.owner_id, some u.username⟩)

/-- The joined rows of `GET /reports/shared` before the `ORDER BY`. -/
def sharedJoin (s : Store) (userId : Nat) : List SharedReportRow :=
  s.reports.flatMap (fun r =>
    (s.access_shares.filter
      (fun g => r.id == g.report_id && g.shared_with_user_id == userId)).flatMap
      (joinOwner s.users r))

/-- Handler `router.get('/shared')` of reports.js. -/
def getShared (s : Store) (userId : Nat) : Response :=
  ⟨200, .sharedReports (List.insertionSort sharedRowBefore (sharedJoin s userId))⟩

/-- The `SELECT r.* ... WHERE r.id = ? AND (r.user_id = ? OR EXISTS ...)` query
shared by the detail and the download handler. -/
def readableReport (s : Store) (userId id : Nat) : Option Report :=
  s.reports.find? (fun r => r.id == id &&
    (r.user_id == userId ||
     s.access_shares.any (fun g => g.report_id == r.id && g.shared_with_user_id == userId)))

/-- Handler `router.get('/:id')` of reports.js. -/
def getReport (s : Store) (userId id : Nat) : Response :=
  match readableReport s userId id with
  | none => ⟨404, .error "Report not found or access denied"⟩
  | some report =>
    ⟨200, .reportDetail report (s.vitals.filter (fun v => v.report_id == some id)).head?⟩

/-- Handler `router.get('/:id/download')` of reports.js. -/
def getDownload (s : Store) (userId id : Nat) : Response :=
  match readableReport s userId id with
  | none => ⟨404, .error "Report not found or access denied"⟩
  | some report =>
    if !s.blobs.contains report.filename then ⟨404, .error "File not found"⟩
    else ⟨200, .download report.filename report.original_filename⟩

/-- Statement `DELETE FROM reports WHERE id = ?` with its foreign-key actions
(`ON DELETE CASCADE` on access_shares, `ON DELETE SET NULL` on vitals), which
run only when enforcement is on. -/
def deleteReportRow (s : Store) (id : Nat) : Store :=
  if s.foreignKeys then
    { s with
        reports := s.reports.filter (fun r => !(r.id == id)),
        access_shares := s.access_shares.filter (fun g => !(g.report_id == id)),
        vitals := s.vitals.map
          (fun v => if v.report_id = some id then { v with report_id := none } else v) }
  else
    { s with reports := s.reports.filter (fun r => !(r.id == id)) }

/-- Handler `router.delete('/:id')` of reports.js. -/
def deleteReport (s : Store) (userId id : Nat) : Store × Response :=
  match s.reports.find? (fun r => r.id == id && r.user_id == userId) with
  | none => (s, ⟨404, .error "Report not found or access denied"⟩)
  | some report =>
    let s1 : Store := { s with blobs := s.blobs.filter (fun b => !(b == report.filename)) }
    (deleteReportRow s1 id, ⟨200, .message "Report deleted successfully"⟩)

/-! ## routes/vitals.js -/

/-- Body of `POST /vitals` and `PUT /vitals/:id`. -/
structure VitalBody where
  reportId : Option Nat
  fields : VitalFields
  date : Option String
deriving DecidableEq

/-- Handler `router.post('/')` of vitals.js. -/
def postVital (s : Store) (now userId : Nat) (body : VitalBody) : Store × Response :=
  if !truthyStr body.date then
    (s, ⟨400, .error "Date is required"⟩)
  else if fkVitalOk s userId (idOrNull body.reportId) then
    let lastID := nextId s.vitalSeq (s.vitals.map (·.id))
    ({ s with
        vitals := s.vitals ++
          [mkVital lastID userId body.reportId body.fields (body.date.getD "") now],
        vitalSeq := lastID },
     ⟨201, .vitalCreated "Vitals saved successfully" lastID⟩)
  else
    (s, ⟨500, .error "Failed to save vitals"⟩)

/-- The expression `x !== undefined ? x : old`. -/
def JsVal.orKeep (x old : JsVal) : JsVal :=
  if x = .undefined then old else x

/-- The row the `UPDATE vitals SET ...` statement leaves in place of `vital`:
each measurement is bound as `x !== undefined ? x : old` and held as the
column stores it. -/
def updatedVital (vital : Vital) (body : VitalBody) : Vital :=
  { vital with
    blood_pressure_systolic := storedInColumn (body.fields.bloodPressureSystolic.orKeep vital.blood_pressure_systolic),
    blood_pressure_diastolic := storedInColumn (body.fields.bloodPressureDiastolic.orKeep vital.blood_pressure_diastolic),
    blood_sugar_fasting := storedInColumn (body.fields.bloodSugarFasting.orKeep vital.blood_sugar_fasting),
    blood_sugar_postprandial := storedInColumn (body.fields.bloodSugarPostprandial.orKeep vital.blood_sugar_postprandial),
    heart_rate := storedInColumn (body.fields.heartRate.orKeep vital.heart_rate),
    temperature := storedInColumn (body.fields.temperature.orKeep vital.temperature),
    weight := storedInColumn (body.fields.weight.orKeep vital.weight),
    height := storedInColumn (body.fields.height.orKeep vital.height),
    cholesterol := storedInColumn (body.fields.cholesterol.orKeep vital.cholesterol),
    date := if truthyStr body.date then body.date.getD "" else vital.date }

/-- Handler `router.put('/:id')` of vitals.js.  The new column values are
computed from the row the `SELECT` returned and written to every row with
`id = ? AND user_id = ?`. -/
def putVital (s : Store) (userId id : Nat) (body : VitalBody) : Store × Response :=
  match s.vitals.find? (fun v => v.id == id && v.user_id == userId) with
  | none => (s, ⟨404, .error "Vital entry not found or access denied"⟩)
  | some vital =>
    let u := updatedVital vital body
    ({ s with vitals := s.vitals.map (fun v =>
          if v.id = id ∧ v.user_id = userId then
            { v with
              blood_pressure_systolic := u.blood_pressure_systolic,
              blood_pressure_diastolic := u.blood_pressure_diastolic,
              blood_sugar_fasting := u.blood_sugar_fasting,
              blood_sugar_postprandial := u.blood_sugar_postprandial,
              heart_rate := u.heart_rate,
              temperature := u.temperature,
              weight := u.weight,
              height := u.height,
              cholesterol := u.cholesterol,
              date := u.date }
          else v) },
     ⟨200, .message "Vitals updated successfully"⟩)

/-- Handler `router.delete('/:id')` of vitals.js. -/
def deleteVital (s : Store) (userId id : Nat) : Store × Response :=
  match s.vitals.find? (fun v => v.id == id && v.user_id == userId) with
  | none => (s, ⟨404, .error "Vital entry not found or access denied"⟩)
  | some _ =>
    ({ s with vitals := s.vitals.filter (fun v => !(v.id == id && v.user_id == userId)) },
     ⟨200, .message "Vitals deleted successfully"⟩)

/-- Query string of `GET /vitals` and `GET /vitals/trends`. -/
structure VitalQuery where
  startDate : Option String
  endDate : Option String
  vitalType : Option String
deriving DecidableEq

/-- The clauses `AND date >= ?` and `AND date <= ?`, each added only when its
parameter is truthy. -/
def inDateRange (q : VitalQuery) (date : String) : Bool :=
  (if truthyStr q.startDate then decide (¬ textLt date (q.startDate.getD "")) else true) &&
  (if truthyStr q.endDate then decide (¬ textLt (q.endDate.getD "") date) else true)

/-- Clause `ORDER BY date ASC, created_at ASC`. -/
def vitalBefore (a b : Vital) : Prop :=
  textLt a.date b.date ∨ (a.date = b.date ∧ a.created_at ≤ b.created_at)

instance : DecidableRel vitalBefore := fun a b => by
  unfold vitalBefore; infer_instance

/-- The `switch (vitalType)` inside the filter callback of `GET /vitals`. -/
def vitalTypeKeeps (vitalType : String) (vital : Vital) : Bool :=
  if vitalType = "blood_pressure" then vital.blood_pressure_systolic != .null
  else if vitalType = "blood_sugar" then
    vital.blood_sugar_fasting != .null || vital.blood_sugar_postprandial != .null
  else if vitalType = "heart_rate" then vital.heart_rate != .null
  else if vitalType = "cholesterol" then vital.cholesterol != .null
  else if vitalType = "weight" then vital.weight != .null
  else if vitalType = "temperature" then vital.temperature != .null
  else true

/-- The rows `SELECT * FROM vitals WHERE user_id = ? ... ORDER BY date ASC,
created_at ASC` returns. -/
def selectVitals (s : Store) (userId : Nat) (q : VitalQuery) : List Vital :=
  List.insertionSort vitalBefore
    (s.vitals.filter (fun v => v.user_id == userId && inDateRange q v.date))

/-- Handler `router.get('/')` of vitals.js. -/
def getVitals (s : Store) (userId : Nat) (q : VitalQuery) : Response :=
  let vitals := selectVitals s userId q
  let filteredVitals :=
    if truthyStr q.vitalType then vitals.filter (vitalTypeKeeps (q.vitalType.getD ""))
    else vitals
  ⟨200, .vitals filteredVitals⟩

/-- Row object of the trends query: `date` and the selected columns; a column
that is not in the `SELECT` list reads as `undefined`. -/
structure TrendRow where
  date : String
  blood_pressure_systolic : JsVal
  blood_pressure_diastolic : JsVal
  blood_sugar_fasting : JsVal
  blood_sugar_postprandial : JsVal
  heart_rate : JsVal
  cholesterol : JsVal
  weight : JsVal
  temperature : JsVal
deriving DecidableEq

/-- Row with no measurement column selected. -/
def TrendRow.dateOnly (date : String) : TrendRow :=
  { date := date, blood_pressure_systolic := .undefined, blood_pressure_diastolic := .undefined,
    blood_sugar_fasting := .undefined, blood_sugar_postprandial := .undefined,
    heart_rate := .undefined, cholesterol := .undefined, weight := .undefined,
    temperature := .undefined }

/-- The column list the first `switch (vitalType)` of `GET /vitals/trends`
puts into the `SELECT`. -/
def trendColumns (vitalType : Option String) (v : Vital) : TrendRow :=
  if vitalType = some "blood_pressure" then
    { TrendRow.dateOnly v.date with
      blood_pressure_systolic := v.blood_pressure_systolic,
      blood_pressure_diastolic := v.blood_pressure_diastolic }
  else if vitalType = some "blood_sugar" then
    { TrendRow.dateOnly v.date with
      blood_sugar_fasting := v.blood_sugar_fasting,
      blood_sugar_postprandial := v.blood_sugar_postprandial }
  else if vitalType = some "heart_rate" then
    { TrendRow.dateOnly v.date with heart_rate := v.heart_rate }
  else if vitalType = some "cholesterol" then
    { TrendRow.dateOnly v.date with cholesterol := v.cholesterol }
  else if vitalType = some "weight" then
    { TrendRow.dateOnly v.date with weight := v.weight }
  else if vitalType = some "temperature" then
    { TrendRow.dateOnly v.date with temperature := v.temperature }
  else
    { TrendRow.dateOnly v.date with
      blood_pressure_systolic := v.blood_pressure_systolic,
      blood_pressure_diastolic := v.blood_pressure_diastolic,
      blood_sugar_fasting := v.blood_sugar_fasting,
      heart_rate := v.heart_rate,
      cholesterol := v.cholesterol,
      weight := v.weight,
      temperature := v.temperature }

/-- The statement `if (x) dataPoint.k = x`. -/
def JsVal.keyIfTruthy (x : JsVal) : Option JsVal :=
  if x.truthy then some x else none

/-- The callback of `vitals.map` that builds `formattedData`. -/
def formatPoint (vitalType : Option String) (vital : TrendRow) : TrendPoint :=
  let dataPoint : TrendPoint :=
    { date := vital.date, systolic := none, diastolic := none, fasting := none,
      postprandial := none, heartRate := none, cholesterol := none, weight := none,
      temperature := none }
  if vitalType = some "blood_pressure" then
    { dataPoint with
      systolic := some vital.blood_pressure_systolic,
      diastolic := some vital.blood_pressure_diastolic }
  else if vitalType = some "blood_sugar" then
    { dataPoint with
      fasting := some vital.blood_sugar_fasting,
      postprandial := some vital.blood_sugar_postprandial }
  else
    { dataPoint with
      systolic := vital.blood_pressure_systolic.keyIfTruthy,
      diastolic := vital.blood_pressure_diastolic.keyIfTruthy,
      fasting := vital.blood_sugar_fasting.keyIfTruthy,
      postprandial := vital.blood_sugar_postprandial.keyIfTruthy,
      heartRate := vital.heart_rate.keyIfTruthy,
      cholesterol := vital.cholesterol.keyIfTruthy,
      weight := vital.weight.keyIfTruthy,
      temperature := vital.temperature.keyIfTruthy }

/-- Clause `ORDER BY date ASC` of the trends query. -/
def trendBefore (a b : Vital) : Prop := ¬ textLt b.date a.date

instance : DecidableRel trendBefore := fun a b => by
  unfold trendBefore; infer_instance

/-- The rows of `vitals` the trends query reads, in its order. -/
def selectTrendRows (s : Store) (userId : Nat) (q : VitalQuery) : List Vital :=
  List.insertionSort trendBefore
    (s.vitals.filter (fun v => v.user_id == userId && inDateRange q v.date))

/-- Handler `router.get('/trends')` of vitals.js. -/
def getTrends (s : Store) (userId : Nat) (q : VitalQuery) : Response :=
  ⟨200, .trends ((selectTrendRows s userId q).map
    (fun v => formatPoint q.vitalType (trendColumns q.vitalType v)))⟩

/-! ## Requests and the transition function -/

/-- A request of an authenticated caller, one constructor per modelled route. -/
inductive Op where
  | upload (file : Option UploadedFile) (body : UploadBody) (insertFails : Bool)
  | reportDetail (id : Nat)
  | reportDownload (id : Nat)
  | reportDelete (id : Nat)
  | sharedReports
  | share (reportId : Nat) (body : ShareBody)
  | listShares (reportId : Nat)
  | revoke (shareId : Nat)
  | vitalCreate (body : VitalBody)
  | vitalUpdate (id : Nat) (body : VitalBody)
  | vitalDelete (id : Nat)
deriving DecidableEq

/-- One request served in one piece, with no statement of another request
between its statements: `now` is the value of `CURRENT_TIMESTAMP`, `userId`
is `req.user.id`. -/
def handle (s : Store) (now userId : Nat) : Op → Store × Response
  | .upload file body insertFails => postUpload s now userId file body insertFails
  | .reportDetail id => (s, getReport s userId id)
  | .reportDownload id => (s, getDownload s userId id)
  | .reportDelete id => deleteReport s userId id
  | .sharedReports => (s, getShared s userId)
  | .share reportId body => postShare s now userId reportId body
  | .listShares reportId => (s, getSharesForReport s userId reportId)
  | .revoke shareId => deleteShare s userId shareId
  | .vitalCreate body => postVital s now userId body
  | .vitalUpdate id body => putVital s userId id body
  | .vitalDelete id => deleteVital s userId id

/-- A request as it arrives: who sends it, when, and what. -/
structure Request where
  userId : Nat
  now : Nat
  op : Op
deriving DecidableEq

/-- The store after serving a list of requests one after another, each to
its answer before the next begins.  This is one of the executions of the
server; `exec` further down also lets the statements of share requests
interleave. -/
def run (s : Store) : List Request → Store
  | [] => s
  | q :: qs => run (handle s q.now q.userId q.op).1 qs

/-! ## The conditions the statements below are phrased with -/

/-- User `u` owns report `R`: a row of `reports` has this id and this owner. -/
def Owns (s : Store) (u R : Nat) : Prop :=
  ∃ r ∈ s.reports, r.id = R ∧ r.user_id = u

/-- A grant for the pair (`R`, `u`) exists, whatever its role. -/
def HasGrant (s : Store) (u R : Nat) : Prop :=
  ∃ g ∈ s.access_shares, g.report_id = R ∧ g.shared_with_user_id = u

/-- Report `R` exists and `u` is its owner or holds a grant on it. -/
def CanRead (s : Store) (u R : Nat) : Prop :=
  ∃ r ∈ s.reports, r.id = R ∧ (r.user_id = u ∨ HasGrant s u R)

/-- Grant `G` exists and, joined to `reports`, its report is owned by `u`. -/
def OwnsShare (s : Store) (u G : Nat) : Prop :=
  ∃ g ∈ s.access_shares, g.id = G ∧ Owns s u g.report_id

/-- Vitals row `V` exists and belongs to `u`. -/
def OwnsVital (s : Store) (u V : Nat) : Prop :=
  ∃ v ∈ s.vitals, v.id = V ∧ v.user_id = u

instance (s : Store) (u R : Nat) : Decidable (Owns s u R) := by
  unfold Owns; infer_instance

instance (s : Store) (u R : Nat) : Decidable (HasGrant s u R) := by
  unfold HasGrant; infer_instance

instance (s : Store) (u R : Nat) : Decidable (CanRead s u R) := by
  unfold CanRead; infer_instance

instance (s : Store) (u G : Nat) : Decidable (OwnsShare s u G) := by
  unfold OwnsShare; infer_instance

instance (s : Store) (u V : Nat) : Decidable (OwnsVital s u V) := by
  unfold OwnsVital; infer_instance

/-- Whether the caller is authorised for the record a record-scoped request
names: read access for detail and download, ownership of the report for
delete, share and the grant list, ownership of the grant's report for revoke,
ownership of the row for the vitals writes.  Requests that name no record are
always authorised. -/
def Authorised (s : Store) (u : Nat) : Op → Prop
  | .reportDetail R => CanRead s u R
  | .reportDownload R => CanRead s u R
  | .reportDelete R => Owns s u R
  | .share R _ => Owns s u R
  | .listShares R => Owns s u R
  | .revoke G => OwnsShare s u G
  | .vitalUpdate V _ => OwnsVital s u V
  | .vitalDelete V => OwnsVital s u V
  | .upload _ _ _ => True
  | .sharedReports => True
  | .vitalCreate _ => True

/-- The request is record-scoped and the record it names (report, grant or
vitals row) is not in the store at all. -/
def RecordAbsent (s : Store) : Op → Prop
  | .reportDetail R => ∀ r ∈ s.reports, r.id ≠ R
  | .reportDownload R => ∀ r ∈ s.reports, r.id ≠ R
  | .reportDelete R => ∀ r ∈ s.reports, r.id ≠ R
  | .share R _ => ∀ r ∈ s.reports, r.id ≠ R
  | .listShares R => ∀ r ∈ s.reports, r.id ≠ R
  | .revoke G => ∀ g ∈ s.access_shares, g.id ≠ G
  | .vitalUpdate V _ => ∀ v ∈ s.vitals, v.id ≠ V
  | .vitalDelete V => ∀ v ∈ s.vitals, v.id ≠ V
  | .upload _ _ _ => False
  | .sharedReports => False
  | .vitalCreate _ => False

/-- At most one grant per (report, grantee) pair. -/
def PairUnique (s : Store) : Prop :=
  ∀ R u : Nat, (s.access_shares.filter
    (fun g => g.report_id == R && g.shared_with_user_id == u)).length ≤ 1

/-- The constraints the schema puts on a store: primary keys and the UNIQUE
email column hold no value twice, and, when foreign keys are enforced, every
report's owner is an account. -/
structure Store.WF (s : Store) : Prop where
  users_id : (s.users.map (·.id)).Nodup
  users_email : (s.users.map (·.email)).Nodup
  reports_id : (s.reports.map (·.id)).Nodup
  vitals_id : (s.vitals.map (·.id)).Nodup
  shares_id : (s.access_shares.map (·.id)).Nodup
  reports_fk : s.foreignKeys = true → ∀ r ∈ s.reports, ∃ u ∈ s.users, u.id = r.user_id

instance (s : Store) (u : Nat) (op : Op) : Decidable (Authorised s u op) := by
  cases op <;> simp only [Authorised] <;> infer_instance

instance (s : Store) (op : Op) : Decidable (RecordAbsent s op) := by
  cases op <;> simp only [RecordAbsent] <;> infer_instance

instance (s : Store) : Decidable s.WF :=
  decidable_of_iff
    ((s.users.map (·.id)).Nodup ∧ (s.users.map (·.email)).Nodup ∧
     (s.reports.map (·.id)).Nodup ∧ (s.vitals.map (·.id)).Nodup ∧
     (s.access_shares.map (·.id)).Nodup ∧
     (s.foreignKeys = true → ∀ r ∈ s.reports, ∃ u ∈ s.users, u.id = r.user_id))
    ⟨fun h => ⟨h.1, h.2.1, h.2.2.1, h.2.2.2.1, h.2.2.2.2.1, h.2.2.2.2.2⟩,
     fun h => ⟨h.users_id, h.users_email, h.reports_id, h.vitals_id, h.shares_id, h.reports_fk⟩⟩

/-- Role accepted by the role check of the share handler, after the default
`viewer` has been put in for a missing key. -/
def ValidRole (role : Option String) : Prop :=
  role.getD "viewer" = "viewer" ∨ role.getD "viewer" = "editor"

instance (role : Option String) : Decidable (ValidRole role) := by
  unfold ValidRole; infer_instance

/-! ## Example stores -/

/-- Three accounts. -/
def alice : User := ⟨1, "alice", "alice@example.org"⟩

/-- Second account. -/
def bob : User := ⟨2, "bob", "bob@example.org"⟩

/-- Third account. -/
def carol : User := ⟨3, "carol", "carol@example.org"⟩

/-- Alice has uploaded one report, dated 2024-03-01 and typed Blood Test. -/
def exOwned : Store :=
  run (Store.init false [alice, bob, carol])
    [⟨1, 100, .upload (some ⟨"1709-42.pdf", "blood.pdf", ".pdf"⟩)
        ⟨some "Blood Test", some "2024-03-01", none⟩ false⟩]

/-- Alice has shared the report with Bob as editor. -/
def exShared : Store :=
  run exOwned [⟨1, 101, .share 1 ⟨some "bob@example.org", some "editor"⟩⟩]

/-! ## The share handler with a failing insert -/

/-- Handler `router.post('/:reportId')` of shares.js once more, with the
outcome of the `INSERT INTO access_shares` statement made explicit:
`insertFails` injects an error into its callback (the branch
`if (err) return res.status(500)...`), whatever the cause of the error. -/
def postShareWith (insertFails : Bool) (s : Store) (now ownerId reportId : Nat)
    (body : ShareBody) : Store × Response :=
  let role := body.role.getD "viewer"
  if !truthyStr body.sharedWithEmail then
    (s, ⟨400, .error "Email address is required"⟩)
  else if !(["viewer", "editor"].contains role) then
    (s, ⟨400, .error "Invalid role. Must be viewer or editor"⟩)
  else
    let sharedWithEmail := body.sharedWithEmail.getD ""
    match s.reports.find? (fun r => r.id == reportId && r.user_id == ownerId) with
    | none => (s, ⟨404, .error "Report not found or access denied"⟩)
    | some _ =>
      match s.users.find? (fun u => u.email == sharedWithEmail) with
      | none => (s, ⟨404, .error "User with this email not found"⟩)
      | some sharedUser =>
        if sharedUser.id = ownerId then
          (s, ⟨400, .error "Cannot share report with yourself"⟩)
        else
          match s.access_shares.find?
              (fun g => g.report_id == reportId && g.shared_with_user_id == sharedUser.id) with
          | some existingShare =>
            ({ s with
                access_shares := s.access_shares.map
                  (fun g => if g.id = existingShare.id then { g with role := role } else g) },
             ⟨200, .message "Share updated successfully"⟩)
          | none =>
            if !insertFails && fkShareOk s reportId ownerId sharedUser.id then
              let lastID := nextId s.shareSeq (s.access_shares.map (·.id))
              ({ s with
                  access_shares := s.access_shares ++
                    [{ id := lastID, report_id := reportId, owner_id := ownerId,
                       shared_with_user_id := sharedUser.id,
                       shared_with_email := sharedWithEmail, role := role,
                       created_at := now }],
                  shareSeq := lastID },
               ⟨201, .shareCreated "Report shared successfully" lastID⟩)
            else
              (s, ⟨500, .error "Failed to create share"⟩)

/-- The statement `INSERT INTO access_shares (...) VALUES (...)` on its own:
the table of database.js declares a primary key and three foreign keys and
no UNIQUE constraint, so the row is appended whether or not the pair
(report_id, shared_with_user_id) is already there. -/
def insertShare (s : Store) (now reportId ownerId granteeId : Nat) (email role : String) :
    Option Store :=
  if fkShareOk s reportId ownerId granteeId then
    let lastID := nextId s.shareSeq (s.access_shares.map (·.id))
    some { s with
      access_shares := s.access_shares ++
        [{ id := lastID, report_id := reportId, owner_id := ownerId,
           shared_with_user_id := granteeId, shared_with_email := email, role := role,
           created_at := now }],
      shareSeq := lastID }
  else none

/-! ## The category table -/

/-- The six categories of the category table. -/
def tableCategories : List String :=
  ["blood_pressure", "blood_sugar", "heart_rate", "cholesterol", "weight", "temperature"]

/-- Stated from the category table of the specification: the defining field
of the category is non-null on the row (blood_pressure: systolic; blood_sugar:
fasting or postprandial; the others: the field of that name).  False for a
string that is no category of the table. -/
def CategoryPresent (category : String) (v : Vital) : Prop :=
  (category = "blood_pressure" ∧ v.blood_pressure_systolic ≠ .null) ∨
  (category = "blood_sugar" ∧
    (v.blood_sugar_fasting ≠ .null ∨ v.blood_sugar_postprandial ≠ .null)) ∨
  (category = "heart_rate" ∧ v.heart_rate ≠ .null) ∨
  (category = "cholesterol" ∧ v.cholesterol ≠ .null) ∨
  (category = "weight" ∧ v.weight ≠ .null) ∨
  (category = "temperature" ∧ v.temperature ≠ .null)

instance (category : String) (v : Vital) : Decidable (CategoryPresent category v) := by
  unfold CategoryPresent; infer_instance

/-- The vitals rows a response body carries. -/
def Body.vitalRows : Body → List Vital
  | .reportDetail _ (some v) => [v]
  | .vitals rows => rows
  | _ => []

/-! ## More example stores -/

/-- A vitals payload with no key present. -/
def noFields : VitalFields :=
  ⟨.undefined, .undefined, .undefined, .undefined, .undefined, .undefined, .undefined,
   .undefined, .undefined⟩

/-- Alice has linked a heart-rate reading to her shared report 1. -/
def exLinked : Store :=
  run exShared
    [⟨1, 102, .vitalCreate ⟨some 1, { noFields with heartRate := .num 72 }, some "2024-03-01"⟩⟩]

/-- The same history on a connection that enforces foreign keys. -/
def exLinkedFk : Store :=
  run (Store.init true [alice, bob, carol])
    [⟨1, 100, .upload (some ⟨"1709-42.pdf", "blood.pdf", ".pdf"⟩)
        ⟨some "Blood Test", some "2024-03-01", none⟩ false⟩,
     ⟨1, 101, .share 1 ⟨some "bob@example.org", some "editor"⟩⟩,
     ⟨1, 102, .vitalCreate ⟨some 1, { noFields with heartRate := .num 72 }, some "2024-03-01"⟩⟩]

/-- Alice has recorded a fasting reading on 2024-01-01 and a postprandial
reading on 2024-01-02. -/
def exSugar : Store :=
  run (Store.init false [alice, bob, carol])
    [⟨1, 100, .vitalCreate ⟨none, { noFields with bloodSugarFasting := .num 95 },
        some "2024-01-01"⟩⟩,
     ⟨1, 101, .vitalCreate ⟨none, { noFields with bloodSugarPostprandial := .num 140 },
        some "2024-01-02"⟩⟩]

/-- Alice has recorded a row with a weight and no heart rate, then set the
weight to 0 with an update. -/
def exZeroWeight : Store :=
  run (Store.init false [alice, bob, carol])
    [⟨1, 100, .vitalCreate ⟨none, { noFields with weight := .num 70 }, some "2024-01-01"⟩⟩,
     ⟨1, 101, .vitalUpdate 1 ⟨none, { noFields with weight := .num 0 }, none⟩⟩]

/-- Alice has entered a reading dated 5 February, then two readings dated
10 January (the second with a weight only); Bob has entered one reading. -/
def exThreeDates : Store :=
  run (Store.init false [alice, bob, carol])
    [⟨1, 100, .vitalCreate ⟨none, { noFields with heartRate := .num 72 }, some "2024-02-05"⟩⟩,
     ⟨1, 101, .vitalCreate ⟨none, { noFields with heartRate := .num 75 }, some "2024-01-10"⟩⟩,
     ⟨1, 102, .vitalCreate ⟨none, { noFields with weight := .num 70 }, some "2024-01-10"⟩⟩,
     ⟨2, 103, .vitalCreate ⟨none, { noFields with heartRate := .num 80 }, some "2024-01-01"⟩⟩]

/-- Bob has recorded a reading and named Alice's report 1 as its report. -/
def exForeign : Store :=
  run exOwned
    [⟨2, 200, .vitalCreate ⟨some 1, { noFields with heartRate := .num 80 }, some "2024-03-02"⟩⟩]

/-- The date lies in the requested range: not before the start and not after
the end, each bound applying only when it is given (and not empty). -/
def InRange (q : VitalQuery) (date : String) : Prop :=
  (∀ a, q.startDate = some a → a ≠ "" → ¬ textLt date a) ∧
  (∀ b, q.endDate = some b → b ≠ "" → ¬ textLt b date)

/-- The row passes the category of the query: when the query names a category
of the table, the row has that category's field; any other value of
`vitalType` (none, empty, `all`, an unknown name) excludes no row. -/
def KeptBy (q : VitalQuery) (v : Vital) : Prop :=
  ∀ c ∈ tableCategories, q.vitalType = some c → CategoryPresent c v

/-- A measurement of an update request takes effect on a stored value as the
claim words it: a key that is present (any value but `undefined`, `null`
included) replaces the stored value by the supplied value, a key that is
absent keeps it. -/
def FieldReplaced (x old new : JsVal) : Prop :=
  (x ≠ .undefined → new = x) ∧ (x = .undefined → new = old)

instance (x old new : JsVal) : Decidable (FieldReplaced x old new) := by
  unfold FieldReplaced; infer_instance

/-- A measurement of an update request takes effect on a stored value: a key
that is present (any value but `undefined`, `null` included) replaces the
stored value by the supplied value as the column holds it, a key that is
absent keeps the stored value. -/
def FieldWritten (x old new : JsVal) : Prop :=
  (x ≠ .undefined → HeldAs x new) ∧ (x = .undefined → new = old)

/-- Every measurement of the row is a value its column can hold. -/
def Vital.Held (v : Vital) : Prop :=
  HealthWallet.Held v.blood_pressure_systolic ∧ HealthWallet.Held v.blood_pressure_diastolic ∧
  HealthWallet.Held v.blood_sugar_fasting ∧ HealthWallet.Held v.blood_sugar_postprandial ∧
  HealthWallet.Held v.heart_rate ∧ HealthWallet.Held v.temperature ∧
  HealthWallet.Held v.weight ∧ HealthWallet.Held v.height ∧
  HealthWallet.Held v.cholesterol

instance (v : Vital) : Decidable v.Held := by
  unfold Vital.Held; infer_instance

/-- Alice has recorded a weight and a heart rate. -/
def exTwoFields : Store :=
  run (Store.init false [alice, bob, carol])
    [⟨1, 100, .vitalCreate
        ⟨none, { noFields with weight := .num 70, heartRate := .num 72 }, some "2024-01-01"⟩⟩]

/-! ## The listings of reports -/

/-- Query string of `GET /reports`. -/
structure ReportQuery where
  date : Option String
  reportType : Option String
  vitalType : Option String
deriving DecidableEq

/-- The disjunction inside the `EXISTS` clause of `GET /reports`, for one
vitals row and the bound `vitalType`. -/
def reportTypeClause (vitalType : String) (v : Vital) : Bool :=
  (v.blood_pressure_systolic != .null && vitalType == "blood_pressure") ||
  (v.blood_sugar_fasting != .null && vitalType == "blood_sugar") ||
  (v.heart_rate != .null && vitalType == "heart_rate") ||
  (v.cholesterol != .null && vitalType == "cholesterol")

/-- The `WHERE` clause `GET /reports` builds: the owner, and one conjunct for
each truthy query parameter. -/
def reportSelected (s : Store) (userId : Nat) (q : ReportQuery) (r : Report) : Bool :=
  r.user_id == userId &&
  (if truthyStr q.date then r.date == q.date.getD "" else true) &&
  (if truthyStr q.reportType then r.report_type == q.reportType.getD "" else true) &&
  (if truthyStr q.vitalType then
    s.vitals.any (fun v => v.report_id == some r.id && reportTypeClause (q.vitalType.getD "") v)
   else true)

/-- Clause `ORDER BY r.date DESC, r.created_at DESC`. -/
def reportBefore (a b : Report) : Prop :=
  textLt b.date a.date ∨ (a.date = b.date ∧ b.created_at ≤ a.created_at)

instance : DecidableRel reportBefore := fun a b => by
  unfold reportBefore; infer_instance

/-- The subquery `(SELECT COUNT(*) FROM access_shares WHERE report_id = r.id)`. -/
def shareCount (s : Store) (r : Report) : Nat :=
  (s.access_shares.filter (fun g => g.report_id == r.id)).length

/-- Handler `router.get('/')` of reports.js. -/
def getReports (s : Store) (userId : Nat) (q : ReportQuery) : Response :=
  ⟨200, .reports ((List.insertionSort reportBefore
    (s.reports.filter (reportSelected s userId q))).map (fun r => ⟨r, shareCount s r⟩))⟩

/-- The `LEFT JOIN users u ON as_table.owner_id = u.id` of one joined row of
`GET /shares/shared-with-me`. -/
def joinOwnerFull (users : List User) (r : Report) (g : AccessShare) : List SharedWithMeRow :=
  match users.filter (fun u => u.id == g.owner_id) with
  | [] => [⟨r, g.role, g.created_at, none, none⟩]
  | us => us.map (fun u => ⟨r, g.role, g.created_at, some u.username, some u.email⟩)

/-- The joined rows of `GET /shares/shared-with-me` before the `ORDER BY`. -/
def sharedWithMeJoin (s : Store) (userId : Nat) : List SharedWithMeRow :=
  s.reports.flatMap (fun r =>
    (s.access_shares.filter
      (fun g => r.id == g.report_id && g.shared_with_user_id == userId)).flatMap
      (joinOwnerFull s.users r))

/-- Clause `ORDER BY as_table.created_at DESC` of `GET /shares/shared-with-me`. -/
def sharedAtBefore (a b : SharedWithMeRow) : Prop := b.shared_at ≤ a.shared_at

instance : DecidableRel sharedAtBefore := fun a b => by
  unfold sharedAtBefore; infer_instance

/-- Handler `router.get('/shared-with-me')` of shares.js. -/
def getSharedWithMe (s : Store) (userId : Nat) : Response :=
  ⟨200, .sharedWithMe (List.insertionSort sharedAtBefore (sharedWithMeJoin s userId))⟩

/-! ## The upload file filter -/

/-- Function `path.extname` (POSIX) on the characters of a path: trailing
slashes are dropped, the last path component is taken, and the result runs
from its last dot to its end; it is empty when there is no dot, when the last
dot is the first character of the component, and for the component `..`. -/
def extnameChars (path : List Char) : List Char :=
  let component := ((path.reverse.dropWhile (· == '/')).takeWhile (· != '/')).reverse
  let afterDot := (component.reverse.takeWhile (· != '.')).length
  if !component.contains '.' then []
  else
    let startDot := component.length - afterDot - 1
    if startDot = 0 then []
    else if component = ['.', '.'] then []
    else component.drop startDot

/-- Whether `pat` occurs in `s` as a contiguous run of characters. -/
def occursIn (pat : List Char) : List Char → Bool
  | [] => pat.isEmpty
  | c :: cs => pat.isPrefixOf (c :: cs) || occursIn pat cs

/-- The test `/jpeg|jpg|png|gif|pdf/.test(s)`: the pattern has no anchors, so
it matches when one of the five words occurs anywhere in `s`. -/
def allowedTypesTest (s : List Char) : Bool :=
  occursIn "jpeg".data s || occursIn "jpg".data s || occursIn "png".data s ||
  occursIn "gif".data s || occursIn "pdf".data s

/-- The file part of an upload request as multer sees it: the name and the
content type the client declares, and the name `diskStorage` generates. -/
structure IncomingFile where
  originalname : String
  mimetype : String
  filename : String
deriving DecidableEq

/-- Function `fileFilter` of reports.js: `true` is `cb(null, true)`, `false`
is `cb(new Error('Only PDF and image files are allowed'))`.  Lower-casing is
modelled on ASCII letters, the only letters the pattern holds. -/
def fileFilter (file : IncomingFile) : Bool :=
  let extname := allowedTypesTest ((extnameChars file.originalname.data).map Char.toLower)
  let mimetype := allowedTypesTest file.mimetype.data
  extname && mimetype

/-- The route `POST /reports/upload` as a whole: multer runs `fileFilter`; on
rejection nothing is written, the handler is not called and the error handler
of index.js answers 400 with the error message (which contains `file`); on
acceptance the bytes are written and the handler runs. -/
def uploadRoute (s : Store) (now userId : Nat) (file : Option IncomingFile) (body : UploadBody)
    (insertFails : Bool) : Store × Response :=
  match file with
  | none => postUpload s now userId none body insertFails
  | some f =>
    if fileFilter f then
      postUpload s now userId
        (some ⟨f.filename, f.originalname, String.mk (extnameChars f.originalname.data)⟩)
        body insertFails
    else (s, ⟨400, .error "Only PDF and image files are allowed"⟩)

/-- How a measurement of a create request reaches the store: a falsy value
(key absent, `null`, `false`, 0, the empty string) is stored as null, every
other value is stored as the column holds it. -/
def FieldStored (x stored : JsVal) : Prop :=
  ((x = .undefined ∨ x = .null ∨ x = .bool false ∨ x = .num 0 ∨ x = .str "") →
    stored = .null) ∧
  (¬ (x = .undefined ∨ x = .null ∨ x = .bool false ∨ x = .num 0 ∨ x = .str "") →
    HeldAs x stored)

/-- Every measurement of the payload reaches the row as `FieldStored` says. -/
def FieldsStored (f : VitalFields) (v : Vital) : Prop :=
  FieldStored f.bloodPressureSystolic v.blood_pressure_systolic ∧
  FieldStored f.bloodPressureDiastolic v.blood_pressure_diastolic ∧
  FieldStored f.bloodSugarFasting v.blood_sugar_fasting ∧
  FieldStored f.bloodSugarPostprandial v.blood_sugar_postprandial ∧
  FieldStored f.heartRate v.heart_rate ∧
  FieldStored f.temperature v.temperature ∧
  FieldStored f.weight v.weight ∧
  FieldStored f.height v.height ∧
  FieldStored f.cholesterol v.cholesterol

/-- Alice's report 1 with its file gone from the uploads directory. -/
def exNoBlob : Store := { exOwned with blobs := [] }

/-- The report passes the date and reportType parameters of the query: each
parameter that is given (and not empty) equals the report's column exactly. -/
def ReportMatches (q : ReportQuery) (r : Report) : Prop :=
  (∀ d, q.date = some d → d ≠ "" → r.date = d) ∧
  (∀ t, q.reportType = some t → t ≠ "" → r.report_type = t)

/-- Some vitals row linked to the report satisfies `P`. -/
def HasLinkedVital (s : Store) (r : Report) (P : Vital → Prop) : Prop :=
  ∃ v ∈ s.vitals, v.report_id = some r.id ∧ P v

/-- Alice owns report 1 with a linked weight reading and nothing else. -/
def exWeightReport : Store :=
  run exOwned
    [⟨1, 102, .vitalCreate ⟨some 1, { noFields with weight := .num 70 }, some "2024-03-01"⟩⟩]

/-- Alice has uploaded report 1 (dated 2024-03-01) and then report 2 (dated
2024-01-01) and shared both with Bob, report 1 first. -/
def exTwoShared : Store :=
  run exOwned
    [⟨1, 101, .upload (some ⟨"1709-43.png", "xray.png", ".png"⟩)
        ⟨some "X-Ray", some "2024-01-01", none⟩ false⟩,
     ⟨1, 102, .share 1 ⟨some "bob@example.org", some "viewer"⟩⟩,
     ⟨1, 103, .share 2 ⟨some "bob@example.org", some "editor"⟩⟩]

/-! ## The share handler, statement by statement

The handler of `POST /shares/:reportId` issues four statements, each from
the callback of the one before: the lookup of the report, the lookup of the
account, the lookup of the grant, and the `UPDATE` or `INSERT`.  The
database runs one statement at a time, but between two statements of one
request it may run statements of other requests.  `postShare` is the handler
with its four statements run back to back; here each statement is a step of
its own. -/

/-- Where a request to `POST /shares/:reportId` stands: the statement it has
issued and whose callback has not run yet, or the answer it has sent. -/
inductive SharePhase where
  /-- Statement `SELECT * FROM reports WHERE id = ? AND user_id = ?`. -/
  | reportLookup
  /-- Statement `SELECT id FROM users WHERE email = ?`. -/
  | userLookup
  /-- Statement `SELECT * FROM access_shares WHERE report_id = ? AND
  shared_with_user_id = ?`, with `sharedUser.id`. -/
  | shareLookup (sharedUserId : Nat)
  /-- Statement `UPDATE access_shares SET role = ? WHERE id = ?`, with
  `existingShare.id`. -/
  | update (existingShareId : Nat)
  /-- Statement `INSERT INTO access_shares (...) VALUES (?, ?, ?, ?, ?)`, with
  `sharedUser.id`. -/
  | insert (sharedUserId : Nat)
  /-- The answer has been sent. -/
  | answered (r : Response)
deriving DecidableEq

/-- A request to `POST /shares/:reportId` in flight. -/
structure ShareTask where
  ownerId : Nat
  reportId : Nat
  body : ShareBody
  phase : SharePhase
deriving DecidableEq

/-- The request has been answered. -/
def ShareTask.isAnswered (t : ShareTask) : Bool :=
  match t.phase with
  | .answered _ => true
  | _ => false

/-- The part of the handler that runs when the request arrives: the two
checks of the body; then the lookup of the report is issued. -/
def beginShare (ownerId reportId : Nat) (body : ShareBody) : ShareTask :=
  let role := body.role.getD "viewer"
  if !truthyStr body.sharedWithEmail then
    ⟨ownerId, reportId, body, .answered ⟨400, .error "Email address is required"⟩⟩
  else if !(["viewer", "editor"].contains role) then
    ⟨ownerId, reportId, body, .answered ⟨400, .error "Invalid role. Must be viewer or editor"⟩⟩
  else
    ⟨ownerId, reportId, body, .reportLookup⟩

/-- The statement the request waits on runs against the store as it is now,
and its callback runs: it answers, or issues the next statement.
`insertFails` injects an error into the callback of the `INSERT`, as in
`postShareWith`; `now` is `CURRENT_TIMESTAMP`, read by the `INSERT` only. -/
def stepShare (insertFails : Bool) (s : Store) (now : Nat) (t : ShareTask) : Store × ShareTask :=
  let role := t.body.role.getD "viewer"
  let sharedWithEmail := t.body.sharedWithEmail.getD ""
  match t.phase with
  | .reportLookup =>
    match s.reports.find? (fun r => r.id == t.reportId && r.user_id == t.ownerId) with
    | none =>
      (s, { t with phase := .answered ⟨404, .error "Report not found or access denied"⟩ })
    | some _ => (s, { t with phase := .userLookup })
  | .userLookup =>
    match s.users.find? (fun u => u.email == sharedWithEmail) with
    | none => (s, { t with phase := .answered ⟨404, .error "User with this email not found"⟩ })
    | some sharedUser =>
      if sharedUser.id = t.ownerId then
        (s, { t with phase := .answered ⟨400, .error "Cannot share report with yourself"⟩ })
      else
        (s, { t with phase := .shareLookup sharedUser.id })
  | .shareLookup sharedUserId =>
    match s.access_shares.find?
        (fun g => g.report_id == t.reportId && g.shared_with_user_id == sharedUserId) with
    | some existingShare => (s, { t with phase := .update existingShare.id })
    | none => (s, { t with phase := .insert sharedUserId })
  | .update existingShareId =>
    ({ s with
        access_shares := s.access_shares.map
          (fun g => if g.id = existingShareId then { g with role := role } else g) },
     { t with phase := .answered ⟨200, .message "Share updated successfully"⟩ })
  | .insert sharedUserId =>
    if !insertFails && fkShareOk s t.reportId t.ownerId sharedUserId then
      let lastID := nextId s.shareSeq (s.access_shares.map (·.id))
      ({ s with
          access_shares := s.access_shares ++
            [{ id := lastID, report_id := t.reportId, owner_id := t.ownerId,
               shared_with_user_id := sharedUserId,
               shared_with_email := sharedWithEmail, role := role,
               created_at := now }],
          shareSeq := lastID },
       { t with phase := .answered ⟨201, .shareCreated "Report shared successfully" lastID⟩ })
    else
      (s, { t with phase := .answered ⟨500, .error "Failed to create share"⟩ })
  | .answered _ => (s, t)

/-- The request takes `n` steps in a row, no other statement in between. -/
def stepsShare (insertFails : Bool) (now : Nat) : Nat → Store × ShareTask → Store × ShareTask
  | 0, c => c
  | n + 1, c => stepsShare insertFails now n (stepShare insertFails c.1 now c.2)

/-- The server between two statements: the tables, and the share requests
that have arrived, in order of arrival. -/
structure Config where
  store : Store
  inflight : List ShareTask
deriving DecidableEq

/-- What happens next at the server. -/
inductive Event where
  /-- A request is served in one piece, as `handle` does.  The other routes
  write `reports` and `access_shares`, the tables the share handler reads,
  with one statement each, so it makes no difference to a share request
  where between its statements the remaining statements of such a request
  fall. -/
  | serve (q : Request)
  /-- A share request arrives: its checks run and its first statement is issued. -/
  | arrive (ownerId reportId : Nat) (body : ShareBody)
  /-- The statement of the `i`-th share request in flight runs, with its callback. -/
  | advance (i now : Nat) (insertFails : Bool)
deriving DecidableEq

/-- One event. -/
def exec1 (c : Config) : Event → Config
  | .serve q => { c with store := (handle c.store q.now q.userId q.op).1 }
  | .arrive ownerId reportId body =>
    { c with inflight := c.inflight ++ [beginShare ownerId reportId body] }
  | .advance i now insertFails =>
    match c.inflight[i]? with
    | none => c
    | some t =>
      ⟨(stepShare insertFails c.store now t).1,
       c.inflight.set i (stepShare insertFails c.store now t).2⟩

/-- A schedule: the events in the order in which they happen. -/
def exec (c : Config) : List Event → Config
  | [] => c
  | e :: es => exec (exec1 c e) es

/-- The event starts a share request. -/
def Event.startsShare : Event → Bool
  | .serve q =>
    match q.op with
    | .share _ _ => true
    | _ => false
  | .arrive _ _ _ => true
  | .advance _ _ _ => false

/-- No two share requests overlap in the schedule: a share request starts
only when every share request that arrived before it has been answered.
Requests of the other routes may come at any point. -/
def sharesApart (c : Config) : List Event → Bool
  | [] => true
  | e :: es =>
    (!e.startsShare || c.inflight.all (·.isAnswered)) && sharesApart (exec1 c e) es

/-- What the proof of uniqueness carries along a schedule: the pairs are
unique, at most one request in flight is unanswered, and a request that has
issued its `INSERT` has no grant for its pair in the table. -/
def SharesInv (c : Config) : Prop :=
  PairUnique c.store ∧
  (∃ i : Nat, ∀ (j : Nat) (t : ShareTask), j ≠ i → c.inflight[j]? = some t →
    t.isAnswered = true) ∧
  (∀ (j : Nat) (t : ShareTask) (x : Nat), c.inflight[j]? = some t → t.phase = .insert x →
    c.store.access_shares.filter
      (fun g => g.report_id == t.reportId && g.shared_with_user_id == x) = [])

/-- Two requests of Alice to share report 1 with Bob arrive together: both
look the grant up before either inserts.  The first asks for `viewer`, the
second for `editor`. -/
def exOverlap : List Event :=
  [.serve ⟨1, 100, .upload (some ⟨"1709-42.pdf", "blood.pdf", ".pdf"⟩)
      ⟨some "Blood Test", some "2024-03-01", none⟩ false⟩,
   .arrive 1 1 ⟨some "bob@example.org", some "viewer"⟩,
   .arrive 1 1 ⟨some "bob@example.org", some "editor"⟩,
   .advance 0 101 false, .advance 1 101 false,
   .advance 0 101 false, .advance 1 101 false,
   .advance 0 101 false, .advance 1 101 false,
   .advance 0 102 false]

/-- The schedule `exOverlap`, then the second request's `INSERT` runs too. -/
def exOverlapDone : List Event :=
  exOverlap ++ [.advance 1 103 false]

/-- The empty tables with the three accounts, nothing in flight. -/
def exStart : Config := ⟨Store.init false [alice, bob, carol], []⟩

/-- Alice's two share requests one after the other, with a request of Bob
served between the statements of the first: the second request arrives
when the first has been answered. -/
def exApart : List Event :=
  [.serve ⟨1, 100, .upload (some ⟨"1709-42.pdf", "blood.pdf", ".pdf"⟩)
      ⟨some "Blood Test", some "2024-03-01", none⟩ false⟩,
   .arrive 1 1 ⟨some "bob@example.org", some "viewer"⟩,
   .advance 0 101 false, .advance 0 101 false,
   .serve ⟨2, 101, .vitalCreate ⟨none, { noFields with heartRate := .num 80 }, some "2024-03-02"⟩⟩,
   .advance 0 101 false, .advance 0 102 false,
   .arrive 1 1 ⟨some "bob@example.org", some "editor"⟩,
   .advance 1 103 false, .advance 1 103 false, .advance 1 103 false, .advance 1 104 false]

/-! ## Lookup lemmas -/

theorem find?_key_of_nodup {α β : Type} [DecidableEq β] (f : α → β) (l : List α)
    (h : (l.map f).Nodup) (x : α) (hx : x ∈ l) :
    l.find? (fun y => f y == f x) = some x := by
  induction l with
  | nil => cases hx
  | cons a l ih =>
    rw [List.map_cons, List.nodup_cons] at h
    rcases List.mem_cons.1 hx with rfl | hx
    · simp
    · have hne : f a ≠ f x := by
        intro he
        exact h.1 (he ▸ List.mem_map_of_mem f hx)
      simp [List.find?_cons, hne, ih h.2 hx]

theorem filter_key_of_nodup {α β : Type} [DecidableEq β] (f : α → β) (l : List α)
    (h : (l.map f).Nodup) (x : α) (hx : x ∈ l) :
    l.filter (fun y => f y == f x) = [x] := by
  induction l with
  | nil => cases hx
  | cons a l ih =>
    rw [List.map_cons, List.nodup_cons] at h
    rcases List.mem_cons.1 hx with rfl | hx
    · have : l.filter (fun y => f y == f x) = [] := by
        rw [List.filter_eq_nil_iff]
        intro y hy hxy
        exact h.1 ((beq_iff_eq.1 hxy) ▸ List.mem_map_of_mem f hy)
      simp [List.filter_cons, this]
    · have hne : f a ≠ f x := by
        intro he
        exact h.1 (he ▸ List.mem_map_of_mem f hx)
      simp [List.filter_cons, hne, ih h.2 hx]

theorem eq_of_key_eq {α β : Type} (f : α → β) (l : List α)
    (h : (l.map f).Nodup) {x y : α} (hx : x ∈ l) (hy : y ∈ l) (hxy : f x = f y) : x = y := by
  induction l with
  | nil => cases hx
  | cons a l ih =>
    rw [List.map_cons, List.nodup_cons] at h
    rcases List.mem_cons.1 hx with hxa | hxl
    · rcases List.mem_cons.1 hy with hya | hyl
      · rw [hxa, hya]
      · refine absurd ?_ h.1
        rw [← hxa, hxy]
        exact List.mem_map_of_mem f hyl
    · rcases List.mem_cons.1 hy with hya | hyl
      · refine absurd ?_ h.1
        rw [← hya, ← hxy]
        exact List.mem_map_of_mem f hxl
      · exact ih h.2 hxl hyl

theorem ownerRow_eq_none (s : Store) (u R : Nat) :
    s.reports.find? (fun r => r.id == R && r.user_id == u) = none ↔ ¬ Owns s u R := by
  simp [Owns, List.find?_eq_none]

theorem ownerRow_isSome (s : Store) (u R : Nat) (h : Owns s u R) :
    ∃ r, s.reports.find? (fun r => r.id == R && r.user_id == u) = some r := by
  cases hf : s.reports.find? (fun r => r.id == R && r.user_id == u) with
  | none => exact absurd h ((ownerRow_eq_none s u R).1 hf)
  | some r => exact ⟨r, rfl⟩

theorem readableReport_eq_none (s : Store) (u R : Nat) :
    readableReport s u R = none ↔ ¬ CanRead s u R := by
  unfold readableReport CanRead HasGrant
  rw [List.find?_eq_none]
  constructor
  · rintro h ⟨r, hr, hid, hacc⟩
    apply h r hr
    subst hid
    rcases hacc with ho | ⟨g, hg, h1, h2⟩
    · simp [ho]
    · simp only [Bool.and_eq_true, Bool.or_eq_true, beq_iff_eq, List.any_eq_true]
      exact ⟨trivial, Or.inr ⟨g, hg, h1, h2⟩⟩
  · intro h r hr hp
    apply h
    simp only [Bool.and_eq_true, Bool.or_eq_true, beq_iff_eq, List.any_eq_true] at hp
    obtain ⟨hid, hacc⟩ := hp
    refine ⟨r, hr, hid, ?_⟩
    rcases hacc with ho | ⟨g, hg, h1, h2⟩
    · exact Or.inl ho
    · exact Or.inr ⟨g, hg, by rw [h1, hid], h2⟩

theorem readableReport_some (s : Store) (u R : Nat) (r : Report)
    (h : readableReport s u R = some r) : r ∈ s.reports ∧ r.id = R := by
  unfold readableReport at h
  have hp := List.find?_some h
  simp only [Bool.and_eq_true, beq_iff_eq] at hp
  exact ⟨List.mem_of_find?_eq_some h, hp.1⟩

/-! ## Report detail -/

/-- C1: the detail handler answers 200 exactly when the report exists and the
caller owns it or holds a grant on it; it then returns a report row with the
requested id (and the first vitals row linked to it); in every other case,
a missing report included, it answers 404 "Report not found or access denied". -/
theorem getReport_iff_owner_or_grantee (s : Store) (u R : Nat) :
    ((getReport s u R).status = 200 ↔ CanRead s u R) ∧
    (CanRead s u R → ∃ r ∈ s.reports, r.id = R ∧
      getReport s u R =
        ⟨200, .reportDetail r (s.vitals.filter (fun v => v.report_id == some R)).head?⟩) ∧
    (¬ CanRead s u R →
      getReport s u R = ⟨404, .error "Report not found or access denied"⟩ ∧
      (getReport s u R).isNotFound) := by
  cases hf : readableReport s u R with
  | none =>
    have hn := (readableReport_eq_none s u R).1 hf
    simp [getReport, hf, hn, Response.isNotFound]
  | some r =>
    have hc : CanRead s u R := by
      by_contra hc
      rw [(readableReport_eq_none s u R).2 hc] at hf
      cases hf
    obtain ⟨hr, hid⟩ := readableReport_some s u R r hf
    simp only [getReport, hf, hc, true_iff, not_true_eq_false, false_implies, and_true,
      true_implies, true_and]
    exact ⟨r, hr, hid, rfl⟩

/-- Witness of C1: in the store where Bob is editor of Alice's report 1, Bob
reads the report and Carol, who has no grant, is answered NotFound. -/
theorem getReport_iff_owner_or_grantee_witness :
    CanRead exShared 2 1 ∧ (getReport exShared 2 1).status = 200 ∧
    ¬ CanRead exShared 3 1 ∧
    getReport exShared 3 1 = ⟨404, .error "Report not found or access denied"⟩ :=
  ⟨by decide, (getReport_iff_owner_or_grantee exShared 2 1).1.2 (by decide), by decide,
   ((getReport_iff_owner_or_grantee exShared 3 1).2.2 (by decide)).1⟩

/-! ## The share handler, case by case -/

theorem validRole_iff (role : Option String) :
    ["viewer", "editor"].contains (role.getD "viewer") = true ↔ ValidRole role := by
  simp [ValidRole]

theorem postShare_email_missing (s : Store) (now u R : Nat) (body : ShareBody)
    (h : truthyStr body.sharedWithEmail = false) :
    postShare s now u R body = (s, ⟨400, .error "Email address is required"⟩) := by
  simp [postShare, h]

theorem postShare_role_invalid (s : Store) (now u R : Nat) (body : ShareBody)
    (h1 : truthyStr body.sharedWithEmail = true) (h2 : ¬ ValidRole body.role) :
    postShare s now u R body = (s, ⟨400, .error "Invalid role. Must be viewer or editor"⟩) := by
  have h2' : ["viewer", "editor"].contains (body.role.getD "viewer") = false := by
    rw [← Bool.not_eq_true, validRole_iff]; exact h2
  simp only [postShare, h1, h2']
  simp

theorem postShare_not_owner (s : Store) (now u R : Nat) (body : ShareBody)
    (h1 : truthyStr body.sharedWithEmail = true) (h2 : ValidRole body.role)
    (h3 : ¬ Owns s u R) :
    postShare s now u R body = (s, ⟨404, .error "Report not found or access denied"⟩) := by
  have h2' := (validRole_iff body.role).2 h2
  have h3' := (ownerRow_eq_none s u R).2 h3
  simp only [postShare, h1, h2', h3']
  simp




theorem truthyStr_some {e : String} (he : e ≠ "") : truthyStr (some e) = true := by
  simp [truthyStr, he]

theorem postShare_no_user (s : Store) (now u R : Nat) (body : ShareBody)
    (h1 : truthyStr body.sharedWithEmail = true) (h2 : ValidRole body.role)
    (h3 : Owns s u R)
    (h4 : s.users.find? (fun x => x.email == body.sharedWithEmail.getD "") = none) :
    postShare s now u R body = (s, ⟨404, .error "User with this email not found"⟩) := by
  have h2' := (validRole_iff body.role).2 h2
  obtain ⟨r, h3'⟩ := ownerRow_isSome s u R h3
  simp only [postShare, h1, h2', h3', h4]
  simp

theorem postShare_self (s : Store) (now u R : Nat) (body : ShareBody) (x : User)
    (h1 : truthyStr body.sharedWithEmail = true) (h2 : ValidRole body.role)
    (h3 : Owns s u R)
    (h4 : s.users.find? (fun x => x.email == body.sharedWithEmail.getD "") = some x)
    (h5 : x.id = u) :
    postShare s now u R body = (s, ⟨400, .error "Cannot share report with yourself"⟩) := by
  have h2' := (validRole_iff body.role).2 h2
  obtain ⟨r, h3'⟩ := ownerRow_isSome s u R h3
  simp only [postShare, h1, h2', h3', h4, h5]
  simp

theorem postShare_update (s : Store) (now u R : Nat) (body : ShareBody) (x : User)
    (g : AccessShare)
    (h1 : truthyStr body.sharedWithEmail = true) (h2 : ValidRole body.role)
    (h3 : Owns s u R)
    (h4 : s.users.find? (fun x => x.email == body.sharedWithEmail.getD "") = some x)
    (h5 : x.id ≠ u)
    (h6 : s.access_shares.find?
      (fun g => g.report_id == R && g.shared_with_user_id == x.id) = some g) :
    postShare s now u R body =
      ({ s with
          access_shares := s.access_shares.map
            (fun a => if a.id = g.id then { a with role := body.role.getD "viewer" } else a) },
       ⟨200, .message "Share updated successfully"⟩) := by
  have h2' := (validRole_iff body.role).2 h2
  obtain ⟨r, h3'⟩ := ownerRow_isSome s u R h3
  simp only [postShare, h1, h2', h3', h4, h5, h6]
  simp

theorem postShare_insert (s : Store) (now u R : Nat) (body : ShareBody) (x : User)
    (h1 : truthyStr body.sharedWithEmail = true) (h2 : ValidRole body.role)
    (h3 : Owns s u R)
    (h4 : s.users.find? (fun x => x.email == body.sharedWithEmail.getD "") = some x)
    (h5 : x.id ≠ u)
    (h6 : s.access_shares.find?
      (fun g => g.report_id == R && g.shared_with_user_id == x.id) = none)
    (h7 : fkShareOk s R u x.id = true) :
    postShare s now u R body =
      ({ s with
          access_shares := s.access_shares ++
            [{ id := nextId s.shareSeq (s.access_shares.map (·.id)), report_id := R,
               owner_id := u, shared_with_user_id := x.id,
               shared_with_email := body.sharedWithEmail.getD "",
               role := body.role.getD "viewer", created_at := now }],
          shareSeq := nextId s.shareSeq (s.access_shares.map (·.id)) },
       ⟨201, .shareCreated "Report shared successfully"
          (nextId s.shareSeq (s.access_shares.map (·.id)))⟩) := by
  have h2' := (validRole_iff body.role).2 h2
  obtain ⟨r, h3'⟩ := ownerRow_isSome s u R h3
  simp only [postShare, h1, h2', h3', h4, h5, h6, h7]
  simp

theorem fkShareOk_of_wf (s : Store) (hwf : s.WF) (u R : Nat) (x : User)
    (h3 : Owns s u R) (hx : x ∈ s.users) : fkShareOk s R u x.id = true := by
  unfold fkShareOk
  cases hfk : s.foreignKeys with
  | false => simp
  | true =>
    obtain ⟨r, hr, hid, hu⟩ := h3
    obtain ⟨o, ho, hoid⟩ := hwf.reports_fk hfk r hr
    simp only [Bool.not_true, Bool.false_or, Bool.and_eq_true, List.any_eq_true, beq_iff_eq]
    exact ⟨⟨⟨r, hr, hid⟩, ⟨o, ho, by rw [hoid, hu]⟩⟩, ⟨x, hx, rfl⟩⟩

/-! ## Denied requests -/

theorem shareRow_eq_none (s : Store) (u G : Nat) :
    s.access_shares.find? (fun g => g.id == G &&
      s.reports.any (fun r => g.report_id == r.id && r.user_id == u)) = none ↔
    ¬ OwnsShare s u G := by
  unfold OwnsShare Owns
  rw [List.find?_eq_none]
  constructor
  · rintro h ⟨g, hg, hid, r, hr, hrid, hu⟩
    apply h g hg
    simp only [Bool.and_eq_true, beq_iff_eq, List.any_eq_true]
    exact ⟨hid, r, hr, hrid.symm, hu⟩
  · intro h g hg hp
    apply h
    simp only [Bool.and_eq_true, beq_iff_eq, List.any_eq_true] at hp
    obtain ⟨hid, r, hr, hrid, hu⟩ := hp
    exact ⟨g, hg, hid, r, hr, hrid.symm, hu⟩

theorem vitalRow_eq_none (s : Store) (u V : Nat) :
    s.vitals.find? (fun v => v.id == V && v.user_id == u) = none ↔ ¬ OwnsVital s u V := by
  simp [OwnsVital, List.find?_eq_none]

theorem deleteReport_denied (s : Store) (u R : Nat) (h : ¬ Owns s u R) :
    deleteReport s u R = (s, ⟨404, .error "Report not found or access denied"⟩) := by
  simp [deleteReport, (ownerRow_eq_none s u R).2 h]

theorem getSharesForReport_denied (s : Store) (u R : Nat) (h : ¬ Owns s u R) :
    getSharesForReport s u R = ⟨404, .error "Report not found or access denied"⟩ := by
  simp [getSharesForReport, (ownerRow_eq_none s u R).2 h]

theorem deleteShare_denied (s : Store) (u G : Nat) (h : ¬ OwnsShare s u G) :
    deleteShare s u G = (s, ⟨404, .error "Share not found or access denied"⟩) := by
  simp only [deleteShare, (shareRow_eq_none s u G).2 h]

theorem putVital_denied (s : Store) (u V : Nat) (body : VitalBody) (h : ¬ OwnsVital s u V) :
    putVital s u V body = (s, ⟨404, .error "Vital entry not found or access denied"⟩) := by
  simp only [putVital, (vitalRow_eq_none s u V).2 h]

theorem deleteVital_denied (s : Store) (u V : Nat) (h : ¬ OwnsVital s u V) :
    deleteVital s u V = (s, ⟨404, .error "Vital entry not found or access denied"⟩) := by
  simp only [deleteVital, (vitalRow_eq_none s u V).2 h]

theorem getReport_denied (s : Store) (u R : Nat) (h : ¬ CanRead s u R) :
    getReport s u R = ⟨404, .error "Report not found or access denied"⟩ := by
  simp only [getReport, (readableReport_eq_none s u R).2 h]

theorem getDownload_denied (s : Store) (u R : Nat) (h : ¬ CanRead s u R) :
    getDownload s u R = ⟨404, .error "Report not found or access denied"⟩ := by
  simp only [getDownload, (readableReport_eq_none s u R).2 h]

theorem postShare_denied (s : Store) (now u R : Nat) (body : ShareBody) (h : ¬ Owns s u R) :
    postShare s now u R body =
      (s, if truthyStr body.sharedWithEmail = true then
            if ValidRole body.role then ⟨404, .error "Report not found or access denied"⟩
            else ⟨400, .error "Invalid role. Must be viewer or editor"⟩
          else ⟨400, .error "Email address is required"⟩) := by
  by_cases h1 : truthyStr body.sharedWithEmail = true
  · by_cases h2 : ValidRole body.role
    · rw [postShare_not_owner s now u R body h1 h2 h, if_pos h1, if_pos h2]
    · rw [postShare_role_invalid s now u R body h1 h2, if_pos h1, if_neg h2]
  · rw [postShare_email_missing s now u R body (by simpa using h1), if_neg h1]

theorem absent_not_authorised (s : Store) (u : Nat) (op : Op) (h : RecordAbsent s op) :
    ¬ Authorised s u op := by
  cases op <;> simp only [RecordAbsent, Authorised, CanRead, Owns, OwnsShare, OwnsVital] at h ⊢
  case reportDetail R => rintro ⟨r, hr, hid, _⟩; exact h r hr hid
  case reportDownload R => rintro ⟨r, hr, hid, _⟩; exact h r hr hid
  case reportDelete R => rintro ⟨r, hr, hid, _⟩; exact h r hr hid
  case share R b => rintro ⟨r, hr, hid, _⟩; exact h r hr hid
  case listShares R => rintro ⟨r, hr, hid, _⟩; exact h r hr hid
  case revoke G => rintro ⟨g, hg, hid, _⟩; exact h g hg hid
  case vitalUpdate V b => rintro ⟨v, hv, hid, _⟩; exact h v hv hid
  case vitalDelete V => rintro ⟨v, hv, hid, _⟩; exact h v hv hid

theorem denied_twice (s₁ s₂ : Store) (now₁ now₂ u : Nat) (op : Op)
    (h₁ : ¬ Authorised s₁ u op) (h₂ : ¬ Authorised s₂ u op) :
    (handle s₁ now₁ u op).2 = (handle s₂ now₂ u op).2 := by
  cases op <;> simp only [Authorised, not_true_eq_false] at h₁ h₂ <;> simp only [handle]
  case reportDetail R => rw [getReport_denied s₁ u R h₁, getReport_denied s₂ u R h₂]
  case reportDownload R => rw [getDownload_denied s₁ u R h₁, getDownload_denied s₂ u R h₂]
  case reportDelete R => rw [deleteReport_denied s₁ u R h₁, deleteReport_denied s₂ u R h₂]
  case share R b => rw [postShare_denied s₁ now₁ u R b h₁, postShare_denied s₂ now₂ u R b h₂]
  case listShares R =>
    rw [getSharesForReport_denied s₁ u R h₁, getSharesForReport_denied s₂ u R h₂]
  case revoke G => rw [deleteShare_denied s₁ u G h₁, deleteShare_denied s₂ u G h₂]
  case vitalUpdate V b => rw [putVital_denied s₁ u V b h₁, putVital_denied s₂ u V b h₂]
  case vitalDelete V => rw [deleteVital_denied s₁ u V h₁, deleteVital_denied s₂ u V h₂]

/-- C2: for each record-scoped request (report detail, download, delete,
share, grant list, revoke, vitals update, vitals delete) a caller who is not
authorised for the named record in one store receives exactly the response,
status and body, that the same request receives in a store where the named
record does not exist at all. -/
theorem unauthorised_same_as_absent (s₁ s₂ : Store) (now₁ now₂ u : Nat) (op : Op)
    (h₁ : ¬ Authorised s₁ u op) (h₂ : RecordAbsent s₂ op) :
    (handle s₁ now₁ u op).2 = (handle s₂ now₂ u op).2 :=
  denied_twice s₁ s₂ now₁ now₂ u op h₁ (absent_not_authorised s₂ u op h₂)

/-- Witness of C2: Carol asks for the detail of Alice's report 1, which she
neither owns nor was granted, and gets the answer she gets from a store with
no report. -/
theorem unauthorised_same_as_absent_witness :
    ¬ Authorised exShared 3 (.reportDetail 1) ∧
    RecordAbsent (Store.init false [alice, bob, carol]) (.reportDetail 1) ∧
    (handle exShared 200 3 (.reportDetail 1)).2 =
      (handle (Store.init false [alice, bob, carol]) 300 3 (.reportDetail 1)).2 :=
  ⟨by decide, by decide,
   unauthorised_same_as_absent exShared (Store.init false [alice, bob, carol]) 200 300 3
     (.reportDetail 1) (by decide) (by decide)⟩

/-! ## Owner-only operations and the order of the share checks -/

/-- C3 as stated fails: Bob, who holds an editor grant on Alice's report 1 and
does not own it, sends a share request with the role "admin" and receives the
Validation answer 400, not NotFound. -/
theorem editor_share_bad_role_not_notFound :
    HasGrant exShared 2 1 ∧ ¬ Owns exShared 2 1 ∧
    (postShare exShared 200 2 1 ⟨some "carol@example.org", some "admin"⟩).2 =
      ⟨400, .error "Invalid role. Must be viewer or editor"⟩ ∧
    ¬ (postShare exShared 200 2 1 ⟨some "carol@example.org", some "admin"⟩).2.isNotFound := by
  decide

/-- C3 (amended): for a caller who does not own the report, report delete and
the grant list answer NotFound and change nothing, and so does revoke of any
grant on that report (of any grant whose report the caller does not own); a
share request changes
nothing either, and answers NotFound when it carries a non-empty email and a
role that is viewer, editor or omitted, and Validation when the email is
missing or the role is anything else. -/
theorem non_owner_is_refused (s : Store) (now u R : Nat) (body : ShareBody)
    (hR : ¬ Owns s u R) :
    deleteReport s u R = (s, ⟨404, .error "Report not found or access denied"⟩) ∧
    getSharesForReport s u R = ⟨404, .error "Report not found or access denied"⟩ ∧
    (∀ G, ¬ OwnsShare s u G →
      deleteShare s u G = (s, ⟨404, .error "Share not found or access denied"⟩)) ∧
    (s.WF → ∀ g ∈ s.access_shares, g.report_id = R →
      deleteShare s u g.id = (s, ⟨404, .error "Share not found or access denied"⟩)) ∧
    (postShare s now u R body).1 = s ∧
    (truthyStr body.sharedWithEmail = true → ValidRole body.role →
      (postShare s now u R body).2 = ⟨404, .error "Report not found or access denied"⟩) ∧
    (¬ (truthyStr body.sharedWithEmail = true ∧ ValidRole body.role) →
      (postShare s now u R body).2.isValidation) := by
  refine ⟨deleteReport_denied s u R hR, getSharesForReport_denied s u R hR,
    fun G hG => deleteShare_denied s u G hG, ?_, ?_, ?_, ?_⟩
  · intro hwf g hg hgR
    apply deleteShare_denied
    rintro ⟨g', hg', hid, hown⟩
    have := eq_of_key_eq (fun x : AccessShare => x.id) s.access_shares hwf.shares_id hg' hg hid
    rw [this, hgR] at hown
    exact hR hown
  · rw [postShare_denied s now u R body hR]
  · intro h1 h2
    rw [postShare_denied s now u R body hR, if_pos h1, if_pos h2]
  · intro h
    rw [postShare_denied s now u R body hR]
    by_cases h1 : truthyStr body.sharedWithEmail = true
    · have h2 : ¬ ValidRole body.role := fun h2 => h ⟨h1, h2⟩
      simp [h1, h2, Response.isValidation]
    · simp [h1, Response.isValidation]

/-- Witness of C3 (amended): Bob, editor of Alice's report 1, does not own it;
his delete, his revoke of grant 1 and his share request are refused and leave
the store as it is. -/
theorem non_owner_is_refused_witness :
    ¬ Owns exShared 2 1 ∧ HasGrant exShared 2 1 ∧
    deleteReport exShared 2 1 = (exShared, ⟨404, .error "Report not found or access denied"⟩) ∧
    deleteShare exShared 2 1 = (exShared, ⟨404, .error "Share not found or access denied"⟩) ∧
    (postShare exShared 200 2 1 ⟨some "carol@example.org", some "viewer"⟩).1 = exShared :=
  have h := non_owner_is_refused exShared 200 2 1 ⟨some "carol@example.org", some "viewer"⟩
    (by decide)
  ⟨by decide, by decide, h.1,
   h.2.2.2.1 (by decide) ⟨1, 1, 1, 2, "bob@example.org", "editor", 101⟩ (by decide) rfl,
   h.2.2.2.2.1⟩

/-- C4 as stated fails: a caller who does not own the report, and an owner
naming an email of no account, both receive Validation (400), not NotFound,
when the role is not viewer or editor. -/
theorem bad_role_checked_before_ownership :
    ¬ Owns exOwned 2 1 ∧ ¬ ValidRole (some "admin") ∧
    (postShare exOwned 200 2 1 ⟨some "carol@example.org", some "admin"⟩).2 =
      ⟨400, .error "Invalid role. Must be viewer or editor"⟩ ∧
    Owns exOwned 1 1 ∧ (∀ x ∈ exOwned.users, x.email ≠ "nobody@example.org") ∧
    (postShare exOwned 200 1 1 ⟨some "nobody@example.org", some "admin"⟩).2 =
      ⟨400, .error "Invalid role. Must be viewer or editor"⟩ := by
  decide

/-- C4 (amended): the share handler checks, in this order, (0) Validation if
the email is missing or empty, (1) Validation if the role is not viewer or
editor (an omitted role counts as viewer), (2) NotFound unless the report is
owned by the caller, (3) NotFound if the email is that of no account,
(4) Validation if the account with that email is the caller; each failure
leaves the store unchanged.  So a request with a bad role is answered
Validation whoever owns the report and whatever the email. -/
theorem share_checks_in_order (s : Store) (now u R : Nat) (body : ShareBody) :
    (truthyStr body.sharedWithEmail = false →
      postShare s now u R body = (s, ⟨400, .error "Email address is required"⟩)) ∧
    (truthyStr body.sharedWithEmail = true → ¬ ValidRole body.role →
      postShare s now u R body = (s, ⟨400, .error "Invalid role. Must be viewer or editor"⟩)) ∧
    (truthyStr body.sharedWithEmail = true → ValidRole body.role → ¬ Owns s u R →
      postShare s now u R body = (s, ⟨404, .error "Report not found or access denied"⟩)) ∧
    (truthyStr body.sharedWithEmail = true → ValidRole body.role → Owns s u R →
      (∀ x ∈ s.users, x.email ≠ body.sharedWithEmail.getD "") →
      postShare s now u R body = (s, ⟨404, .error "User with this email not found"⟩)) ∧
    (truthyStr body.sharedWithEmail = true → ValidRole body.role → Owns s u R →
      s.WF → ∀ x ∈ s.users, x.email = body.sharedWithEmail.getD "" → x.id = u →
      postShare s now u R body = (s, ⟨400, .error "Cannot share report with yourself"⟩)) := by
  refine ⟨postShare_email_missing s now u R body, postShare_role_invalid s now u R body,
    postShare_not_owner s now u R body, ?_, ?_⟩
  · intro h1 h2 h3 h4
    apply postShare_no_user s now u R body h1 h2 h3
    rw [List.find?_eq_none]
    intro x hx
    simpa using h4 x hx
  · intro h1 h2 h3 hwf x hx hxe hxu
    apply postShare_self s now u R body x h1 h2 h3 _ hxu
    rw [← hxe]
    exact find?_key_of_nodup (fun y : User => y.email) s.users hwf.users_email x hx

/-- Witness of C4 (amended): Alice shares her report 1 with her own address as
viewer and is stopped by the last check. -/
theorem share_checks_in_order_witness :
    Owns exOwned 1 1 ∧ exOwned.WF ∧ alice ∈ exOwned.users ∧
    postShare exOwned 200 1 1 ⟨some alice.email, some "viewer"⟩ =
      (exOwned, ⟨400, .error "Cannot share report with yourself"⟩) :=
  ⟨by decide, by decide, by decide,
   (share_checks_in_order exOwned 200 1 1 ⟨some alice.email, some "viewer"⟩).2.2.2.2
     (by decide) (Or.inl rfl) (by decide) (by decide) alice (by decide) rfl rfl⟩

/-- C8: when the caller owns the report and the email is that of the caller's
own account, the share request is answered Validation (400) for every role,
be it viewer, editor, omitted or anything else, and the store is unchanged. -/
theorem self_share_is_validation (s : Store) (hwf : s.WF) (now u R : Nat) (x : User)
    (role : Option String) (hown : Owns s u R) (hx : x ∈ s.users) (hxu : x.id = u) :
    (postShare s now u R ⟨some x.email, role⟩).1 = s ∧
    (postShare s now u R ⟨some x.email, role⟩).2.isValidation ∧
    (ValidRole role → x.email ≠ "" →
      (postShare s now u R ⟨some x.email, role⟩).2 =
        ⟨400, .error "Cannot share report with yourself"⟩) := by
  have hfind : s.users.find?
      (fun y => y.email == (ShareBody.mk (some x.email) role).sharedWithEmail.getD "") = some x :=
    find?_key_of_nodup (fun y : User => y.email) s.users hwf.users_email x hx
  by_cases h1 : truthyStr (ShareBody.mk (some x.email) role).sharedWithEmail = true
  · have he : x.email ≠ "" := by simpa [truthyStr] using h1
    by_cases h2 : ValidRole (ShareBody.mk (some x.email) role).role
    · rw [postShare_self s now u R _ x h1 h2 hown hfind hxu]
      simp [Response.isValidation]
    · rw [postShare_role_invalid s now u R _ h1 h2]
      have h2' : ¬ ValidRole role := h2
      simp [Response.isValidation, h2']
  · rw [postShare_email_missing s now u R _ (by simpa using h1)]
    have he : x.email = "" := by simpa [truthyStr] using h1
    simp [Response.isValidation, he]

/-- Witness of C8: Alice shares her report 1 with her own address, with a
role that is none of the valid ones. -/
theorem self_share_is_validation_witness :
    exShared.WF ∧ Owns exShared 1 1 ∧ alice ∈ exShared.users ∧
    (postShare exShared 200 1 1 ⟨some alice.email, some "owner"⟩).1 = exShared ∧
    (postShare exShared 200 1 1 ⟨some alice.email, some "owner"⟩).2.isValidation :=
  have h := self_share_is_validation exShared (by decide) 200 1 1 alice (some "owner")
    (by decide) (by decide) rfl
  ⟨by decide, by decide, by decide, h.1, h.2.1⟩

/-! ## Grant upsert and revoke -/

theorem le_maxId (l : List Nat) (x : Nat) (hx : x ∈ l) : x ≤ maxId l := by
  induction l with
  | nil => cases hx
  | cons a l ih =>
    rcases List.mem_cons.1 hx with h | h
    · rw [h]; exact le_max_left _ _
    · exact le_trans (ih h) (le_max_right _ _)

theorem lt_nextId (seq : Nat) (l : List Nat) (x : Nat) (hx : x ∈ l) : x < nextId seq l := by
  unfold nextId
  exact Nat.lt_succ_of_le (le_trans (le_maxId l x hx) (le_max_right _ _))

theorem nextId_not_mem (seq : Nat) (l : List Nat) : nextId seq l ∉ l :=
  fun h => lt_irrefl _ (lt_nextId seq l _ h)

theorem eq_of_mem_of_length_le_one {α : Type} (l : List α) (h : l.length ≤ 1) {a b : α}
    (ha : a ∈ l) (hb : b ∈ l) : a = b := by
  match l, h with
  | [], _ => cases ha
  | [c], _ =>
    rw [List.mem_singleton] at ha hb
    rw [ha, hb]
  | _ :: _ :: _, h => simp at h

theorem eq_singleton_of_mem_of_length_le_one {α : Type} (l : List α) (h : l.length ≤ 1) {a : α}
    (ha : a ∈ l) : l = [a] := by
  match l, h with
  | [], _ => cases ha
  | [c], _ =>
    rw [List.mem_singleton] at ha
    rw [ha]
  | _ :: _ :: _, h => simp at h

theorem pairUnique_eq (s : Store) (hpu : PairUnique s) {g e : AccessShare}
    (hg : g ∈ s.access_shares) (he : e ∈ s.access_shares)
    (h1 : g.report_id = e.report_id) (h2 : g.shared_with_user_id = e.shared_with_user_id) :
    g = e := by
  apply eq_of_mem_of_length_le_one _ (hpu e.report_id e.shared_with_user_id)
  · simp [List.mem_filter, hg, h1, h2]
  · simp [List.mem_filter, he]

theorem grantRow_eq_none (s : Store) (u R : Nat) :
    s.access_shares.find? (fun g => g.report_id == R && g.shared_with_user_id == u) = none ↔
    ¬ HasGrant s u R := by
  simp [HasGrant, List.find?_eq_none]

theorem map_setRole_congr (s : Store) (hwf : s.WF) (e : AccessShare)
    (he : e ∈ s.access_shares) (role : String) :
    s.access_shares.map (fun a => if a.id = e.id then { a with role := role } else a) =
    s.access_shares.map (fun a => if a = e then { a with role := role } else a) := by
  apply List.map_congr_left
  intro a ha
  by_cases hid : a.id = e.id
  · have := eq_of_key_eq (fun g : AccessShare => g.id) s.access_shares hwf.shares_id ha he hid
    simp [this]
  · have hne : a ≠ e := fun h => hid (h ▸ rfl)
    simp [hid, hne]

theorem postShare_existing (s : Store) (hwf : s.WF) (hpu : PairUnique s)
    (now u R : Nat) (x : User) (role : String)
    (hown : Owns s u R) (hx : x ∈ s.users) (hne : x.email ≠ "") (hxu : x.id ≠ u)
    (hrole : role = "viewer" ∨ role = "editor")
    (e : AccessShare) (he : e ∈ s.access_shares) (heR : e.report_id = R)
    (hex : e.shared_with_user_id = x.id) :
    postShare s now u R ⟨some x.email, some role⟩ =
      ({ s with
          access_shares := s.access_shares.map
            (fun a => if a = e then { a with role := role } else a) },
       ⟨200, .message "Share updated successfully"⟩) := by
  have h1 : truthyStr (ShareBody.mk (some x.email) (some role)).sharedWithEmail = true :=
    truthyStr_some hne
  have h2 : ValidRole (ShareBody.mk (some x.email) (some role)).role := hrole
  have hfind : s.users.find?
      (fun y => y.email == (ShareBody.mk (some x.email) (some role)).sharedWithEmail.getD "")
        = some x :=
    find?_key_of_nodup (fun y : User => y.email) s.users hwf.users_email x hx
  cases hg : s.access_shares.find?
      (fun g => g.report_id == R && g.shared_with_user_id == x.id) with
  | none =>
    exact absurd ⟨e, he, heR, hex⟩ ((grantRow_eq_none s x.id R).1 hg)
  | some g =>
    have hgm := List.mem_of_find?_eq_some hg
    have hgp := List.find?_some hg
    simp only [Bool.and_eq_true, beq_iff_eq] at hgp
    have hge : g = e := pairUnique_eq s hpu hgm he (by rw [hgp.1, heR]) (by rw [hgp.2, hex])
    rw [postShare_update s now u R _ x g h1 h2 hown hfind hxu hg, hge,
      map_setRole_congr s hwf e he]
    rfl

theorem postShare_fresh (s : Store) (hwf : s.WF)
    (now u R : Nat) (x : User) (role : String)
    (hown : Owns s u R) (hx : x ∈ s.users) (hne : x.email ≠ "") (hxu : x.id ≠ u)
    (hrole : role = "viewer" ∨ role = "editor") (hno : ¬ HasGrant s x.id R) :
    postShare s now u R ⟨some x.email, some role⟩ =
      ({ s with
          access_shares := s.access_shares ++
            [{ id := nextId s.shareSeq (s.access_shares.map (·.id)), report_id := R,
               owner_id := u, shared_with_user_id := x.id, shared_with_email := x.email,
               role := role, created_at := now }],
          shareSeq := nextId s.shareSeq (s.access_shares.map (·.id)) },
       ⟨201, .shareCreated "Report shared successfully"
          (nextId s.shareSeq (s.access_shares.map (·.id)))⟩) := by
  have h1 : truthyStr (ShareBody.mk (some x.email) (some role)).sharedWithEmail = true :=
    truthyStr_some hne
  have h2 : ValidRole (ShareBody.mk (some x.email) (some role)).role := hrole
  have hfind : s.users.find?
      (fun y => y.email == (ShareBody.mk (some x.email) (some role)).sharedWithEmail.getD "")
        = some x :=
    find?_key_of_nodup (fun y : User => y.email) s.users hwf.users_email x hx
  have hg := (grantRow_eq_none s x.id R).2 hno
  rw [postShare_insert s now u R _ x h1 h2 hown hfind hxu hg
    (fkShareOk_of_wf s hwf u R x hown hx)]
  rfl

theorem share_id_fresh (s : Store) (a : AccessShare) (ha : a ∈ s.access_shares) :
    a.id ≠ nextId s.shareSeq (s.access_shares.map (·.id)) := fun h =>
  nextId_not_mem s.shareSeq (s.access_shares.map (·.id))
    (h ▸ List.mem_map_of_mem (fun g : AccessShare => g.id) ha)

/-- C5: a share request of the report's owner, naming the non-empty email of
another account with role viewer or editor, either finds the grant of that
(report, account) pair, sets its role, adds nothing, leaves every other grant
as it is and answers "Share updated successfully"; or, when the pair has no
grant, appends exactly one grant (report, caller, account, email, role) under
a fresh id, leaves all existing grants as they are and answers 201
"Report shared successfully". -/
theorem share_updates_or_creates (s : Store) (hwf : s.WF) (hpu : PairUnique s)
    (now u R : Nat) (x : User) (role : String)
    (hown : Owns s u R) (hx : x ∈ s.users) (hne : x.email ≠ "") (hxu : x.id ≠ u)
    (hrole : role = "viewer" ∨ role = "editor") :
    (∀ e ∈ s.access_shares, e.report_id = R → e.shared_with_user_id = x.id →
      postShare s now u R ⟨some x.email, some role⟩ =
        ({ s with
            access_shares := s.access_shares.map
              (fun a => if a = e then { a with role := role } else a) },
         ⟨200, .message "Share updated successfully"⟩)) ∧
    (¬ HasGrant s x.id R →
      postShare s now u R ⟨some x.email, some role⟩ =
        ({ s with
            access_shares := s.access_shares ++
              [{ id := nextId s.shareSeq (s.access_shares.map (·.id)), report_id := R,
                 owner_id := u, shared_with_user_id := x.id, shared_with_email := x.email,
                 role := role, created_at := now }],
            shareSeq := nextId s.shareSeq (s.access_shares.map (·.id)) },
         ⟨201, .shareCreated "Report shared successfully"
            (nextId s.shareSeq (s.access_shares.map (·.id)))⟩) ∧
      ∀ a ∈ s.access_shares, a.id ≠ nextId s.shareSeq (s.access_shares.map (·.id))) :=
  ⟨fun e he heR hex => postShare_existing s hwf hpu now u R x role hown hx hne hxu hrole e he heR hex,
   fun hno => ⟨postShare_fresh s hwf now u R x role hown hx hne hxu hrole hno,
     share_id_fresh s⟩⟩

/-- Witness of C5: in the store where Bob is editor of Alice's report 1, Alice
shares it with Bob as viewer (an update) and with Carol as viewer (a create). -/
theorem share_updates_or_creates_witness :
    exShared.WF ∧ PairUnique exShared ∧ Owns exShared 1 1 ∧
    (postShare exShared 200 1 1 ⟨some bob.email, some "viewer"⟩).2 =
      ⟨200, .message "Share updated successfully"⟩ ∧
    (postShare exShared 200 1 1 ⟨some carol.email, some "viewer"⟩).2 =
      ⟨201, .shareCreated "Report shared successfully" 2⟩ := by
  have hpu : PairUnique exShared := by
    intro R u
    have : exShared.access_shares = [⟨1, 1, 1, 2, "bob@example.org", "editor", 101⟩] := by
      decide
    rw [this]
    exact le_trans (List.length_filter_le _ _) (le_of_eq rfl)
  have hb := (share_updates_or_creates exShared (by decide) hpu 200 1 1 bob "viewer"
    (by decide) (by decide) (by decide) (by decide) (Or.inl rfl)).1
    ⟨1, 1, 1, 2, "bob@example.org", "editor", 101⟩ (by decide) rfl rfl
  have hc := ((share_updates_or_creates exShared (by decide) hpu 200 1 1 carol "viewer"
    (by decide) (by decide) (by decide) (by decide) (Or.inl rfl)).2 (by decide)).1
  refine ⟨by decide, hpu, by decide, ?_, ?_⟩
  · rw [hb]
  · rw [hc]; decide

/-- C9: revoke looks the grant up joined to its report.  A caller who does not
own the report of grant `G` (whatever `G.owner_id` says) gets NotFound and the
store is unchanged; for the owner of the report the grant table loses exactly
`G`: `G` is gone and every other grant stays, in place. -/
theorem revoke_owner_gated (s : Store) (hwf : s.WF) (u : Nat) (G : AccessShare)
    (hG : G ∈ s.access_shares) :
    (¬ Owns s u G.report_id →
      deleteShare s u G.id = (s, ⟨404, .error "Share not found or access denied"⟩)) ∧
    (Owns s u G.report_id →
      deleteShare s u G.id =
        ({ s with access_shares := s.access_shares.erase G },
         ⟨200, .message "Access revoked successfully"⟩) ∧
      ∀ g, g ∈ s.access_shares.erase G ↔ g ∈ s.access_shares ∧ g ≠ G) := by
  have hnd : s.access_shares.Nodup := List.Nodup.of_map _ hwf.shares_id
  constructor
  · intro hno
    apply deleteShare_denied
    rintro ⟨g, hg, hid, hown⟩
    have := eq_of_key_eq (fun g : AccessShare => g.id) s.access_shares hwf.shares_id hg hG hid
    exact hno (this ▸ hown)
  · intro hown
    have hsome : ∃ g, s.access_shares.find? (fun g => g.id == G.id &&
        s.reports.any (fun r => g.report_id == r.id && r.user_id == u)) = some g := by
      cases hf : s.access_shares.find? (fun g => g.id == G.id &&
        s.reports.any (fun r => g.report_id == r.id && r.user_id == u)) with
      | none => exact absurd ⟨G, hG, rfl, hown⟩ ((shareRow_eq_none s u G.id).1 hf)
      | some g => exact ⟨g, rfl⟩
    obtain ⟨g, hf⟩ := hsome
    have hfilter : s.access_shares.filter (fun g => !(g.id == G.id)) = s.access_shares.erase G := by
      rw [hnd.erase_eq_filter]
      apply List.filter_congr
      intro a ha
      by_cases hid : a.id = G.id
      · have := eq_of_key_eq (fun g : AccessShare => g.id) s.access_shares hwf.shares_id ha hG hid
        simp [this]
      · have hne : a ≠ G := fun h => hid (h ▸ rfl)
        have h1 : (a.id == G.id) = false := by simpa using hid
        have h2 : (a != G) = true := by simpa using hne
        rw [h1, h2]
        rfl
    refine ⟨?_, ?_⟩
    · simp only [deleteShare, hf, hfilter]
    · intro a
      rw [hnd.mem_erase_iff]
      exact and_comm

/-- Witness of C9: Bob cannot revoke the grant he holds on Alice's report;
Alice can, and the grant table is then empty. -/
theorem revoke_owner_gated_witness :
    exShared.WF ∧ ¬ Owns exShared 2 1 ∧ Owns exShared 1 1 ∧
    deleteShare exShared 2 1 = (exShared, ⟨404, .error "Share not found or access denied"⟩) ∧
    (deleteShare exShared 1 1).1.access_shares = [] := by
  have h := revoke_owner_gated exShared (by decide) 2
    ⟨1, 1, 1, 2, "bob@example.org", "editor", 101⟩ (by decide)
  have h' := revoke_owner_gated exShared (by decide) 1
    ⟨1, 1, 1, 2, "bob@example.org", "editor", 101⟩ (by decide)
  refine ⟨by decide, by decide, by decide, h.1 (by decide), ?_⟩
  rw [(h'.2 (by decide)).1]
  decide

/-! ## One grant per (report, grantee) pair -/

theorem pairUnique_of_sublist (s s' : Store)
    (h : s'.access_shares.Sublist s.access_shares) (hpu : PairUnique s) : PairUnique s' := by
  intro R u
  exact le_trans (h.filter _).length_le (hpu R u)

theorem pairUnique_of_eq (s s' : Store) (h : s'.access_shares = s.access_shares)
    (hpu : PairUnique s) : PairUnique s' :=
  pairUnique_of_sublist s s' (h ▸ List.Sublist.refl _) hpu

theorem filter_pair_setRole (l : List AccessShare) (gid : Nat) (role : String) (R u : Nat) :
    ((l.map (fun a => if a.id = gid then { a with role := role } else a)).filter
      (fun g => g.report_id == R && g.shared_with_user_id == u)).length =
    (l.filter (fun g => g.report_id == R && g.shared_with_user_id == u)).length := by
  induction l with
  | nil => rfl
  | cons a l ih =>
    by_cases hid : a.id = gid <;> by_cases hp : (a.report_id == R && a.shared_with_user_id == u)
      <;> simp [List.filter_cons, hid, hp, ih]

theorem postShare_pairUnique (s : Store) (now u R : Nat) (body : ShareBody)
    (hpu : PairUnique s) : PairUnique (postShare s now u R body).1 := by
  unfold postShare
  dsimp only
  split
  · exact hpu
  split
  · exact hpu
  split
  · exact hpu
  split
  · exact hpu
  split
  · exact hpu
  split
  · intro R' u'
    dsimp only
    rw [filter_pair_setRole]
    exact hpu R' u'
  · rename_i sharedUser _ _ _ hnone
    split
    · intro R' u'
      dsimp only
      rw [List.filter_append, List.length_append]
      by_cases hp : R = R' ∧ sharedUser.id = u'
      · obtain ⟨h1, h2⟩ := hp
        subst h1 h2
        have : s.access_shares.filter
            (fun g => g.report_id == R && g.shared_with_user_id == sharedUser.id) = [] := by
          rw [List.filter_eq_nil_iff]
          exact List.find?_eq_none.1 hnone
        rw [this]
        simp
      · have : ([{ id := nextId s.shareSeq (s.access_shares.map (·.id)), report_id := R,
                   owner_id := u, shared_with_user_id := sharedUser.id,
                   shared_with_email := body.sharedWithEmail.getD "",
                   role := body.role.getD "viewer", created_at := now }] : List AccessShare).filter
            (fun g => g.report_id == R' && g.shared_with_user_id == u') = [] := by
          rw [List.filter_eq_nil_iff]
          intro g hg
          rw [List.mem_singleton] at hg
          subst hg
          simpa using hp
        rw [this]
        simpa using hpu R' u'
    · exact hpu

theorem insertVitals_shares (s : Store) (now u R : Nat) (f : VitalFields) (date : String) :
    (insertVitals s now u R f date).access_shares = s.access_shares := by
  unfold insertVitals
  split <;> rfl

theorem postUpload_shares (s : Store) (now u : Nat) (file : Option UploadedFile)
    (body : UploadBody) (insertFails : Bool) :
    (postUpload s now u file body insertFails).1.access_shares = s.access_shares := by
  unfold postUpload
  split
  · rfl
  · dsimp only
    split
    · rfl
    · split
      · rfl
      · split
        · rw [insertVitals_shares]
        · rfl

theorem deleteReportRow_shares_sublist (s : Store) (id : Nat) :
    (deleteReportRow s id).access_shares.Sublist s.access_shares := by
  unfold deleteReportRow
  split
  · exact List.filter_sublist _
  · exact List.Sublist.refl _

theorem deleteReport_shares_sublist (s : Store) (u id : Nat) :
    (deleteReport s u id).1.access_shares.Sublist s.access_shares := by
  unfold deleteReport
  split
  · exact List.Sublist.refl _
  · exact deleteReportRow_shares_sublist _ id

theorem deleteShare_shares_sublist (s : Store) (u G : Nat) :
    (deleteShare s u G).1.access_shares.Sublist s.access_shares := by
  unfold deleteShare
  split
  · exact List.Sublist.refl _
  · exact List.filter_sublist _

theorem postVital_shares (s : Store) (now u : Nat) (body : VitalBody) :
    (postVital s now u body).1.access_shares = s.access_shares := by
  unfold postVital
  split
  · rfl
  · split <;> rfl

theorem putVital_shares (s : Store) (u id : Nat) (body : VitalBody) :
    (putVital s u id body).1.access_shares = s.access_shares := by
  unfold putVital
  split <;> rfl

theorem deleteVital_shares (s : Store) (u id : Nat) :
    (deleteVital s u id).1.access_shares = s.access_shares := by
  unfold deleteVital
  split <;> rfl

theorem handle_pairUnique (s : Store) (now u : Nat) (op : Op) (hpu : PairUnique s) :
    PairUnique (handle s now u op).1 := by
  cases op with
  | upload file body insertFails =>
    exact pairUnique_of_eq s _ (postUpload_shares s now u file body insertFails) hpu
  | reportDetail id => exact hpu
  | reportDownload id => exact hpu
  | reportDelete id => exact pairUnique_of_sublist s _ (deleteReport_shares_sublist s u id) hpu
  | sharedReports => exact hpu
  | share R body => exact postShare_pairUnique s now u R body hpu
  | listShares R => exact hpu
  | revoke G => exact pairUnique_of_sublist s _ (deleteShare_shares_sublist s u G) hpu
  | vitalCreate body => exact pairUnique_of_eq s _ (postVital_shares s now u body) hpu
  | vitalUpdate id body => exact pairUnique_of_eq s _ (putVital_shares s u id body) hpu
  | vitalDelete id => exact pairUnique_of_eq s _ (deleteVital_shares s u id) hpu

theorem run_pairUnique (s : Store) (reqs : List Request) (hpu : PairUnique s) :
    PairUnique (run s reqs) := by
  induction reqs generalizing s with
  | nil => exact hpu
  | cons q qs ih => exact ih _ (handle_pairUnique s q.now q.userId q.op hpu)

/-! ## The schema constraints are preserved -/

theorem nodup_map_append_fresh {α β : Type} (f : α → β) (l : List α) (a : α)
    (h : (l.map f).Nodup) (ha : f a ∉ l.map f) : ((l ++ [a]).map f).Nodup := by
  rw [List.map_append, List.map_singleton, List.nodup_append]
  refine ⟨h, List.nodup_singleton _, ?_⟩
  intro b hb hb'
  rw [List.mem_singleton] at hb'
  exact ha (hb' ▸ hb)

theorem nodup_map_filter {α β : Type} (f : α → β) (l : List α) (p : α → Bool)
    (h : (l.map f).Nodup) : ((l.filter p).map f).Nodup :=
  h.sublist ((List.filter_sublist l).map f)

theorem nodup_map_map_of_key {α β : Type} (f : α → β) (g : α → α) (l : List α)
    (hg : ∀ a, f (g a) = f a) (h : (l.map f).Nodup) : ((l.map g).map f).Nodup := by
  have : (l.map g).map f = l.map f := by
    rw [List.map_map]
    apply List.map_congr_left
    intro a _
    exact hg a
  rw [this]
  exact h

theorem wf_of (s s' : Store) (hwf : s.WF) (hfk : s'.foreignKeys = s.foreignKeys)
    (hu : s'.users = s.users)
    (hr : (s'.reports.map (·.id)).Nodup) (hv : (s'.vitals.map (·.id)).Nodup)
    (hs : (s'.access_shares.map (·.id)).Nodup)
    (hrfk : s.foreignKeys = true → ∀ r ∈ s'.reports, ∃ u ∈ s.users, u.id = r.user_id) :
    s'.WF :=
  ⟨hu ▸ hwf.users_id, hu ▸ hwf.users_email, hr, hv, hs, fun h => hu ▸ hrfk (hfk ▸ h)⟩

theorem postShare_wf (s : Store) (now u R : Nat) (body : ShareBody) (hwf : s.WF) :
    (postShare s now u R body).1.WF := by
  unfold postShare
  dsimp only
  split
  · exact hwf
  split
  · exact hwf
  split
  · exact hwf
  split
  · exact hwf
  split
  · exact hwf
  split
  · refine wf_of s _ hwf rfl rfl hwf.reports_id hwf.vitals_id ?_ hwf.reports_fk
    exact nodup_map_map_of_key (fun g : AccessShare => g.id) _ _
      (fun a => by dsimp only; split <;> rfl) hwf.shares_id
  · split
    · refine wf_of s _ hwf rfl rfl hwf.reports_id hwf.vitals_id ?_ hwf.reports_fk
      exact nodup_map_append_fresh (fun g : AccessShare => g.id) _ _ hwf.shares_id
        (nextId_not_mem _ _)
    · exact hwf

theorem insertVitals_wf (s : Store) (now u R : Nat) (f : VitalFields) (date : String)
    (hwf : s.WF) : (insertVitals s now u R f date).WF := by
  unfold insertVitals
  split
  · refine wf_of s _ hwf rfl rfl hwf.reports_id ?_ hwf.shares_id hwf.reports_fk
    exact nodup_map_append_fresh (fun v : Vital => v.id) _ _ hwf.vitals_id
      (nextId_not_mem _ _)
  · exact hwf

theorem blobs_wf (s : Store) (b : List String) (hwf : s.WF) :
    ({ s with blobs := b } : Store).WF :=
  wf_of s _ hwf rfl rfl hwf.reports_id hwf.vitals_id hwf.shares_id hwf.reports_fk

theorem postUpload_wf (s : Store) (now u : Nat) (file : Option UploadedFile)
    (body : UploadBody) (insertFails : Bool) (hwf : s.WF) :
    (postUpload s now u file body insertFails).1.WF := by
  unfold postUpload
  split
  · exact hwf
  · dsimp only
    split
    · exact blobs_wf s _ hwf
    · split
      · exact blobs_wf s _ hwf
      · rename_i hins
        have hs1 : ∀ (f : UploadedFile) (rt d : String),
            ({ s with
                blobs := f.filename :: s.blobs,
                reports := s.reports ++
                  [{ id := nextId s.reportSeq (s.reports.map (·.id)), user_id := u,
                     filename := f.filename, original_filename := f.originalname,
                     file_type := fileTypeOf f, report_type := rt, date := d,
                     created_at := now }],
                reportSeq := nextId s.reportSeq (s.reports.map (·.id)) } : Store).WF := by
          intro f rt d
          refine wf_of s _ hwf rfl rfl ?_ hwf.vitals_id hwf.shares_id ?_
          · exact nodup_map_append_fresh (fun r : Report => r.id) _ _ hwf.reports_id
              (nextId_not_mem _ _)
          · intro hfk r hr
            rcases List.mem_append.1 hr with hr | hr
            · exact hwf.reports_fk hfk r hr
            · rw [List.mem_singleton] at hr
              subst hr
              have : fkReportOk s u = true := by
                cases h : fkReportOk s u
                · simp [h] at hins
                · rfl
              simpa [fkReportOk, hfk] using this
        split
        · exact insertVitals_wf _ _ _ _ _ _ (hs1 _ _ _)
        · exact hs1 _ _ _

theorem deleteReportRow_wf (s : Store) (id : Nat) (hwf : s.WF) : (deleteReportRow s id).WF := by
  unfold deleteReportRow
  split
  · refine wf_of s _ hwf rfl rfl (nodup_map_filter _ _ _ hwf.reports_id) ?_
      (nodup_map_filter _ _ _ hwf.shares_id) ?_
    · exact nodup_map_map_of_key (fun v : Vital => v.id) _ _
        (fun a => by dsimp only; split <;> rfl) hwf.vitals_id
    · intro hfk r hr
      exact hwf.reports_fk hfk r (List.mem_of_mem_filter hr)
  · refine wf_of s _ hwf rfl rfl (nodup_map_filter _ _ _ hwf.reports_id) hwf.vitals_id
      hwf.shares_id ?_
    intro hfk r hr
    exact hwf.reports_fk hfk r (List.mem_of_mem_filter hr)

theorem deleteReport_wf (s : Store) (u id : Nat) (hwf : s.WF) : (deleteReport s u id).1.WF := by
  unfold deleteReport
  split
  · exact hwf
  · exact deleteReportRow_wf _ id (blobs_wf s _ hwf)

theorem deleteShare_wf (s : Store) (u G : Nat) (hwf : s.WF) : (deleteShare s u G).1.WF := by
  unfold deleteShare
  split
  · exact hwf
  · exact wf_of s _ hwf rfl rfl hwf.reports_id hwf.vitals_id
      (nodup_map_filter _ _ _ hwf.shares_id) hwf.reports_fk

theorem postVital_wf (s : Store) (now u : Nat) (body : VitalBody) (hwf : s.WF) :
    (postVital s now u body).1.WF := by
  unfold postVital
  split
  · exact hwf
  · split
    · refine wf_of s _ hwf rfl rfl hwf.reports_id ?_ hwf.shares_id hwf.reports_fk
      exact nodup_map_append_fresh (fun v : Vital => v.id) _ _ hwf.vitals_id
        (nextId_not_mem _ _)
    · exact hwf

theorem putVital_wf (s : Store) (u id : Nat) (body : VitalBody) (hwf : s.WF) :
    (putVital s u id body).1.WF := by
  unfold putVital
  split
  · exact hwf
  · refine wf_of s _ hwf rfl rfl hwf.reports_id ?_ hwf.shares_id hwf.reports_fk
    exact nodup_map_map_of_key (fun v : Vital => v.id) _ _
      (fun a => by dsimp only; split <;> rfl) hwf.vitals_id

theorem deleteVital_wf (s : Store) (u id : Nat) (hwf : s.WF) : (deleteVital s u id).1.WF := by
  unfold deleteVital
  split
  · exact hwf
  · exact wf_of s _ hwf rfl rfl hwf.reports_id (nodup_map_filter _ _ _ hwf.vitals_id)
      hwf.shares_id hwf.reports_fk

theorem handle_wf (s : Store) (now u : Nat) (op : Op) (hwf : s.WF) :
    (handle s now u op).1.WF := by
  cases op with
  | upload file body insertFails => exact postUpload_wf s now u file body insertFails hwf
  | reportDetail id => exact hwf
  | reportDownload id => exact hwf
  | reportDelete id => exact deleteReport_wf s u id hwf
  | sharedReports => exact hwf
  | share R body => exact postShare_wf s now u R body hwf
  | listShares R => exact hwf
  | revoke G => exact deleteShare_wf s u G hwf
  | vitalCreate body => exact postVital_wf s now u body hwf
  | vitalUpdate id body => exact putVital_wf s u id body hwf
  | vitalDelete id => exact deleteVital_wf s u id hwf

theorem run_wf (s : Store) (reqs : List Request) (hwf : s.WF) : (run s reqs).WF := by
  induction reqs generalizing s with
  | nil => exact hwf
  | cons q qs ih => exact ih _ (handle_wf s q.now q.userId q.op hwf)

theorem init_wf (fk : Bool) (users : List User) (hid : (users.map (·.id)).Nodup)
    (hemail : (users.map (·.email)).Nodup) : (Store.init fk users).WF :=
  ⟨hid, hemail, List.nodup_nil, List.nodup_nil, List.nodup_nil,
   fun _ r hr => by cases hr⟩

/-! ## Sharing twice -/

theorem postShare_users (s : Store) (now u R : Nat) (body : ShareBody) :
    (postShare s now u R body).1.users = s.users := by
  unfold postShare
  dsimp only
  repeat' split
  all_goals rfl

theorem postShare_reports (s : Store) (now u R : Nat) (body : ShareBody) :
    (postShare s now u R body).1.reports = s.reports := by
  unfold postShare
  dsimp only
  repeat' split
  all_goals rfl

theorem filter_map_comm {α : Type} (p : α → Bool) (f : α → α) (hf : ∀ a, p (f a) = p a)
    (l : List α) : (l.map f).filter p = (l.filter p).map f := by
  induction l with
  | nil => rfl
  | cons a l ih =>
    rw [List.map_cons, List.filter_cons, List.filter_cons, hf a]
    cases p a
    · simpa using ih
    · simpa using ih

theorem filter_pair_map_setRole (l : List AccessShare) (e : AccessShare) (role : String)
    (R u : Nat) :
    (l.map (fun a => if a = e then { a with role := role } else a)).filter
      (fun g => g.report_id == R && g.shared_with_user_id == u) =
    (l.filter (fun g => g.report_id == R && g.shared_with_user_id == u)).map
      (fun a => if a = e then { a with role := role } else a) := by
  apply filter_map_comm
  intro a
  dsimp only
  split <;> rfl

/-- After a valid share call the store still meets the schema constraints and
the pair invariant, the caller still owns the report, the account is still
there, and the pair has a grant holding the requested role. -/
theorem postShare_post (s : Store) (hwf : s.WF) (hpu : PairUnique s)
    (now u R : Nat) (x : User) (role : String)
    (hown : Owns s u R) (hx : x ∈ s.users) (hne : x.email ≠ "") (hxu : x.id ≠ u)
    (hrole : role = "viewer" ∨ role = "editor") :
    (postShare s now u R ⟨some x.email, some role⟩).1.WF ∧
    PairUnique (postShare s now u R ⟨some x.email, some role⟩).1 ∧
    Owns (postShare s now u R ⟨some x.email, some role⟩).1 u R ∧
    x ∈ (postShare s now u R ⟨some x.email, some role⟩).1.users ∧
    ∃ e ∈ (postShare s now u R ⟨some x.email, some role⟩).1.access_shares,
      e.report_id = R ∧ e.shared_with_user_id = x.id ∧ e.role = role := by
  refine ⟨postShare_wf s now u R _ hwf, postShare_pairUnique s now u R _ hpu, ?_, ?_, ?_⟩
  · unfold Owns
    rw [postShare_reports]
    exact hown
  · rw [postShare_users]
    exact hx
  · by_cases hg : HasGrant s x.id R
    · obtain ⟨e, he, heR, hex⟩ := hg
      rw [postShare_existing s hwf hpu now u R x role hown hx hne hxu hrole e he heR hex]
      refine ⟨{ e with role := role }, ?_, heR, hex, rfl⟩
      dsimp only
      rw [List.mem_map]
      exact ⟨e, he, by simp⟩
    · rw [postShare_fresh s hwf now u R x role hown hx hne hxu hrole hg]
      refine ⟨_, List.mem_append_right _ (List.mem_singleton_self _), rfl, rfl, rfl⟩

/-- C6: two successive valid share calls of the owner for the same report and
the same account, with roles `r₁` then `r₂` (each viewer or editor), leave
exactly one grant for the pair, holding `r₂`; when `r₁ = r₂` the second call
leaves the grant table as the first call left it. -/
theorem share_twice_keeps_latest_role (s : Store) (hwf : s.WF) (hpu : PairUnique s)
    (now₁ now₂ u R : Nat) (x : User) (r₁ r₂ : String)
    (hown : Owns s u R) (hx : x ∈ s.users) (hne : x.email ≠ "") (hxu : x.id ≠ u)
    (hr₁ : r₁ = "viewer" ∨ r₁ = "editor") (hr₂ : r₂ = "viewer" ∨ r₂ = "editor") :
    (∃ g, (postShare (postShare s now₁ u R ⟨some x.email, some r₁⟩).1 now₂ u R
            ⟨some x.email, some r₂⟩).1.access_shares.filter
          (fun g => g.report_id == R && g.shared_with_user_id == x.id) = [g] ∧
        g.role = r₂) ∧
    (r₁ = r₂ →
      (postShare (postShare s now₁ u R ⟨some x.email, some r₁⟩).1 now₂ u R
        ⟨some x.email, some r₂⟩).1.access_shares =
      (postShare s now₁ u R ⟨some x.email, some r₁⟩).1.access_shares) := by
  obtain ⟨hwf₁, hpu₁, hown₁, hx₁, e, he, heR, hex, her⟩ :=
    postShare_post s hwf hpu now₁ u R x r₁ hown hx hne hxu hr₁
  rw [postShare_existing _ hwf₁ hpu₁ now₂ u R x r₂ hown₁ hx₁ hne hxu hr₂ e he heR hex]
  dsimp only
  constructor
  · refine ⟨{ e with role := r₂ }, ?_, rfl⟩
    rw [filter_pair_map_setRole]
    have hmem : e ∈ (postShare s now₁ u R ⟨some x.email, some r₁⟩).1.access_shares.filter
        (fun g => g.report_id == R && g.shared_with_user_id == x.id) := by
      simp [List.mem_filter, he, heR, hex]
    rw [eq_singleton_of_mem_of_length_le_one _ (hpu₁ R x.id) hmem]
    simp
  · intro h12
    have hid : ∀ a ∈ (postShare s now₁ u R ⟨some x.email, some r₁⟩).1.access_shares,
        (if a = e then { a with role := r₂ } else a) = a := by
      intro a _
      by_cases hae : a = e
      · rw [if_pos hae, hae, ← h12, ← her]
      · rw [if_neg hae]
    rw [List.map_congr_left hid, List.map_id']

/-- Witness of C6: Alice shares report 1 with Bob as viewer twice; the second
call leaves the grant table as the first call left it. -/
theorem share_twice_keeps_latest_role_witness :
    exOwned.WF ∧ PairUnique exOwned ∧ Owns exOwned 1 1 ∧ bob ∈ exOwned.users ∧
    (postShare (postShare exOwned 200 1 1 ⟨some bob.email, some "viewer"⟩).1 300 1 1
        ⟨some bob.email, some "viewer"⟩).1.access_shares =
      (postShare exOwned 200 1 1 ⟨some bob.email, some "viewer"⟩).1.access_shares :=
  have hpu : PairUnique exOwned := fun R u => by
    have : exOwned.access_shares = [] := by decide
    rw [this]
    exact Nat.zero_le _
  ⟨by decide, hpu, by decide, by decide,
   (share_twice_keeps_latest_role exOwned (by decide) hpu 200 300 1 1 bob "viewer" "viewer"
      (by decide) (by decide) (by decide) (by decide) (Or.inl rfl) (Or.inl rfl)).2 rfl⟩

/-! ## Share, then revoke -/

theorem flatMap_single_key {α β γ : Type} (f : α → β) (G : α → List γ) (l : List α)
    (h : (l.map f).Nodup) (x : α) (hx : x ∈ l)
    (hG : ∀ y ∈ l, f y ≠ f x → G y = []) : l.flatMap G = G x := by
  induction l with
  | nil => cases hx
  | cons a l ih =>
    rw [List.map_cons, List.nodup_cons] at h
    rw [List.flatMap_cons]
    rcases List.mem_cons.1 hx with hxa | hxl
    · have hnil : l.flatMap G = [] := by
        rw [List.flatMap_eq_nil_iff]
        intro y hy
        apply hG y (List.mem_cons_of_mem _ hy)
        intro hfy
        apply h.1
        rw [← hxa, ← hfy]
        exact List.mem_map_of_mem f hy
      rw [hnil, List.append_nil, hxa]
    · have hne : f a ≠ f x := by
        intro he
        exact h.1 (he ▸ List.mem_map_of_mem f hxl)
      rw [hG a (List.mem_cons_self _ _) hne, List.nil_append]
      exact ih h.2 hxl (fun y hy => hG y (List.mem_cons_of_mem _ hy))

theorem joinOwner_report (users : List User) (r : Report) (g : AccessShare)
    (row : SharedReportRow) (h : row ∈ joinOwner users r g) : row.report = r := by
  unfold joinOwner at h
  split at h
  · rw [List.mem_singleton] at h
    rw [h]
  · rw [List.mem_map] at h
    obtain ⟨_, _, hrow⟩ := h
    rw [← hrow]

theorem sharedJoin_filter_report (s : Store) (hwf : s.WF) (u : Nat) (r : Report)
    (hr : r ∈ s.reports) :
    (sharedJoin s u).filter (fun x => x.report.id == r.id) =
      (s.access_shares.filter
        (fun g => r.id == g.report_id && g.shared_with_user_id == u)).flatMap
        (joinOwner s.users r) := by
  unfold sharedJoin
  rw [List.filter_flatMap]
  rw [flatMap_single_key (fun x : Report => x.id) _ s.reports hwf.reports_id r hr]
  · rw [List.filter_eq_self]
    intro row hrow
    rw [List.mem_flatMap] at hrow
    obtain ⟨g, _, hrow⟩ := hrow
    rw [joinOwner_report s.users r g row hrow]
    simp
  · intro y _ hne
    rw [List.filter_eq_nil_iff]
    intro row hrow
    rw [List.mem_flatMap] at hrow
    obtain ⟨g, _, hrow⟩ := hrow
    rw [joinOwner_report s.users y g row hrow]
    simpa using hne

theorem getShared_rows (s : Store) (hwf : s.WF) (u : Nat) (r : Report) (hr : r ∈ s.reports) :
    ∃ rows, getShared s u = ⟨200, .sharedReports rows⟩ ∧
      (rows.filter (fun x => x.report.id == r.id)).Perm
        ((s.access_shares.filter
          (fun g => r.id == g.report_id && g.shared_with_user_id == u)).flatMap
          (joinOwner s.users r)) := by
  refine ⟨_, rfl, ?_⟩
  rw [← sharedJoin_filter_report s hwf u r hr]
  exact (List.perm_insertionSort _ _).filter _

theorem deleteShare_granted (s : Store) (u G : Nat) (h : OwnsShare s u G) :
    deleteShare s u G =
      ({ s with access_shares := s.access_shares.filter (fun g => !(g.id == G)) },
       ⟨200, .message "Access revoked successfully"⟩) := by
  cases hf : s.access_shares.find? (fun g => g.id == G &&
      s.reports.any (fun r => g.report_id == r.id && r.user_id == u)) with
  | none => exact absurd h ((shareRow_eq_none s u G).1 hf)
  | some g => simp only [deleteShare, hf]

theorem readableReport_of_canRead (s : Store) (hwf : s.WF) (u : Nat) (r : Report)
    (hr : r ∈ s.reports) (h : CanRead s u r.id) : readableReport s u r.id = some r := by
  cases hf : readableReport s u r.id with
  | none => exact absurd h ((readableReport_eq_none s u r.id).1 hf)
  | some r' =>
    obtain ⟨hr', hid⟩ := readableReport_some s u r.id r' hf
    rw [eq_of_key_eq (fun x : Report => x.id) s.reports hwf.reports_id hr' hr hid]

/-- C10: let B hold no grant on report `r` of owner A.  After A shares `r`
with B's email under a valid role, the answer is 201 with the new grant's id,
B's shared listing has exactly one entry for `r`, carrying that role and A's
username, and B's detail request returns `r`.  After A revokes that grant,
B's shared listing has no entry for `r`, B's detail request is answered
NotFound, and the grant table is the one before the share. -/
theorem share_then_revoke_round_trip (s : Store) (hwf : s.WF) (now : Nat) (r : Report)
    (a b : User) (role : String)
    (hr : r ∈ s.reports) (hra : r.user_id = a.id) (ha : a ∈ s.users) (hb : b ∈ s.users)
    (hne : b.email ≠ "") (hba : b.id ≠ a.id) (hno : ¬ HasGrant s b.id r.id)
    (hrole : role = "viewer" ∨ role = "editor") :
    let gid := nextId s.shareSeq (s.access_shares.map (·.id))
    let s₁ := (postShare s now a.id r.id ⟨some b.email, some role⟩).1
    let s₂ := (deleteShare s₁ a.id gid).1
    (postShare s now a.id r.id ⟨some b.email, some role⟩).2 =
      ⟨201, .shareCreated "Report shared successfully" gid⟩ ∧
    (∃ rows, getShared s₁ b.id = ⟨200, .sharedReports rows⟩ ∧
      rows.filter (fun x => x.report.id == r.id) = [⟨r, role, a.id, some a.username⟩]) ∧
    getReport s₁ b.id r.id =
      ⟨200, .reportDetail r (s.vitals.filter (fun v => v.report_id == some r.id)).head?⟩ ∧
    (deleteShare s₁ a.id gid).2 = ⟨200, .message "Access revoked successfully"⟩ ∧
    (∃ rows, getShared s₂ b.id = ⟨200, .sharedReports rows⟩ ∧
      rows.filter (fun x => x.report.id == r.id) = []) ∧
    getReport s₂ b.id r.id = ⟨404, .error "Report not found or access denied"⟩ ∧
    s₂.access_shares = s.access_shares := by
  intro gid s₁ s₂
  have hown : Owns s a.id r.id := ⟨r, hr, rfl, hra⟩
  have hpost := postShare_fresh s hwf now a.id r.id b role hown hb hne hba hrole hno
  have hs₁ : s₁ = { s with
      access_shares := s.access_shares ++ [⟨gid, r.id, a.id, b.id, b.email, role, now⟩],
      shareSeq := gid } := by
    show (postShare s now a.id r.id ⟨some b.email, some role⟩).1 = _
    rw [hpost]
  have hwf₁ : s₁.WF := postShare_wf s now a.id r.id _ hwf
  have hr₁ : r ∈ s₁.reports := by rw [hs₁]; exact hr
  have hnofilter : s.access_shares.filter
      (fun g => r.id == g.report_id && g.shared_with_user_id == b.id) = [] := by
    rw [List.filter_eq_nil_iff]
    intro g hg hp
    simp only [Bool.and_eq_true, beq_iff_eq] at hp
    exact hno ⟨g, hg, hp.1.symm, hp.2⟩
  have hgrants₁ : s₁.access_shares.filter
      (fun g => r.id == g.report_id && g.shared_with_user_id == b.id) =
      [⟨gid, r.id, a.id, b.id, b.email, role, now⟩] := by
    rw [hs₁]
    dsimp only
    rw [List.filter_append, hnofilter]
    simp
  have howner : s.users.filter (fun x => x.id == a.id) = [a] :=
    filter_key_of_nodup (fun x : User => x.id) s.users hwf.users_id a ha
  have hdel : deleteShare s₁ a.id gid = ({ s with shareSeq := gid },
      ⟨200, .message "Access revoked successfully"⟩) := by
    have hos : OwnsShare s₁ a.id gid := by
      refine ⟨⟨gid, r.id, a.id, b.id, b.email, role, now⟩, ?_, rfl, r, hr₁, rfl, hra⟩
      rw [hs₁]
      exact List.mem_append_right _ (List.mem_singleton_self _)
    rw [deleteShare_granted s₁ a.id gid hos, hs₁]
    dsimp only
    rw [List.filter_append]
    have h1 : s.access_shares.filter (fun g => !(g.id == gid)) = s.access_shares := by
      rw [List.filter_eq_self]
      intro g hg
      simpa using share_id_fresh s g hg
    rw [h1]
    simp
  have hs₂ : s₂ = { s with shareSeq := gid } := by
    show (deleteShare s₁ a.id gid).1 = _
    rw [hdel]
  have hwf₂ : s₂.WF := deleteShare_wf s₁ a.id gid hwf₁
  have hr₂ : r ∈ s₂.reports := by rw [hs₂]; exact hr
  refine ⟨by rw [hpost], ?_, ?_, by rw [hdel], ?_, ?_, by rw [hs₂]⟩
  · obtain ⟨rows, hrows, hperm⟩ := getShared_rows s₁ hwf₁ b.id r hr₁
    refine ⟨rows, hrows, ?_⟩
    rw [hgrants₁] at hperm
    have hj : joinOwner s₁.users r ⟨gid, r.id, a.id, b.id, b.email, role, now⟩ =
        [⟨r, role, a.id, some a.username⟩] := by
      rw [hs₁]
      unfold joinOwner
      dsimp only
      rw [howner]
      rfl
    rw [List.flatMap_cons, List.flatMap_nil, List.append_nil, hj] at hperm
    exact List.perm_singleton.1 hperm
  · have hcan : CanRead s₁ b.id r.id := by
      refine ⟨r, hr₁, rfl, Or.inr ⟨⟨gid, r.id, a.id, b.id, b.email, role, now⟩, ?_, rfl, rfl⟩⟩
      rw [hs₁]
      exact List.mem_append_right _ (List.mem_singleton_self _)
    unfold getReport
    rw [readableReport_of_canRead s₁ hwf₁ b.id r hr₁ hcan, hs₁]
  · obtain ⟨rows, hrows, hperm⟩ := getShared_rows s₂ hwf₂ b.id r hr₂
    refine ⟨rows, hrows, ?_⟩
    have : s₂.access_shares.filter
        (fun g => r.id == g.report_id && g.shared_with_user_id == b.id) = [] := by
      rw [hs₂]
      exact hnofilter
    rw [this, List.flatMap_nil] at hperm
    exact List.Perm.eq_nil hperm
  · apply getReport_denied
    rintro ⟨r', hr', hid, hacc⟩
    rw [hs₂] at hr'
    have hrr : r' = r :=
      eq_of_key_eq (fun x : Report => x.id) s.reports hwf.reports_id hr' hr hid
    rcases hacc with ho | hg
    · rw [hrr, hra] at ho
      exact hba ho.symm
    · apply hno
      obtain ⟨g, hg, h1, h2⟩ := hg
      rw [hs₂] at hg
      exact ⟨g, hg, h1, h2⟩

/-- Witness of C10: Alice shares her report 1 with Bob as viewer and revokes
the grant; Bob's detail request is then answered NotFound and no grant is left. -/
theorem share_then_revoke_round_trip_witness :
    exOwned.WF ∧ ¬ HasGrant exOwned bob.id 1 ∧
    getReport (deleteShare (postShare exOwned 200 alice.id 1
        ⟨some bob.email, some "viewer"⟩).1 alice.id
        (nextId exOwned.shareSeq (exOwned.access_shares.map (·.id)))).1 bob.id 1 =
      ⟨404, .error "Report not found or access denied"⟩ ∧
    (deleteShare (postShare exOwned 200 alice.id 1
        ⟨some bob.email, some "viewer"⟩).1 alice.id
        (nextId exOwned.shareSeq (exOwned.access_shares.map (·.id)))).1.access_shares =
      exOwned.access_shares :=
  have h := share_then_revoke_round_trip exOwned (by decide) 200
    ⟨1, 1, "1709-42.pdf", "blood.pdf", "pdf", "Blood Test", "2024-03-01", 100⟩
    alice bob "viewer" (by decide) rfl (by decide) (by decide) (by decide) (by decide)
    (by decide) (Or.inl rfl)
  ⟨by decide, by decide, h.2.2.2.2.2.1, h.2.2.2.2.2.2⟩

/-! ## The order of dates -/

theorem textLt_iff (a b : String) : textLt a b ↔ a < b :=
  String.lt_iff_toList_lt.symm

theorem textLt_trichotomy (a b : String) : textLt a b ∨ a = b ∨ textLt b a := by
  simp only [textLt_iff]
  exact lt_trichotomy a b

theorem textLt_trans {a b c : String} (h1 : textLt a b) (h2 : textLt b c) : textLt a c := by
  rw [textLt_iff] at *
  exact lt_trans h1 h2

theorem textLt_asymm {a b : String} (h1 : textLt a b) : ¬ textLt b a := by
  rw [textLt_iff] at *
  exact lt_asymm h1

theorem textLt_irrefl (a : String) : ¬ textLt a a := by
  rw [textLt_iff]
  exact lt_irrefl a

theorem vitalBefore_total (a b : Vital) : vitalBefore a b ∨ vitalBefore b a := by
  unfold vitalBefore
  rcases textLt_trichotomy a.date b.date with h | h | h
  · exact Or.inl (Or.inl h)
  · rcases Nat.le_total a.created_at b.created_at with hc | hc
    · exact Or.inl (Or.inr ⟨h, hc⟩)
    · exact Or.inr (Or.inr ⟨h.symm, hc⟩)
  · exact Or.inr (Or.inl h)

theorem vitalBefore_trans {a b c : Vital} (h1 : vitalBefore a b) (h2 : vitalBefore b c) :
    vitalBefore a c := by
  unfold vitalBefore at *
  rcases h1 with h1 | ⟨e1, c1⟩ <;> rcases h2 with h2 | ⟨e2, c2⟩
  · exact Or.inl (textLt_trans h1 h2)
  · exact Or.inl (e2 ▸ h1)
  · exact Or.inl (e1 ▸ h2)
  · exact Or.inr ⟨e1.trans e2, le_trans c1 c2⟩

theorem trendBefore_total (a b : Vital) : trendBefore a b ∨ trendBefore b a := by
  unfold trendBefore
  by_cases h : textLt b.date a.date
  · exact Or.inr (textLt_asymm h)
  · exact Or.inl h

theorem trendBefore_trans {a b c : Vital} (h1 : trendBefore a b) (h2 : trendBefore b c) :
    trendBefore a c := by
  unfold trendBefore at *
  intro h
  rcases textLt_trichotomy a.date b.date with hab | hab | hab
  · exact h2 (textLt_trans h hab)
  · exact h2 (hab ▸ h)
  · exact h1 hab

theorem selectVitals_sorted (s : Store) (u : Nat) (q : VitalQuery) :
    List.Sorted vitalBefore (selectVitals s u q) :=
  @List.sorted_insertionSort _ vitalBefore _ ⟨vitalBefore_total⟩
    ⟨fun _ _ _ => vitalBefore_trans⟩ _

theorem selectTrendRows_sorted (s : Store) (u : Nat) (q : VitalQuery) :
    List.Sorted trendBefore (selectTrendRows s u q) :=
  @List.sorted_insertionSort _ trendBefore _ ⟨trendBefore_total⟩
    ⟨fun _ _ _ => trendBefore_trans⟩ _

theorem selectVitals_perm (s : Store) (u : Nat) (q : VitalQuery) :
    (selectVitals s u q).Perm
      (s.vitals.filter (fun v => v.user_id == u && inDateRange q v.date)) :=
  List.perm_insertionSort _ _

theorem selectTrendRows_perm (s : Store) (u : Nat) (q : VitalQuery) :
    (selectTrendRows s u q).Perm
      (s.vitals.filter (fun v => v.user_id == u && inDateRange q v.date)) :=
  List.perm_insertionSort _ _

/-! ## Deleting a report -/

theorem deleteReport_granted (s : Store) (u R : Nat) (h : Owns s u R) :
    ∃ r ∈ s.reports, r.id = R ∧ r.user_id = u ∧
      deleteReport s u R =
        (deleteReportRow { s with blobs := s.blobs.filter (fun b => !(b == r.filename)) } R,
         ⟨200, .message "Report deleted successfully"⟩) := by
  obtain ⟨r, hf⟩ := ownerRow_isSome s u R h
  have hp := List.find?_some hf
  simp only [Bool.and_eq_true, beq_iff_eq] at hp
  exact ⟨r, List.mem_of_find?_eq_some hf, hp.1, hp.2, by simp only [deleteReport, hf]⟩

/-- Without foreign-key enforcement the delete statement removes the report
row and nothing else: grants and vitals rows stay as they are. -/
theorem deleteReport_without_enforcement (s : Store) (hfk : s.foreignKeys = false)
    (u R : Nat) (h : Owns s u R) :
    (deleteReport s u R).2 = ⟨200, .message "Report deleted successfully"⟩ ∧
    (deleteReport s u R).1.reports = s.reports.filter (fun r => !(r.id == R)) ∧
    (deleteReport s u R).1.access_shares = s.access_shares ∧
    (deleteReport s u R).1.vitals = s.vitals := by
  obtain ⟨r, _, _, _, hdel⟩ := deleteReport_granted s u R h
  rw [hdel]
  simp [deleteReportRow, hfk]

/-- With foreign-key enforcement the delete cascades as the schema declares:
the grants of the report are deleted, the vitals rows that referenced it stay
with `report_id` cleared, every other row is untouched. -/
theorem deleteReport_with_enforcement (s : Store) (hfk : s.foreignKeys = true)
    (u R : Nat) (h : Owns s u R) :
    (deleteReport s u R).2 = ⟨200, .message "Report deleted successfully"⟩ ∧
    (deleteReport s u R).1.reports = s.reports.filter (fun r => !(r.id == R)) ∧
    (deleteReport s u R).1.access_shares =
      s.access_shares.filter (fun g => !(g.report_id == R)) ∧
    (deleteReport s u R).1.vitals =
      s.vitals.map (fun v => if v.report_id = some R then { v with report_id := none } else v) := by
  obtain ⟨r, _, _, _, hdel⟩ := deleteReport_granted s u R h
  rw [hdel]
  simp [deleteReportRow, hfk]

/-- C11 (the code at the failing input): on a connection that does not
enforce foreign keys, which is what database.js opens, Alice deletes her
report 1; the answer is "Report deleted successfully", yet Bob's grant on
report 1 is still in `access_shares` and the vitals row linked to report 1
still carries `report_id = 1`. -/
theorem delete_report_leaves_grant_and_link :
    exLinked.foreignKeys = false ∧ Owns exLinked 1 1 ∧
    (deleteReport exLinked 1 1).2 = ⟨200, .message "Report deleted successfully"⟩ ∧
    (deleteReport exLinked 1 1).1.reports = [] ∧
    (deleteReport exLinked 1 1).1.access_shares =
      [⟨1, 1, 1, 2, "bob@example.org", "editor", 101⟩] ∧
    (deleteReport exLinked 1 1).1.vitals.map (fun v => (v.id, v.report_id)) = [(1, some 1)] := by
  decide

/-! ## A failing grant insert -/

theorem postShareWith_false (s : Store) (now u R : Nat) (body : ShareBody) :
    postShareWith false s now u R body = postShare s now u R body := by
  unfold postShareWith postShare
  simp

theorem postShareWith_true (s : Store) (now u R : Nat) (body : ShareBody) :
    postShareWith true s now u R body =
      if (postShare s now u R body).2.status = 201 then
        (s, ⟨500, .error "Failed to create share"⟩)
      else postShare s now u R body := by
  unfold postShareWith postShare
  dsimp only
  by_cases h1 : (!truthyStr body.sharedWithEmail) = true
  · simp [h1]
  by_cases h2 : (!(["viewer", "editor"].contains (body.role.getD "viewer"))) = true
  · simp only [h1, h2, if_true, if_false]
    simp
  simp only [h1, h2, if_false]
  cases h3 : s.reports.find? (fun r => r.id == R && r.user_id == u) with
  | none => simp
  | some r =>
    cases h4 : s.users.find? (fun x => x.email == body.sharedWithEmail.getD "") with
    | none => simp
    | some x =>
      by_cases h5 : x.id = u
      · simp [h5]
      · simp only [h5, if_false]
        cases h6 : s.access_shares.find?
            (fun g => g.report_id == R && g.shared_with_user_id == x.id) with
        | some g => simp
        | none =>
          by_cases h7 : fkShareOk s R u x.id = true
          · simp [h7]
          · simp [h7]

/-! ## Recording vitals -/

theorem postVital_no_date (s : Store) (now u : Nat) (body : VitalBody)
    (h : truthyStr body.date = false) :
    postVital s now u body = (s, ⟨400, .error "Date is required"⟩) := by
  simp [postVital, h]

theorem postVital_stored (s : Store) (now u : Nat) (body : VitalBody)
    (h : truthyStr body.date = true) (hfk : fkVitalOk s u (idOrNull body.reportId) = true) :
    postVital s now u body =
      ({ s with
          vitals := s.vitals ++
            [mkVital (nextId s.vitalSeq (s.vitals.map (·.id))) u body.reportId body.fields
              (body.date.getD "") now],
          vitalSeq := nextId s.vitalSeq (s.vitals.map (·.id)) },
       ⟨201, .vitalCreated "Vitals saved successfully"
          (nextId s.vitalSeq (s.vitals.map (·.id)))⟩) := by
  simp [postVital, h, hfk]

theorem postVital_fk_violation (s : Store) (now u : Nat) (body : VitalBody)
    (h : truthyStr body.date = true) (hfk : fkVitalOk s u (idOrNull body.reportId) = false) :
    postVital s now u body = (s, ⟨500, .error "Failed to save vitals"⟩) := by
  simp [postVital, h, hfk]

theorem fkVitalOk_iff (s : Store) (u : Nat) (rid : Option Nat) :
    fkVitalOk s u rid = true ↔
      (s.foreignKeys = false ∨
        ((∃ x ∈ s.users, x.id = u) ∧ ∀ R, rid = some R → ∃ r ∈ s.reports, r.id = R)) := by
  unfold fkVitalOk
  cases hfk : s.foreignKeys <;> cases rid <;> simp

/-- C13 as stated fails: Bob does not own report 1 (it is Alice's, and not
shared with him), yet his reading that names report 1 is stored, with
`user_id` 2 and `report_id` 1, and answered 201; a reading that names a report
that does not exist is stored as well. -/
theorem vital_linked_to_foreign_report :
    ¬ Owns exOwned 2 1 ∧
    (postVital exOwned 200 2
      ⟨some 1, { noFields with heartRate := .num 80 }, some "2024-03-02"⟩).2 =
      ⟨201, .vitalCreated "Vitals saved successfully" 1⟩ ∧
    (postVital exOwned 200 2
      ⟨some 1, { noFields with heartRate := .num 80 }, some "2024-03-02"⟩).1.vitals.map
        (fun v => (v.user_id, v.report_id)) = [(2, some 1)] ∧
    (∀ r ∈ exOwned.reports, r.id ≠ 99) ∧
    (postVital exOwned 200 2
      ⟨some 99, { noFields with heartRate := .num 80 }, some "2024-03-02"⟩).1.vitals.map
        (fun v => (v.user_id, v.report_id)) = [(2, some 99)] := by
  decide

/-- C13 (amended): recordVital checks the date and nothing about the report.
Without a date it answers Validation and stores nothing.  With a date it
stores a row with `user_id` = caller and the `report_id` of the request (0
stored as absent), whoever owns that report, and answers 201; the one
exception is a connection that enforces foreign keys, where a `report_id` of
no report (or a caller that is no account) makes the insert fail: the answer
is then 500 and nothing is stored. -/
theorem recordVital_checks_date_only (s : Store) (now u : Nat) (body : VitalBody) :
    (truthyStr body.date = false →
      postVital s now u body = (s, ⟨400, .error "Date is required"⟩)) ∧
    (truthyStr body.date = true →
      (s.foreignKeys = false ∨
        ((∃ x ∈ s.users, x.id = u) ∧
          ∀ R, idOrNull body.reportId = some R → ∃ r ∈ s.reports, r.id = R)) →
      ∃ v, postVital s now u body =
          ({ s with vitals := s.vitals ++ [v],
                    vitalSeq := nextId s.vitalSeq (s.vitals.map (·.id)) },
           ⟨201, .vitalCreated "Vitals saved successfully"
              (nextId s.vitalSeq (s.vitals.map (·.id)))⟩) ∧
        v.user_id = u ∧ v.report_id = idOrNull body.reportId ∧
        v.date = body.date.getD "" ∧ v.id = nextId s.vitalSeq (s.vitals.map (·.id))) ∧
    (truthyStr body.date = true →
      ¬ (s.foreignKeys = false ∨
        ((∃ x ∈ s.users, x.id = u) ∧
          ∀ R, idOrNull body.reportId = some R → ∃ r ∈ s.reports, r.id = R)) →
      postVital s now u body = (s, ⟨500, .error "Failed to save vitals"⟩)) := by
  refine ⟨postVital_no_date s now u body, ?_, ?_⟩
  · intro h hfk
    exact ⟨_, postVital_stored s now u body h ((fkVitalOk_iff s u _).2 hfk), rfl, rfl, rfl, rfl⟩
  · intro h hfk
    apply postVital_fk_violation s now u body h
    rw [← Bool.not_eq_true, fkVitalOk_iff]
    exact hfk

/-- Witness of C13 (amended): Bob's reading that names Alice's report 1 is
answered 201. -/
theorem recordVital_checks_date_only_witness :
    ¬ Owns exOwned 2 1 ∧ exOwned.foreignKeys = false ∧
    (postVital exOwned 200 2
      ⟨some 1, { noFields with heartRate := .num 80 }, some "2024-03-02"⟩).2 =
      ⟨201, .vitalCreated "Vitals saved successfully"
        (nextId exOwned.vitalSeq (exOwned.vitals.map (·.id)))⟩ := by
  refine ⟨by decide, by decide, ?_⟩
  obtain ⟨v, hv, _⟩ := (recordVital_checks_date_only exOwned 200 2
      ⟨some 1, { noFields with heartRate := .num 80 }, some "2024-03-02"⟩).2.1
      (by decide) (Or.inl (by decide))
  rw [hv]

/-! ## Vitals rows and the reports they name -/

theorem idOrNull_nextId (seq : Nat) (l : List Nat) :
    idOrNull (some (nextId seq l)) = some (nextId seq l) := by
  unfold nextId idOrNull
  rfl

theorem fkVitalOk_after_report_insert (s : Store) (u : Nat) (r : Report) (b : List String)
    (hfk : fkReportOk s u = true) :
    fkVitalOk { s with blobs := b, reports := s.reports ++ [r], reportSeq := r.id } u
      (some r.id) = true := by
  unfold fkReportOk at hfk
  unfold fkVitalOk
  cases h : s.foreignKeys
  · simp
  · simp only [h, Bool.not_true, Bool.false_or] at hfk
    simp [hfk]

/-- C14 as stated fails: in a store reached by an upload of Alice and a
recordVital of Bob, the only vitals row belongs to Bob and names report 1,
whose owner is Alice; Alice's detail view of report 1 returns Bob's row. -/
theorem reachable_vital_of_other_owner :
    exForeign = run (Store.init false [alice, bob, carol])
      [⟨1, 100, .upload (some ⟨"1709-42.pdf", "blood.pdf", ".pdf"⟩)
          ⟨some "Blood Test", some "2024-03-01", none⟩ false⟩,
       ⟨2, 200, .vitalCreate
          ⟨some 1, { noFields with heartRate := .num 80 }, some "2024-03-02"⟩⟩] ∧
    exForeign.reports.map (fun r => (r.id, r.user_id)) = [(1, 1)] ∧
    exForeign.vitals.map (fun v => (v.user_id, v.report_id)) = [(2, some 1)] ∧
    (getReport exForeign 1 1).status = 200 ∧
    (getReport exForeign 1 1).body.vitalRows.map (fun v => v.user_id) = [2] := by
  decide

theorem fkReportOk_iff (s : Store) (u : Nat) :
    fkReportOk s u = true ↔ (s.foreignKeys = true → ∃ x ∈ s.users, x.id = u) := by
  unfold fkReportOk
  cases s.foreignKeys <;> simp

theorem postUpload_with_vitals (s : Store) (now u : Nat) (f : UploadedFile) (body : UploadBody)
    (vd : VitalFields)
    (hrt : truthyStr body.reportType = true) (hd : truthyStr body.date = true)
    (hv : body.vitals = some vd) (hfk : fkReportOk s u = true) :
    postUpload s now u (some f) body false =
      (insertVitals
        { s with
          blobs := f.filename :: s.blobs,
          reports := s.reports ++
            [{ id := nextId s.reportSeq (s.reports.map (·.id)), user_id := u,
               filename := f.filename, original_filename := f.originalname,
               file_type := fileTypeOf f, report_type := body.reportType.getD "",
               date := body.date.getD "", created_at := now }],
          reportSeq := nextId s.reportSeq (s.reports.map (·.id)) }
        now u (nextId s.reportSeq (s.reports.map (·.id))) vd (body.date.getD ""),
       ⟨201, .uploaded "Report uploaded successfully" (nextId s.reportSeq (s.reports.map (·.id)))
          f.filename f.originalname (body.reportType.getD "") (body.date.getD "")⟩) := by
  simp [postUpload, hrt, hd, hv, hfk]

theorem getReport_vitals (s : Store) (u R : Nat) (r : Report) (V : Vital)
    (h : getReport s u R = ⟨200, .reportDetail r (some V)⟩) :
    (s.vitals.filter (fun v => v.report_id == some R)).head? = some V ∧
    V ∈ s.vitals ∧ V.report_id = some R ∧ CanRead s u R := by
  unfold getReport at h
  cases hf : readableReport s u R with
  | none => rw [hf] at h; simp at h
  | some r' =>
    rw [hf] at h
    simp only [Response.mk.injEq, Body.reportDetail.injEq, true_and] at h
    have hmem := List.mem_of_mem_head? h.2
    rw [List.mem_filter] at hmem
    refine ⟨h.2, hmem.1, by simpa using hmem.2, ?_⟩
    by_contra hc
    rw [(readableReport_eq_none s u R).2 hc] at hf
    cases hf

/-- C14 (amended): a vitals row stored by an upload belongs to the uploader
and names the report that this upload has just created, which the uploader
owns and whose id no earlier report has.  (Rows stored by recordVital carry
whatever report id the request named.)  The vitals row inside a detail view
of report `R` is the first row of `vitals` whose `report_id` is `R`, whoever
owns that row. -/
theorem upload_links_vitals_to_new_report (s : Store) (now u : Nat) (f : UploadedFile)
    (body : UploadBody) (vd : VitalFields)
    (hrt : truthyStr body.reportType = true) (hd : truthyStr body.date = true)
    (hv : body.vitals = some vd)
    (hacc : s.foreignKeys = true → ∃ x ∈ s.users, x.id = u) :
    (∃ r v, (postUpload s now u (some f) body false).1.reports = s.reports ++ [r] ∧
      (postUpload s now u (some f) body false).1.vitals = s.vitals ++ [v] ∧
      r.user_id = u ∧ v.user_id = u ∧ v.report_id = some r.id ∧
      ∀ r' ∈ s.reports, r'.id ≠ r.id) ∧
    (∀ (w R : Nat) (r : Report) (V : Vital),
      getReport s w R = ⟨200, .reportDetail r (some V)⟩ →
      (s.vitals.filter (fun v => v.report_id == some R)).head? = some V ∧
      V.report_id = some R) := by
  have hfk := (fkReportOk_iff s u).2 hacc
  constructor
  · rw [postUpload_with_vitals s now u f body vd hrt hd hv hfk]
    have hvok := fkVitalOk_after_report_insert s u
      ⟨nextId s.reportSeq (s.reports.map (·.id)), u, f.filename, f.originalname,
        fileTypeOf f, body.reportType.getD "", body.date.getD "", now⟩
      (f.filename :: s.blobs) hfk
    refine ⟨⟨nextId s.reportSeq (s.reports.map (·.id)), u, f.filename, f.originalname,
        fileTypeOf f, body.reportType.getD "", body.date.getD "", now⟩,
      mkVital (nextId s.vitalSeq (s.vitals.map (·.id))) u
        (some (nextId s.reportSeq (s.reports.map (·.id)))) vd (body.date.getD "") now,
      ?_, ?_, rfl, rfl, ?_, ?_⟩
    · unfold insertVitals
      split <;> rfl
    · unfold insertVitals
      rw [idOrNull_nextId]
      dsimp only at hvok
      rw [if_pos hvok]
    · exact idOrNull_nextId _ _
    · intro r' hr' h
      have h' : r'.id = nextId s.reportSeq (s.reports.map (·.id)) := h
      apply nextId_not_mem s.reportSeq (s.reports.map (·.id))
      rw [← h']
      exact List.mem_map_of_mem (fun x : Report => x.id) hr'
  · intro w R r V h
    have := getReport_vitals s w R r V h
    exact ⟨this.1, this.2.2.1⟩

/-- Witness of C14 (amended): Bob uploads a report together with a heart-rate
reading into the store that holds Alice's report; the one vitals row of the
resulting store is Bob's. -/
theorem upload_links_vitals_to_new_report_witness :
    exOwned.foreignKeys = false ∧
    (postUpload exOwned 300 2 (some ⟨"1710-7.png", "scan.png", ".png"⟩)
        ⟨some "X-Ray", some "2024-03-05", some { noFields with heartRate := .num 64 }⟩
        false).1.vitals.map (fun v => v.user_id) = [2] := by
  refine ⟨by decide, ?_⟩
  obtain ⟨r, v, _, hv, _, hu, _⟩ :=
    (upload_links_vitals_to_new_report exOwned 300 2 ⟨"1710-7.png", "scan.png", ".png"⟩
      ⟨some "X-Ray", some "2024-03-05", some { noFields with heartRate := .num 64 }⟩
      { noFields with heartRate := .num 64 } (by decide) (by decide) rfl
      (fun h => absurd h (by decide))).1
  rw [hv]
  have : exOwned.vitals = [] := by decide
  rw [this, List.nil_append, List.map_singleton, hu]

/-! ## Vitals rows of other users -/

theorem handle_vitalRows (s : Store) (now u : Nat) (op : Op)
    (h : ∀ R, op ≠ .reportDetail R) : (handle s now u op).2.body.vitalRows = [] := by
  cases op with
  | reportDetail R => exact absurd rfl (h R)
  | upload file body insertFails =>
    simp only [handle]
    unfold postUpload
    dsimp only
    repeat' split
    all_goals rfl
  | reportDownload id =>
    simp only [handle]
    unfold getDownload
    repeat' split
    all_goals rfl
  | reportDelete id =>
    simp only [handle]
    unfold deleteReport
    repeat' split
    all_goals rfl
  | sharedReports => rfl
  | share R body =>
    simp only [handle]
    unfold postShare
    dsimp only
    repeat' split
    all_goals rfl
  | listShares R =>
    simp only [handle]
    unfold getSharesForReport
    repeat' split
    all_goals rfl
  | revoke G =>
    simp only [handle]
    unfold deleteShare
    repeat' split
    all_goals rfl
  | vitalCreate body =>
    simp only [handle]
    unfold postVital
    repeat' split
    all_goals rfl
  | vitalUpdate id body =>
    simp only [handle]
    unfold putVital
    repeat' split
    all_goals rfl
  | vitalDelete id =>
    simp only [handle]
    unfold deleteVital
    repeat' split
    all_goals rfl

theorem getReport_vitalRows (s : Store) (u R : Nat) (V : Vital)
    (h : V ∈ (getReport s u R).body.vitalRows) : CanRead s u R ∧ V.report_id = some R := by
  unfold getReport at h
  cases hf : readableReport s u R with
  | none =>
    rw [hf] at h
    simp [Body.vitalRows] at h
  | some r =>
    rw [hf] at h
    dsimp only at h
    cases hh : (s.vitals.filter (fun v => v.report_id == some R)).head? with
    | none =>
      rw [hh] at h
      simp [Body.vitalRows] at h
    | some W =>
      rw [hh] at h
      simp only [Body.vitalRows, List.mem_singleton] at h
      subst h
      have hmem := List.mem_of_mem_head? hh
      rw [List.mem_filter] at hmem
      refine ⟨?_, by simpa using hmem.2⟩
      by_contra hc
      rw [(readableReport_eq_none s u R).2 hc] at hf
      cases hf

theorem getVitals_rows_owned (s : Store) (u : Nat) (q : VitalQuery) (v : Vital)
    (h : v ∈ (getVitals s u q).body.vitalRows) : v ∈ s.vitals ∧ v.user_id = u := by
  have hsel : v ∈ selectVitals s u q := by
    unfold getVitals at h
    dsimp only [Body.vitalRows] at h
    split at h
    · exact List.mem_of_mem_filter h
    · exact h
  unfold selectVitals at hsel
  rw [List.mem_insertionSort, List.mem_filter] at hsel
  simp only [Bool.and_eq_true, beq_iff_eq] at hsel
  exact ⟨hsel.1, hsel.2.1⟩

theorem filter_own_filter (l : List Vital) (u : Nat) (q : VitalQuery) :
    (l.filter (fun v => v.user_id == u)).filter
        (fun v => v.user_id == u && inDateRange q v.date) =
      l.filter (fun v => v.user_id == u && inDateRange q v.date) := by
  rw [List.filter_filter]
  apply List.filter_congr
  intro v _
  cases h : (v.user_id == u) <;> simp

theorem getTrends_own_rows (s : Store) (u : Nat) (q : VitalQuery) :
    getTrends s u q =
      getTrends { s with vitals := s.vitals.filter (fun v => v.user_id == u) } u q := by
  unfold getTrends selectTrendRows
  dsimp only
  rw [filter_own_filter]

theorem getVitals_own_rows (s : Store) (u : Nat) (q : VitalQuery) :
    getVitals s u q =
      getVitals { s with vitals := s.vitals.filter (fun v => v.user_id == u) } u q := by
  unfold getVitals selectVitals
  dsimp only
  rw [filter_own_filter]

theorem not_ownsVital_of_foreign (s : Store) (hwf : s.WF) (u : Nat) (V : Vital)
    (hV : V ∈ s.vitals) (hne : V.user_id ≠ u) : ¬ OwnsVital s u V.id := by
  rintro ⟨v, hv, hid, hu⟩
  have := eq_of_key_eq (fun x : Vital => x.id) s.vitals hwf.vitals_id hv hV hid
  exact hne (this ▸ hu)

/-- C15: let `V` be a vitals row that the caller `u` does not own.  The vitals
list never contains `V`, and the list and the trend answer are the ones
computed from the caller's own rows alone; update and delete of `V` answer
NotFound and leave the store unchanged; among all requests the only one whose
response carries `V` is the detail view of a report `R` that `u` can read
(owner or grantee) with `V.report_id = R`, so a row without `report_id` is
carried by no response to `u`. -/
theorem foreign_vitals_not_disclosed (s : Store) (hwf : s.WF) (u : Nat) (V : Vital)
    (hV : V ∈ s.vitals) (hne : V.user_id ≠ u) :
    (∀ q, V ∉ (getVitals s u q).body.vitalRows) ∧
    (∀ q, getVitals s u q =
      getVitals { s with vitals := s.vitals.filter (fun v => v.user_id == u) } u q) ∧
    (∀ q, getTrends s u q =
      getTrends { s with vitals := s.vitals.filter (fun v => v.user_id == u) } u q) ∧
    (∀ body, putVital s u V.id body =
      (s, ⟨404, .error "Vital entry not found or access denied"⟩)) ∧
    deleteVital s u V.id = (s, ⟨404, .error "Vital entry not found or access denied"⟩) ∧
    (∀ now op, V ∈ (handle s now u op).2.body.vitalRows →
      ∃ R, op = .reportDetail R ∧ CanRead s u R ∧ V.report_id = some R) ∧
    (V.report_id = none → ∀ now op, V ∉ (handle s now u op).2.body.vitalRows) := by
  have hno := not_ownsVital_of_foreign s hwf u V hV hne
  have hdetail : ∀ now op, V ∈ (handle s now u op).2.body.vitalRows →
      ∃ R, op = .reportDetail R ∧ CanRead s u R ∧ V.report_id = some R := by
    intro now op hmem
    by_cases hop : ∃ R, op = .reportDetail R
    · obtain ⟨R, rfl⟩ := hop
      exact ⟨R, rfl, getReport_vitalRows s u R V hmem⟩
    · rw [handle_vitalRows s now u op (fun R h => hop ⟨R, h⟩)] at hmem
      cases hmem
  refine ⟨fun q h => hne (getVitals_rows_owned s u q V h).2, getVitals_own_rows s u,
    getTrends_own_rows s u, fun body => putVital_denied s u V.id body hno,
    deleteVital_denied s u V.id hno, hdetail, ?_⟩
  intro hnone now op hmem
  obtain ⟨R, _, _, hR⟩ := hdetail now op hmem
  rw [hnone] at hR
  cases hR

/-- Witness of C15: the row Bob attached to Alice's report is not in Carol's
vitals list, and Carol cannot delete it. -/
theorem foreign_vitals_not_disclosed_witness :
    exForeign.WF ∧
    (⟨1, 2, some 1, .null, .null, .null, .null, .num 80, .null, .null, .null, .null,
        "2024-03-02", 200⟩ : Vital) ∈ exForeign.vitals ∧
    deleteVital exForeign 3 1 =
      (exForeign, ⟨404, .error "Vital entry not found or access denied"⟩) :=
  ⟨by decide, by decide,
   (foreign_vitals_not_disclosed exForeign (by decide) 3
      ⟨1, 2, some 1, .null, .null, .null, .null, .num 80, .null, .null, .null, .null,
        "2024-03-02", 200⟩ (by decide) (by decide)).2.2.2.2.1⟩

/-! ## The vitals list -/

theorem inDateRange_iff (q : VitalQuery) (d : String) :
    inDateRange q d = true ↔ InRange q d := by
  unfold inDateRange InRange
  rcases q with ⟨sd, ed, vt⟩
  cases sd with
  | none =>
    cases ed with
    | none => simp [truthyStr]
    | some b =>
      by_cases hb : b = ""
      · simp [truthyStr, hb]
      · simp [truthyStr, hb]
  | some a =>
    cases ed with
    | none =>
      by_cases ha : a = ""
      · simp [truthyStr, ha]
      · simp [truthyStr, ha]
    | some b =>
      by_cases ha : a = "" <;> by_cases hb : b = "" <;> simp [truthyStr, ha, hb]

theorem vitalTypeKeeps_table (c : String) (v : Vital) (hc : c ∈ tableCategories) :
    vitalTypeKeeps c v = true ↔ CategoryPresent c v := by
  simp only [tableCategories, List.mem_cons, List.mem_singleton, List.not_mem_nil,
    or_false] at hc
  rcases hc with rfl | rfl | rfl | rfl | rfl | rfl <;>
    simp [vitalTypeKeeps, CategoryPresent]

theorem vitalTypeKeeps_other (c : String) (v : Vital) (hc : c ∉ tableCategories) :
    vitalTypeKeeps c v = true := by
  simp only [tableCategories, List.mem_cons, List.mem_singleton, List.not_mem_nil,
    or_false, not_or] at hc
  simp [vitalTypeKeeps, hc]

theorem keeps_iff (q : VitalQuery) (v : Vital) :
    (!truthyStr q.vitalType || vitalTypeKeeps (q.vitalType.getD "") v) = true ↔ KeptBy q v := by
  unfold KeptBy
  cases hvt : q.vitalType with
  | none => simp [truthyStr]
  | some c =>
    by_cases hc : c ∈ tableCategories
    · have hne : c ≠ "" := by
        intro h
        rw [h] at hc
        simp [tableCategories] at hc
      simp only [truthyStr, hne, ne_eq, not_false_eq_true, decide_True, Bool.not_true,
        Bool.false_or, Option.getD_some, Option.some.injEq]
      rw [vitalTypeKeeps_table c v hc]
      constructor
      · intro h c' _ hcc'
        exact hcc' ▸ h
      · intro h
        exact h c hc rfl
    · rw [Option.getD_some, vitalTypeKeeps_other c v hc]
      simp only [Bool.or_true, true_iff]
      intro c' hc' hcc'
      rw [Option.some.injEq] at hcc'
      exact absurd (hcc' ▸ hc') hc

theorem getVitals_eq (s : Store) (u : Nat) (q : VitalQuery) :
    getVitals s u q = ⟨200, .vitals ((selectVitals s u q).filter
      (fun v => !truthyStr q.vitalType || vitalTypeKeeps (q.vitalType.getD "") v))⟩ := by
  unfold getVitals
  dsimp only
  cases h : truthyStr q.vitalType
  · simp
  · simp

/-- C16: the vitals list answers with rows that are ordered by date ascending
and, on equal dates, by creation time ascending, and that are exactly the rows
of the caller whose date is not before the start and not after the end (each
bound applying only when given) and, when the query names one of the six
categories of the table, whose field of that category is non-null
(blood_sugar: fasting or postprandial): every such row of `vitals` is in the
answer as often as in the table, and the answer holds nothing else.  For
heart_rate a row with a null heart rate is therefore left out whatever its
other fields hold. -/
theorem listVitals_rows (s : Store) (u : Nat) (q : VitalQuery) :
    ∃ rows, getVitals s u q = ⟨200, .vitals rows⟩ ∧
      List.Sorted (fun a b : Vital =>
        textLt a.date b.date ∨ (a.date = b.date ∧ a.created_at ≤ b.created_at)) rows ∧
      (∀ v ∈ rows, v ∈ s.vitals ∧ v.user_id = u ∧ InRange q v.date ∧ KeptBy q v) ∧
      (∀ v, v.user_id = u → InRange q v.date → KeptBy q v →
        rows.count v = s.vitals.count v) ∧
      (q.vitalType = some "heart_rate" → ∀ v ∈ rows, v.heart_rate ≠ .null) := by
  refine ⟨_, getVitals_eq s u q, ?_, ?_, ?_, ?_⟩
  · exact (selectVitals_sorted s u q).filter _
  · intro v hv
    rw [List.mem_filter, keeps_iff] at hv
    have hsel := (selectVitals_perm s u q).mem_iff.1 hv.1
    rw [List.mem_filter] at hsel
    simp only [Bool.and_eq_true, beq_iff_eq] at hsel
    exact ⟨hsel.1, hsel.2.1, (inDateRange_iff q v.date).1 hsel.2.2, hv.2⟩
  · intro v hu hr hk
    have hK : (fun v => !truthyStr q.vitalType || vitalTypeKeeps (q.vitalType.getD "") v) v
        = true := (keeps_iff q v).2 hk
    have hP : (fun v : Vital => v.user_id == u && inDateRange q v.date) v = true := by
      simp only [Bool.and_eq_true, beq_iff_eq]
      exact ⟨hu, (inDateRange_iff q v.date).2 hr⟩
    have h1 := @List.count_filter _ _ _
      (fun v => !truthyStr q.vitalType || vitalTypeKeeps (q.vitalType.getD "") v) v
      (selectVitals s u q) hK
    have h2 := @List.count_filter _ _ _
      (fun v : Vital => v.user_id == u && inDateRange q v.date) v s.vitals hP
    rw [h1, (selectVitals_perm s u q).count_eq, h2]
  · intro hq v hv
    rw [List.mem_filter, keeps_iff] at hv
    have := hv.2 "heart_rate" (by simp [tableCategories]) hq
    simpa [CategoryPresent] using this

/-- Witness of C16: Alice's only row has a weight and no heart rate; her
heart_rate list is empty.  On the store where she entered the reading of
5 February before the readings of 10 January, her list of the rows up to
31 January is the two January rows, the earlier created first; her
heart_rate list leaves out the row that has only a weight. -/
theorem listVitals_rows_witness :
    exZeroWeight.vitals.map (fun v => (v.user_id, v.weight, v.heart_rate)) =
      [(1, .num 0, .null)] ∧
    getVitals exZeroWeight 1 ⟨none, none, some "heart_rate"⟩ = ⟨200, .vitals []⟩ ∧
    exThreeDates.vitals.map (fun v => (v.id, v.user_id, v.date, v.created_at)) =
      [(1, 1, "2024-02-05", 100), (2, 1, "2024-01-10", 101), (3, 1, "2024-01-10", 102),
       (4, 2, "2024-01-01", 103)] ∧
    (getVitals exThreeDates 1 ⟨none, none, none⟩).body.vitalRows.map (·.id) = [2, 3, 1] ∧
    (getVitals exThreeDates 1 ⟨some "2024-01-10", some "2024-01-31", none⟩).body.vitalRows.map
      (·.id) = [2, 3] ∧
    (getVitals exThreeDates 1 ⟨none, none, some "heart_rate"⟩).body.vitalRows.map (·.id) =
      [2, 1] := by
  refine ⟨by decide, ?_, by decide, by decide, by decide, by decide⟩
  obtain ⟨rows, hrows, _, hmem, _, hhr⟩ :=
    listVitals_rows exZeroWeight 1 ⟨none, none, some "heart_rate"⟩
  have hnil : rows = [] := by
    rw [List.eq_nil_iff_forall_not_mem]
    intro v hv
    have h1 := (hmem v hv).1
    have h2 := hhr rfl v hv
    have h3 : ∀ w ∈ exZeroWeight.vitals, w.heart_rate = .null := by decide
    exact h2 (h3 v h1)
  rw [hrows, hnil]

/-! ## Trend points -/

theorem formatPoint_blood_pressure (v : Vital) :
    formatPoint (some "blood_pressure") (trendColumns (some "blood_pressure") v) =
      ⟨v.date, some v.blood_pressure_systolic, some v.blood_pressure_diastolic,
        none, none, none, none, none, none⟩ := by
  simp [formatPoint, trendColumns, TrendRow.dateOnly]

theorem formatPoint_blood_sugar (v : Vital) :
    formatPoint (some "blood_sugar") (trendColumns (some "blood_sugar") v) =
      ⟨v.date, none, none, some v.blood_sugar_fasting, some v.blood_sugar_postprandial,
        none, none, none, none⟩ := by
  simp [formatPoint, trendColumns, TrendRow.dateOnly]

theorem formatPoint_heart_rate (v : Vital) :
    formatPoint (some "heart_rate") (trendColumns (some "heart_rate") v) =
      ⟨v.date, none, none, none, none,
        if v.heart_rate.truthy then some v.heart_rate else none, none, none, none⟩ := by
  simp [formatPoint, trendColumns, TrendRow.dateOnly, JsVal.keyIfTruthy, JsVal.truthy]

theorem formatPoint_cholesterol (v : Vital) :
    formatPoint (some "cholesterol") (trendColumns (some "cholesterol") v) =
      ⟨v.date, none, none, none, none, none,
        if v.cholesterol.truthy then some v.cholesterol else none, none, none⟩ := by
  simp [formatPoint, trendColumns, TrendRow.dateOnly, JsVal.keyIfTruthy, JsVal.truthy]

theorem formatPoint_weight (v : Vital) :
    formatPoint (some "weight") (trendColumns (some "weight") v) =
      ⟨v.date, none, none, none, none, none, none,
        if v.weight.truthy then some v.weight else none, none⟩ := by
  simp [formatPoint, trendColumns, TrendRow.dateOnly, JsVal.keyIfTruthy, JsVal.truthy]

theorem formatPoint_temperature (v : Vital) :
    formatPoint (some "temperature") (trendColumns (some "temperature") v) =
      ⟨v.date, none, none, none, none, none, none, none,
        if v.temperature.truthy then some v.temperature else none⟩ := by
  simp [formatPoint, trendColumns, TrendRow.dateOnly, JsVal.keyIfTruthy, JsVal.truthy]

theorem formatPoint_all (vt : Option String) (hvt : vt = none ∨ vt = some "all") (v : Vital) :
    formatPoint vt (trendColumns vt v) =
      ⟨v.date,
        if v.blood_pressure_systolic.truthy then some v.blood_pressure_systolic else none,
        if v.blood_pressure_diastolic.truthy then some v.blood_pressure_diastolic else none,
        if v.blood_sugar_fasting.truthy then some v.blood_sugar_fasting else none,
        none,
        if v.heart_rate.truthy then some v.heart_rate else none,
        if v.cholesterol.truthy then some v.cholesterol else none,
        if v.weight.truthy then some v.weight else none,
        if v.temperature.truthy then some v.temperature else none⟩ := by
  rcases hvt with rfl | rfl <;>
    simp [formatPoint, trendColumns, TrendRow.dateOnly, JsVal.keyIfTruthy, JsVal.truthy]

/-- C17 as stated fails: for the rows {2024-01-01, fasting 95} and
{2024-01-02, postprandial 140} the blood_sugar trend is
[{date, fasting 95, postprandial null}, {date, fasting null, postprandial 140}]:
the key of the absent field is present, with the value null. -/
theorem blood_sugar_trend_has_null_keys :
    exSugar.vitals.map (fun v => (v.date, v.blood_sugar_fasting, v.blood_sugar_postprandial)) =
      [("2024-01-01", .num 95, .null), ("2024-01-02", .null, .num 140)] ∧
    getTrends exSugar 1 ⟨none, none, some "blood_sugar"⟩ = ⟨200, .trends
      [⟨"2024-01-01", none, none, some (.num 95), some .null, none, none, none, none⟩,
       ⟨"2024-01-02", none, none, some .null, some (.num 140), none, none, none, none⟩]⟩ ∧
    getTrends exSugar 1 ⟨none, none, some "blood_sugar"⟩ ≠ ⟨200, .trends
      [⟨"2024-01-01", none, none, some (.num 95), none, none, none, none, none⟩,
       ⟨"2024-01-02", none, none, none, some (.num 140), none, none, none, none⟩]⟩ := by
  decide

/-- C17 (amended): the blood_sugar trend point built from a row holds the
row's date and both keys `fasting` and `postprandial`, each with the stored
value of its column, which is null when the field is absent; it holds no
other key, and no zero is put in for an absent field. -/
theorem blood_sugar_point_has_both_keys (s : Store) (u : Nat) (a b : Option String) :
    getTrends s u ⟨a, b, some "blood_sugar"⟩ = ⟨200, .trends
      ((selectTrendRows s u ⟨a, b, some "blood_sugar"⟩).map (fun v =>
        ⟨v.date, none, none, some v.blood_sugar_fasting, some v.blood_sugar_postprandial,
          none, none, none, none⟩))⟩ := by
  unfold getTrends
  simp only [formatPoint_blood_sugar]

/-- Witness of C17 (amended): the second point of Alice's blood_sugar trend
carries `fasting` with the value null. -/
theorem blood_sugar_point_has_both_keys_witness :
    getTrends exSugar 1 ⟨none, none, some "blood_sugar"⟩ = ⟨200, .trends
      [⟨"2024-01-01", none, none, some (.num 95), some .null, none, none, none, none⟩,
       ⟨"2024-01-02", none, none, some .null, some (.num 140), none, none, none, none⟩]⟩ := by
  rw [blood_sugar_point_has_both_keys exSugar 1 none none]
  decide

/-! ## Trend rows -/

theorem mem_selectTrendRows (s : Store) (u : Nat) (q : VitalQuery) (v : Vital) :
    v ∈ selectTrendRows s u q ↔ v ∈ s.vitals ∧ v.user_id = u ∧ InRange q v.date := by
  rw [(selectTrendRows_perm s u q).mem_iff, List.mem_filter]
  simp only [Bool.and_eq_true, beq_iff_eq, inDateRange_iff]

/-- C18 as stated fails: Alice's only row has a weight and a null heart rate;
for the category heart_rate the vitals list returns no row, the trend returns
one point (the date alone). -/
theorem trend_has_point_where_list_has_none :
    exZeroWeight.vitals.map (fun v => (v.user_id, v.date, v.heart_rate)) =
      [(1, "2024-01-01", .null)] ∧
    getVitals exZeroWeight 1 ⟨none, none, some "heart_rate"⟩ = ⟨200, .vitals []⟩ ∧
    getTrends exZeroWeight 1 ⟨none, none, some "heart_rate"⟩ = ⟨200, .trends
      [⟨"2024-01-01", none, none, none, none, none, none, none, none⟩]⟩ := by
  decide

/-- C18 (amended): the trend applies the date-range filter of the vitals list
and no category filter.  It answers with exactly one point per row of the
caller whose date lies in the range, whatever the category, ordered by date
ascending, rows of the same day kept apart.  The point holds the row's date
and, for blood_pressure, the keys systolic and diastolic, for blood_sugar the
keys fasting and postprandial, each with the stored value (null when the
field is absent); for heart_rate, cholesterol, weight and temperature it
holds the key of that name when the stored value is truthy (not null, not 0)
and no measurement key otherwise. -/
theorem trend_one_point_per_row_in_range (s : Store) (u : Nat) (q : VitalQuery) :
    ∃ rows : List Vital, getTrends s u q = ⟨200, .trends
        (rows.map (fun v => formatPoint q.vitalType (trendColumns q.vitalType v)))⟩ ∧
      rows.Perm (s.vitals.filter (fun v => v.user_id == u && inDateRange q v.date)) ∧
      (∀ v, v ∈ rows ↔ v ∈ s.vitals ∧ v.user_id = u ∧ InRange q v.date) ∧
      List.Sorted (fun a b : Vital => ¬ textLt b.date a.date) rows ∧
      (∀ v : Vital,
        formatPoint (some "blood_pressure") (trendColumns (some "blood_pressure") v) =
          ⟨v.date, some v.blood_pressure_systolic, some v.blood_pressure_diastolic,
            none, none, none, none, none, none⟩ ∧
        formatPoint (some "blood_sugar") (trendColumns (some "blood_sugar") v) =
          ⟨v.date, none, none, some v.blood_sugar_fasting, some v.blood_sugar_postprandial,
            none, none, none, none⟩ ∧
        formatPoint (some "heart_rate") (trendColumns (some "heart_rate") v) =
          ⟨v.date, none, none, none, none,
            if v.heart_rate.truthy then some v.heart_rate else none, none, none, none⟩ ∧
        formatPoint (some "cholesterol") (trendColumns (some "cholesterol") v) =
          ⟨v.date, none, none, none, none, none,
            if v.cholesterol.truthy then some v.cholesterol else none, none, none⟩ ∧
        formatPoint (some "weight") (trendColumns (some "weight") v) =
          ⟨v.date, none, none, none, none, none, none,
            if v.weight.truthy then some v.weight else none, none⟩ ∧
        formatPoint (some "temperature") (trendColumns (some "temperature") v) =
          ⟨v.date, none, none, none, none, none, none, none,
            if v.temperature.truthy then some v.temperature else none⟩) :=
  ⟨selectTrendRows s u q, rfl, selectTrendRows_perm s u q, mem_selectTrendRows s u q,
   selectTrendRows_sorted s u q,
   fun v => ⟨formatPoint_blood_pressure v, formatPoint_blood_sugar v, formatPoint_heart_rate v,
     formatPoint_cholesterol v, formatPoint_weight v, formatPoint_temperature v⟩⟩

/-- Witness of C18 (amended): Alice has one row, without heart rate; her
heart_rate trend has one point, the date alone. -/
theorem trend_one_point_per_row_in_range_witness :
    getTrends exZeroWeight 1 ⟨none, none, some "heart_rate"⟩ = ⟨200, .trends
      [⟨"2024-01-01", none, none, none, none, none, none, none, none⟩]⟩ := by
  obtain ⟨rows, h, hperm, _⟩ :=
    trend_one_point_per_row_in_range exZeroWeight 1 ⟨none, none, some "heart_rate"⟩
  have hf : exZeroWeight.vitals.filter
      (fun v => v.user_id == 1 && inDateRange ⟨none, none, some "heart_rate"⟩ v.date) =
      [⟨1, 1, none, .null, .null, .null, .null, .null, .null, .num 0, .null, .null,
        "2024-01-01", 100⟩] := by decide
  rw [hf] at hperm
  rw [h, List.perm_singleton.1 hperm]
  decide

/-! ## The trend of all categories -/

/-- The default column list of the trends query leaves
`blood_sugar_postprandial` out, so for the category `all` (or none) the key
`postprandial` is never assigned, whatever the row holds. -/
theorem trend_all_postprandial_not_selected (vt : Option String)
    (hvt : vt = none ∨ vt = some "all") (v : Vital) :
    (formatPoint vt (trendColumns vt v)).postprandial = none := by
  rw [formatPoint_all vt hvt v]

/-- C19 as stated fails: Alice's row holds the weight 0, which is not null,
and the point of the category `all` has no `weight` key. -/
theorem trend_all_omits_zero_weight :
    exZeroWeight.vitals.map (fun v => (v.date, v.weight)) = [("2024-01-01", .num 0)] ∧
    JsVal.num 0 ≠ JsVal.null ∧
    getTrends exZeroWeight 1 ⟨none, none, some "all"⟩ = ⟨200, .trends
      [⟨"2024-01-01", none, none, none, none, none, none, none, none⟩]⟩ := by
  decide

/-- C19 (amended): for the category `all` or no category, the trend has one
point per selected row, in order, and the point of a row holds the row's date
and, for each of systolic, diastolic, fasting, heartRate, cholesterol, weight
and temperature, the key of that name with the stored value when that value
is truthy (not null, not 0, not empty), and no key for that field otherwise. -/
theorem trend_all_point (s : Store) (u : Nat) (q : VitalQuery)
    (hvt : q.vitalType = none ∨ q.vitalType = some "all") :
    ∃ points, getTrends s u q = ⟨200, .trends points⟩ ∧
      List.Forall₂ (fun (v : Vital) (p : TrendPoint) =>
        p.date = v.date ∧
        p.systolic =
          (if v.blood_pressure_systolic.truthy then some v.blood_pressure_systolic else none) ∧
        p.diastolic =
          (if v.blood_pressure_diastolic.truthy then some v.blood_pressure_diastolic else none) ∧
        p.fasting =
          (if v.blood_sugar_fasting.truthy then some v.blood_sugar_fasting else none) ∧
        p.heartRate = (if v.heart_rate.truthy then some v.heart_rate else none) ∧
        p.cholesterol = (if v.cholesterol.truthy then some v.cholesterol else none) ∧
        p.weight = (if v.weight.truthy then some v.weight else none) ∧
        p.temperature = (if v.temperature.truthy then some v.temperature else none))
        (selectTrendRows s u q) points := by
  refine ⟨_, rfl, ?_⟩
  rw [List.forall₂_map_right_iff, List.forall₂_same]
  intro v _
  rw [formatPoint_all q.vitalType hvt v]
  exact ⟨rfl, rfl, rfl, rfl, rfl, rfl, rfl, rfl⟩

/-- Witness of C19 (amended): with no category Alice's trend is not empty:
she has two rows, so it has two points. -/
theorem trend_all_point_witness :
    (⟨none, none, none⟩ : VitalQuery).vitalType = none ∧
    getTrends exSugar 1 ⟨none, none, none⟩ ≠ ⟨200, .trends []⟩ := by
  obtain ⟨points, h, hall⟩ := trend_all_point exSugar 1 ⟨none, none, none⟩ (Or.inl rfl)
  refine ⟨rfl, ?_⟩
  rw [h]
  intro hnil
  have hp : points = [] := by simpa using hnil
  have hlen := hall.length_eq
  rw [hp] at hlen
  have h2 : (selectTrendRows exSugar 1 ⟨none, none, none⟩).length = 2 := by decide
  rw [h2] at hlen
  cases hlen

/-! ## Values as the columns hold them -/

theorem storedInColumn_heldAs (x : JsVal) : HeldAs x (storedInColumn x) := by
  cases x with
  | undefined => simp [HeldAs, storedInColumn]
  | null => simp [HeldAs, storedInColumn]
  | bool b => cases b <;> simp [HeldAs, storedInColumn]
  | num q => simp [HeldAs, storedInColumn]
  | str t =>
    cases h : sqlNumber t.data with
    | none =>
      simp only [HeldAs, storedInColumn, h]
      refine ⟨by simp, by simp, by simp, by simp, ?_, ?_⟩
      · intro t1 q ht hq
        rw [JsVal.str.injEq] at ht
        rw [← ht, h] at hq
        cases hq
      · intro t1 ht _
        exact ht
    | some q =>
      simp only [HeldAs, storedInColumn, h]
      refine ⟨by simp, by simp, by simp, by simp, ?_, ?_⟩
      · intro t1 q1 ht hq
        rw [JsVal.str.injEq] at ht
        rw [← ht, h, Option.some.injEq] at hq
        rw [hq]
      · intro t1 ht hq
        rw [JsVal.str.injEq] at ht
        rw [← ht, h] at hq
        cases hq

theorem storedInColumn_held (x : JsVal) : Held (storedInColumn x) := by
  cases x with
  | undefined => simp [Held, storedInColumn]
  | null => simp [Held, storedInColumn]
  | bool b => simp [Held, storedInColumn]
  | num q => simp [Held, storedInColumn]
  | str t =>
    cases h : sqlNumber t.data with
    | none => simp [Held, storedInColumn, h]
    | some q => simp [Held, storedInColumn, h]

theorem storedInColumn_of_held (x : JsVal) (h : Held x) : storedInColumn x = x := by
  cases x with
  | undefined => exact absurd h (by simp [Held])
  | null => rfl
  | bool b => exact absurd h (by simp [Held])
  | num q => rfl
  | str t =>
    have ht : sqlNumber t.data = none := h
    simp [storedInColumn, ht]

theorem mkVital_held (id u : Nat) (rid : Option Nat) (f : VitalFields) (d : String)
    (now : Nat) : (mkVital id u rid f d now).Held :=
  ⟨storedInColumn_held _, storedInColumn_held _, storedInColumn_held _, storedInColumn_held _,
   storedInColumn_held _, storedInColumn_held _, storedInColumn_held _, storedInColumn_held _,
   storedInColumn_held _⟩

theorem updatedVital_held (v : Vital) (body : VitalBody) : (updatedVital v body).Held :=
  ⟨storedInColumn_held _, storedInColumn_held _, storedInColumn_held _, storedInColumn_held _,
   storedInColumn_held _, storedInColumn_held _, storedInColumn_held _, storedInColumn_held _,
   storedInColumn_held _⟩

/-! ## Every reachable row holds column values -/

theorem insertVitals_held (s : Store) (now u R : Nat) (f : VitalFields) (d : String)
    (h : ∀ v ∈ s.vitals, v.Held) : ∀ v ∈ (insertVitals s now u R f d).vitals, v.Held := by
  unfold insertVitals
  split
  · intro v hv
    rw [List.mem_append, List.mem_singleton] at hv
    rcases hv with hv | hv
    · exact h v hv
    · rw [hv]
      exact mkVital_held _ _ _ _ _ _
  · exact h

theorem postUpload_held (s : Store) (now u : Nat) (file : Option UploadedFile)
    (body : UploadBody) (insertFails : Bool) (h : ∀ v ∈ s.vitals, v.Held) :
    ∀ v ∈ (postUpload s now u file body insertFails).1.vitals, v.Held := by
  unfold postUpload
  split
  · exact h
  · dsimp only
    split
    · exact h
    · split
      · exact h
      · split
        · exact insertVitals_held _ now u _ _ _ h
        · exact h

theorem deleteReportRow_held (s : Store) (id : Nat) (h : ∀ v ∈ s.vitals, v.Held) :
    ∀ v ∈ (deleteReportRow s id).vitals, v.Held := by
  unfold deleteReportRow
  split
  · intro v hv
    rw [List.mem_map] at hv
    obtain ⟨w, hw, rfl⟩ := hv
    split
    · exact h w hw
    · exact h w hw
  · exact h

theorem deleteReport_held (s : Store) (u id : Nat) (h : ∀ v ∈ s.vitals, v.Held) :
    ∀ v ∈ (deleteReport s u id).1.vitals, v.Held := by
  unfold deleteReport
  split
  · exact h
  · exact deleteReportRow_held _ id h

theorem postShare_vitals (s : Store) (now u R : Nat) (body : ShareBody) :
    (postShare s now u R body).1.vitals = s.vitals := by
  unfold postShare
  dsimp only
  repeat' split
  all_goals rfl

theorem deleteShare_vitals (s : Store) (u G : Nat) :
    (deleteShare s u G).1.vitals = s.vitals := by
  unfold deleteShare
  split <;> rfl

theorem postVital_held (s : Store) (now u : Nat) (body : VitalBody)
    (h : ∀ v ∈ s.vitals, v.Held) : ∀ v ∈ (postVital s now u body).1.vitals, v.Held := by
  unfold postVital
  split
  · exact h
  · split
    · intro v hv
      rw [List.mem_append, List.mem_singleton] at hv
      rcases hv with hv | hv
      · exact h v hv
      · rw [hv]
        exact mkVital_held _ _ _ _ _ _
    · exact h

theorem putVital_held (s : Store) (u id : Nat) (body : VitalBody)
    (h : ∀ v ∈ s.vitals, v.Held) : ∀ v ∈ (putVital s u id body).1.vitals, v.Held := by
  unfold putVital
  split
  · exact h
  · rename_i vital _
    intro v hv
    rw [List.mem_map] at hv
    obtain ⟨w, hw, rfl⟩ := hv
    split
    · exact updatedVital_held vital body
    · exact h w hw

theorem deleteVital_held (s : Store) (u id : Nat) (h : ∀ v ∈ s.vitals, v.Held) :
    ∀ v ∈ (deleteVital s u id).1.vitals, v.Held := by
  unfold deleteVital
  split
  · exact h
  · intro v hv
    exact h v (List.mem_of_mem_filter hv)

theorem handle_held (s : Store) (now u : Nat) (op : Op) (h : ∀ v ∈ s.vitals, v.Held) :
    ∀ v ∈ (handle s now u op).1.vitals, v.Held := by
  cases op with
  | upload file body insertFails => exact postUpload_held s now u file body insertFails h
  | reportDetail id => exact h
  | reportDownload id => exact h
  | reportDelete id => exact deleteReport_held s u id h
  | sharedReports => exact h
  | share R body =>
    intro v hv
    exact h v (postShare_vitals s now u R body ▸ hv)
  | listShares R => exact h
  | revoke G =>
    intro v hv
    exact h v (deleteShare_vitals s u G ▸ hv)
  | vitalCreate body => exact postVital_held s now u body h
  | vitalUpdate id body => exact putVital_held s u id body h
  | vitalDelete id => exact deleteVital_held s u id h

theorem run_held (s : Store) (reqs : List Request) (h : ∀ v ∈ s.vitals, v.Held) :
    ∀ v ∈ (run s reqs).vitals, v.Held := by
  induction reqs generalizing s with
  | nil => exact h
  | cons q qs ih => exact ih _ (handle_held s q.now q.userId q.op h)

theorem reachable_rows_held (fk : Bool) (users : List User) (reqs : List Request) :
    ∀ v ∈ (run (Store.init fk users) reqs).vitals, v.Held :=
  run_held _ reqs (by intro v hv; simp [Store.init] at hv)

/-! ## Updating a vitals row -/

theorem find?_of_unique_key {α β : Type} (f : α → β) (p : α → Bool) (l : List α)
    (h : (l.map f).Nodup) (x : α) (hx : x ∈ l) (hp : p x = true)
    (hkey : ∀ y ∈ l, p y = true → f y = f x) : l.find? p = some x := by
  cases hf : l.find? p with
  | none => exact absurd hp (List.find?_eq_none.1 hf x hx)
  | some y =>
    have hy := List.mem_of_find?_eq_some hf
    rw [eq_of_key_eq f l h hy hx (hkey y hy (List.find?_some hf))]

theorem putVital_owned (s : Store) (hwf : s.WF) (u : Nat) (v : Vital)
    (hv : v ∈ s.vitals) (hu : v.user_id = u) (body : VitalBody) :
    putVital s u v.id body =
      ({ s with vitals := s.vitals.map (fun w => if w = v then updatedVital v body else w) },
       ⟨200, .message "Vitals updated successfully"⟩) := by
  have hfind : s.vitals.find? (fun w => w.id == v.id && w.user_id == u) = some v := by
    apply find?_of_unique_key (fun x : Vital => x.id) _ s.vitals hwf.vitals_id v hv
    · simp [hu]
    · intro y _ hy
      simp only [Bool.and_eq_true, beq_iff_eq] at hy
      exact hy.1
  have hmap : ∀ w ∈ s.vitals,
      (if w.id = v.id ∧ w.user_id = u then
        { w with
          blood_pressure_systolic := (updatedVital v body).blood_pressure_systolic,
          blood_pressure_diastolic := (updatedVital v body).blood_pressure_diastolic,
          blood_sugar_fasting := (updatedVital v body).blood_sugar_fasting,
          blood_sugar_postprandial := (updatedVital v body).blood_sugar_postprandial,
          heart_rate := (updatedVital v body).heart_rate,
          temperature := (updatedVital v body).temperature,
          weight := (updatedVital v body).weight,
          height := (updatedVital v body).height,
          cholesterol := (updatedVital v body).cholesterol,
          date := (updatedVital v body).date }
      else w) = (if w = v then updatedVital v body else w) := by
    intro w hw
    by_cases hwv : w = v
    · subst hwv
      rw [if_pos ⟨rfl, hu⟩, if_pos rfl]
      rfl
    · have hc : ¬ (w.id = v.id ∧ w.user_id = u) := fun h =>
        hwv (eq_of_key_eq (fun x : Vital => x.id) s.vitals hwf.vitals_id hw hv h.1)
      rw [if_neg hc, if_neg hwv]
  simp only [putVital, hfind]
  rw [List.map_congr_left hmap]

theorem orKeep_written (x old : JsVal) (h : Held old) :
    FieldWritten x old (storedInColumn (x.orKeep old)) := by
  unfold FieldWritten JsVal.orKeep
  by_cases hx : x = .undefined
  · simp [hx, storedInColumn_of_held old h]
  · simp only [hx, if_false, not_false_eq_true, true_implies, false_implies, and_true, ne_eq]
    exact storedInColumn_heldAs x

/-- C20 as stated fails: Alice updates her row with the heart rate `true` and
the weight "70.5" (a text, as the forms of the client send it).  The row then
holds the number 1 as heart rate and the number 70.5 as weight, not the
supplied values: the columns are declared INTEGER and REAL. -/
theorem update_with_true_stores_one :
    exTwoFields.vitals.map (fun v => (v.id, v.user_id, v.heart_rate, v.weight)) =
      [(1, 1, .num 72, .num 70)] ∧
    (putVital exTwoFields 1 1
      ⟨none, { noFields with heartRate := .bool true, weight := .str "70.5" }, none⟩).2.status
      = 200 ∧
    (putVital exTwoFields 1 1
      ⟨none, { noFields with heartRate := .bool true, weight := .str "70.5" }, none⟩).1.vitals.map
      (fun v => (v.heart_rate, v.weight)) = [(.num 1, .num (mkRat 141 2))] ∧
    ¬ FieldReplaced (.bool true) (.num 72) (.num 1) ∧
    ¬ FieldReplaced (.str "70.5") (.num 70) (.num (mkRat 141 2)) := by
  decide

/-- C20 (amended): an update of a vitals row by its owner, the row holding
values its columns can hold (as every row the handlers have written does),
replaces the row by a row with the same id, owner, report link and creation
time.  Every
measurement whose key is present in the request is replaced by the supplied
value as its column holds it: `null` clears the field, a number is stored as
it is, `true` and `false` are stored as 1 and 0, a text that is a numeric
literal is stored as that number, any other text as it is.  Every measurement
whose key is absent keeps its prior value.  The date is the supplied date
when a non-empty date is supplied and the prior date otherwise.  Every other
row and every other table is unchanged and the answer is "Vitals updated
successfully". -/
theorem updateVital_writes_present_fields (s : Store) (hwf : s.WF) (u : Nat) (v : Vital)
    (hv : v ∈ s.vitals) (hu : v.user_id = u) (hheld : v.Held) (body : VitalBody) :
    ∃ v', putVital s u v.id body =
        ({ s with vitals := s.vitals.map (fun w => if w = v then v' else w) },
         ⟨200, .message "Vitals updated successfully"⟩) ∧
      v'.id = v.id ∧ v'.user_id = v.user_id ∧ v'.report_id = v.report_id ∧
      v'.created_at = v.created_at ∧
      FieldWritten body.fields.bloodPressureSystolic v.blood_pressure_systolic
        v'.blood_pressure_systolic ∧
      FieldWritten body.fields.bloodPressureDiastolic v.blood_pressure_diastolic
        v'.blood_pressure_diastolic ∧
      FieldWritten body.fields.bloodSugarFasting v.blood_sugar_fasting
        v'.blood_sugar_fasting ∧
      FieldWritten body.fields.bloodSugarPostprandial v.blood_sugar_postprandial
        v'.blood_sugar_postprandial ∧
      FieldWritten body.fields.heartRate v.heart_rate v'.heart_rate ∧
      FieldWritten body.fields.temperature v.temperature v'.temperature ∧
      FieldWritten body.fields.weight v.weight v'.weight ∧
      FieldWritten body.fields.height v.height v'.height ∧
      FieldWritten body.fields.cholesterol v.cholesterol v'.cholesterol ∧
      (∀ d, body.date = some d → d ≠ "" → v'.date = d) ∧
      (body.date = none ∨ body.date = some "" → v'.date = v.date) := by
  obtain ⟨h1, h2, h3, h4, h5, h6, h7, h8, h9⟩ := hheld
  refine ⟨updatedVital v body, putVital_owned s hwf u v hv hu body, rfl, rfl, rfl, rfl,
    orKeep_written _ _ h1, orKeep_written _ _ h2, orKeep_written _ _ h3, orKeep_written _ _ h4,
    orKeep_written _ _ h5, orKeep_written _ _ h6, orKeep_written _ _ h7, orKeep_written _ _ h8,
    orKeep_written _ _ h9, ?_, ?_⟩
  · intro d hd hne
    simp [updatedVital, hd, truthyStr, hne]
  · intro hd
    rcases hd with hd | hd <;> simp [updatedVital, hd, truthyStr]

/-- Witness of C20 (amended): Alice sends the heart rate "75" as a text and
clears nothing else; the row holds the number 75, the weight and the date
stay. -/
theorem updateVital_writes_present_fields_witness :
    exTwoFields.WF ∧
    exTwoFields.vitals.map (fun v => (v.weight, v.heart_rate, v.date)) =
      [(.num 70, .num 72, "2024-01-01")] ∧
    (putVital exTwoFields 1 1 ⟨none, { noFields with heartRate := .str "75" }, none⟩).1.vitals.map
      (fun v => (v.weight, v.heart_rate, v.date)) = [(.num 70, .num 75, "2024-01-01")] := by
  refine ⟨by decide, by decide, ?_⟩
  obtain ⟨v', h, _, _, _, _, _, _, _, _, hhr, _, hw, _, _, _, hd⟩ :=
    updateVital_writes_present_fields exTwoFields (by decide) 1
      ⟨1, 1, none, .null, .null, .null, .null, .num 72, .null, .num 70, .null, .null,
        "2024-01-01", 100⟩ (by decide) rfl (by decide)
      ⟨none, { noFields with heartRate := .str "75" }, none⟩
  rw [h]
  have hvit : exTwoFields.vitals =
      [⟨1, 1, none, .null, .null, .null, .null, .num 72, .null, .num 70, .null, .null,
        "2024-01-01", 100⟩] := by decide
  have h1 := (hhr.1 (by decide)).2.2.2.2.1 "75" 75 rfl (by decide)
  have h2 := hw.2 rfl
  have h3 := hd (Or.inl rfl)
  simp only [hvit, List.map_cons, List.map_nil, if_true, h1, h2, h3]

/-! ## Deleting a vitals row -/

theorem deleteVital_owned (s : Store) (hwf : s.WF) (u : Nat) (v : Vital)
    (hv : v ∈ s.vitals) (hu : v.user_id = u) :
    deleteVital s u v.id =
      ({ s with vitals := s.vitals.erase v },
       ⟨200, .message "Vitals deleted successfully"⟩) := by
  have hnd : s.vitals.Nodup := List.Nodup.of_map _ hwf.vitals_id
  have hfind : s.vitals.find? (fun w => w.id == v.id && w.user_id == u) = some v := by
    apply find?_of_unique_key (fun x : Vital => x.id) _ s.vitals hwf.vitals_id v hv
    · simp [hu]
    · intro y _ hy
      simp only [Bool.and_eq_true, beq_iff_eq] at hy
      exact hy.1
  have hfilter : s.vitals.filter (fun w => !(w.id == v.id && w.user_id == u)) =
      s.vitals.erase v := by
    rw [hnd.erase_eq_filter]
    apply List.filter_congr
    intro w hw
    by_cases hwv : w = v
    · subst hwv
      simp [hu]
    · have hid : w.id ≠ v.id := fun h =>
        hwv (eq_of_key_eq (fun x : Vital => x.id) s.vitals hwf.vitals_id hw hv h)
      have h1 : (w.id == v.id) = false := by simpa using hid
      have h2 : (w != v) = true := by simpa using hwv
      rw [h1, h2]
      rfl
  simp only [deleteVital, hfind, hfilter]

theorem not_ownsVital_of_absent (s : Store) (u V : Nat) (h : ∀ v ∈ s.vitals, v.id ≠ V) :
    ¬ OwnsVital s u V := by
  rintro ⟨v, hv, hid, _⟩
  exact h v hv hid

/-- C21: deleteVital by the owner of a row removes exactly that row from
`vitals` (every other row stays, in place) and touches no other table; update
and delete by a user who is not the owner of the row, or on an id of no row,
answer NotFound and leave the store unchanged. -/
theorem deleteVital_owner_only (s : Store) (hwf : s.WF) (u : Nat) :
    (∀ v ∈ s.vitals, v.user_id = u →
      deleteVital s u v.id =
        ({ s with vitals := s.vitals.erase v },
         ⟨200, .message "Vitals deleted successfully"⟩) ∧
      ∀ w, w ∈ s.vitals.erase v ↔ w ∈ s.vitals ∧ w ≠ v) ∧
    (∀ v ∈ s.vitals, v.user_id ≠ u → ∀ body,
      putVital s u v.id body =
        (s, ⟨404, .error "Vital entry not found or access denied"⟩) ∧
      deleteVital s u v.id = (s, ⟨404, .error "Vital entry not found or access denied"⟩)) ∧
    (∀ V, (∀ v ∈ s.vitals, v.id ≠ V) → ∀ body,
      putVital s u V body = (s, ⟨404, .error "Vital entry not found or access denied"⟩) ∧
      deleteVital s u V = (s, ⟨404, .error "Vital entry not found or access denied"⟩)) := by
  have hnd : s.vitals.Nodup := List.Nodup.of_map _ hwf.vitals_id
  refine ⟨fun v hv hu => ⟨deleteVital_owned s hwf u v hv hu, fun w => ?_⟩, ?_, ?_⟩
  · rw [hnd.mem_erase_iff]
    exact and_comm
  · intro v hv hne body
    have hno := not_ownsVital_of_foreign s hwf u v hv hne
    exact ⟨putVital_denied s u v.id body hno, deleteVital_denied s u v.id hno⟩
  · intro V hV body
    have hno := not_ownsVital_of_absent s u V hV
    exact ⟨putVital_denied s u V body hno, deleteVital_denied s u V hno⟩

/-- Witness of C21: Alice deletes her only row; Bob's delete of the same row
is answered NotFound. -/
theorem deleteVital_owner_only_witness :
    exTwoFields.WF ∧
    (deleteVital exTwoFields 1 1).1.vitals = [] ∧
    deleteVital exTwoFields 2 1 =
      (exTwoFields, ⟨404, .error "Vital entry not found or access denied"⟩) := by
  have h := deleteVital_owner_only exTwoFields (by decide) 1
  have h' := deleteVital_owner_only exTwoFields (by decide) 2
  refine ⟨by decide, ?_, ?_⟩
  · rw [(h.1 ⟨1, 1, none, .null, .null, .null, .null, .num 72, .null, .num 70, .null, .null,
        "2024-01-01", 100⟩ (by decide) rfl).1]
    decide
  · exact (h'.2.1 ⟨1, 1, none, .null, .null, .null, .null, .num 72, .null, .num 70, .null,
        .null, "2024-01-01", 100⟩ (by decide) (by decide) ⟨none, noFields, none⟩).2

/-! ## What recordVital stores -/

theorem orNull_undefined : JsVal.undefined.orNull = JsVal.null := rfl

theorem postVital_created (s : Store) (now u : Nat) (body : VitalBody)
    (h : (postVital s now u body).2.status = 201) :
    truthyStr body.date = true ∧ fkVitalOk s u (idOrNull body.reportId) = true := by
  cases hd : truthyStr body.date
  · rw [postVital_no_date s now u body hd] at h
    simp at h
  · cases hfk : fkVitalOk s u (idOrNull body.reportId)
    · rw [postVital_fk_violation s now u body hd hfk] at h
      simp at h
    · exact ⟨rfl, rfl⟩

/-- C22: without a date (absent or empty) recordVital answers Validation and
the store is unchanged.  When it succeeds (201), exactly one row is appended
to `vitals`; it has `user_id` = caller and the date of the request, and every
measurement whose key is absent from the request is stored as null. -/
theorem recordVital_requires_date (s : Store) (now u : Nat) (body : VitalBody) :
    ((body.date = none ∨ body.date = some "") →
      postVital s now u body = (s, ⟨400, .error "Date is required"⟩) ∧
      (postVital s now u body).2.isValidation) ∧
    ((postVital s now u body).2.status = 201 →
      ∃ v, (postVital s now u body).1.vitals = s.vitals ++ [v] ∧
        v.user_id = u ∧ body.date = some v.date ∧
        (body.fields.bloodPressureSystolic = .undefined → v.blood_pressure_systolic = .null) ∧
        (body.fields.bloodPressureDiastolic = .undefined → v.blood_pressure_diastolic = .null) ∧
        (body.fields.bloodSugarFasting = .undefined → v.blood_sugar_fasting = .null) ∧
        (body.fields.bloodSugarPostprandial = .undefined →
          v.blood_sugar_postprandial = .null) ∧
        (body.fields.heartRate = .undefined → v.heart_rate = .null) ∧
        (body.fields.temperature = .undefined → v.temperature = .null) ∧
        (body.fields.weight = .undefined → v.weight = .null) ∧
        (body.fields.height = .undefined → v.height = .null) ∧
        (body.fields.cholesterol = .undefined → v.cholesterol = .null)) := by
  constructor
  · intro hd
    have ht : truthyStr body.date = false := by
      rcases hd with hd | hd <;> simp [hd, truthyStr]
    rw [postVital_no_date s now u body ht]
    exact ⟨rfl, rfl⟩
  · intro h
    obtain ⟨hd, hfk⟩ := postVital_created s now u body h
    rw [postVital_stored s now u body hd hfk]
    refine ⟨_, rfl, rfl, ?_, ?_, ?_, ?_, ?_, ?_, ?_, ?_, ?_, ?_⟩
    · cases hdate : body.date with
      | none => simp [hdate, truthyStr] at hd
      | some d => rfl
    all_goals
      intro hx
      simp only [mkVital, hx]
      rfl

/-- Witness of C22: Alice records a heart rate with a date and nothing else;
the stored row has a null weight. -/
theorem recordVital_requires_date_witness :
    postVital exOwned 200 1 ⟨none, { noFields with heartRate := .num 72 }, none⟩ =
      (exOwned, ⟨400, .error "Date is required"⟩) ∧
    (postVital exOwned 200 1
      ⟨none, { noFields with heartRate := .num 72 }, some "2024-03-02"⟩).2.status = 201 ∧
    (postVital exOwned 200 1
      ⟨none, { noFields with heartRate := .num 72 }, some "2024-03-02"⟩).1.vitals.map
        (fun v => (v.user_id, v.date, v.weight)) = [(1, "2024-03-02", .null)] := by
  have h := recordVital_requires_date exOwned 200 1
    ⟨none, { noFields with heartRate := .num 72 }, none⟩
  have h' := recordVital_requires_date exOwned 200 1
    ⟨none, { noFields with heartRate := .num 72 }, some "2024-03-02"⟩
  refine ⟨(h.1 (Or.inl rfl)).1, by decide, ?_⟩
  obtain ⟨v, hv, hu, hd, _, _, _, _, _, _, hw, _⟩ := h'.2 (by decide)
  have hdate : v.date = "2024-03-02" := by
    have : some "2024-03-02" = some v.date := hd
    exact (Option.some.inj this).symm
  have hvit : exOwned.vitals = [] := by decide
  rw [hv, hvit, List.nil_append, List.map_singleton, hu, hdate, hw rfl]

/-! ## Falsy measurements -/

theorem truthy_eq_false_iff (x : JsVal) :
    x.truthy = false ↔
      (x = .undefined ∨ x = .null ∨ x = .bool false ∨ x = .num 0 ∨ x = .str "") := by
  cases x with
  | undefined => simp [JsVal.truthy]
  | null => simp [JsVal.truthy]
  | bool b => cases b <;> simp [JsVal.truthy]
  | num q => simp [JsVal.truthy]
  | str s => simp [JsVal.truthy]

theorem orNull_stored (x : JsVal) : FieldStored x (storedInColumn x.orNull) := by
  unfold FieldStored JsVal.orNull
  rw [← truthy_eq_false_iff]
  cases h : x.truthy
  · simp [storedInColumn]
  · simp only [if_true, Bool.true_eq_false, false_implies, not_false_eq_true, true_implies,
      true_and]
    exact storedInColumn_heldAs x

theorem mkVital_fieldsStored (id u : Nat) (rid : Option Nat) (f : VitalFields) (d : String)
    (now : Nat) : FieldsStored f (mkVital id u rid f d now) :=
  ⟨orNull_stored _, orNull_stored _, orNull_stored _, orNull_stored _, orNull_stored _,
   orNull_stored _, orNull_stored _, orNull_stored _, orNull_stored _⟩

/-- C30 as stated fails: a heart rate supplied as `false`, which is neither 0
nor the empty string, is not passed to the store unchanged: the stored
column is null.  Nor are the text "72" and the value `true` passed unchanged:
the columns, declared INTEGER and REAL, hold the numbers 72 and 1. -/
theorem false_measurement_stored_as_null :
    JsVal.bool false ≠ JsVal.num 0 ∧ JsVal.bool false ≠ JsVal.str "" ∧
    (postVital exOwned 200 1
      ⟨none, { noFields with heartRate := .bool false }, some "2024-03-02"⟩).2.status = 201 ∧
    (postVital exOwned 200 1
      ⟨none, { noFields with heartRate := .bool false }, some "2024-03-02"⟩).1.vitals.map
        (fun v => v.heart_rate) = [.null] ∧
    (postVital exOwned 200 1
      ⟨none, { noFields with heartRate := .str "72", weight := .bool true },
        some "2024-03-02"⟩).1.vitals.map
        (fun v => (v.heart_rate, v.weight)) = [(.num 72, .num 1)] ∧
    JsVal.num 72 ≠ JsVal.str "72" ∧ JsVal.num 1 ≠ JsVal.bool true := by
  decide

/-- C30 (amended): when a vitals row is created, by recordVital or from the
vitals payload of an upload, every measurement whose supplied value is falsy
(0, the empty string, `false`, `null`, or no value at all) is stored as null,
and every other supplied value is stored as its column holds it: a number as
it is, `true` as 1, a text that is a numeric literal as that number, any
other text as it is. -/
theorem created_row_stores_truthy_values (s : Store) (now u : Nat) :
    (∀ body : VitalBody, (postVital s now u body).2.status = 201 →
      ∃ v, (postVital s now u body).1.vitals = s.vitals ++ [v] ∧ FieldsStored body.fields v) ∧
    (∀ (R : Nat) (vd : VitalFields) (d : String),
      (insertVitals s now u R vd d).vitals = s.vitals ∨
      ∃ v, (insertVitals s now u R vd d).vitals = s.vitals ++ [v] ∧ FieldsStored vd v) ∧
    FieldStored (.num 0) .null ∧ FieldStored (.str "") .null ∧
    FieldStored .undefined .null ∧ FieldStored (.bool true) (.num 1) := by
  refine ⟨?_, ?_, orNull_stored (.num 0), orNull_stored (.str ""), orNull_stored .undefined,
    orNull_stored (.bool true)⟩
  · intro body h
    obtain ⟨hd, hfk⟩ := postVital_created s now u body h
    rw [postVital_stored s now u body hd hfk]
    exact ⟨_, rfl, mkVital_fieldsStored _ _ _ _ _ _⟩
  · intro R vd d
    unfold insertVitals
    split
    · exact Or.inr ⟨_, rfl, mkVital_fieldsStored _ _ _ _ _ _⟩
    · exact Or.inl rfl

/-- Witness of C30 (amended): a weight of 0 and an empty heart rate are stored
as null, a temperature of 37 is stored as 37 and the systolic pressure sent
as the text "120" is stored as the number 120. -/
theorem created_row_stores_truthy_values_witness :
    (postVital exOwned 200 1
      ⟨none, { noFields with weight := .num 0, heartRate := .str "", temperature := .num 37,
                             bloodPressureSystolic := .str "120" },
        some "2024-03-02"⟩).2.status = 201 ∧
    (postVital exOwned 200 1
      ⟨none, { noFields with weight := .num 0, heartRate := .str "", temperature := .num 37,
                             bloodPressureSystolic := .str "120" },
        some "2024-03-02"⟩).1.vitals.map
        (fun v => (v.weight, v.heart_rate, v.temperature, v.blood_pressure_systolic)) =
      [(.null, .null, .num 37, .num 120)] := by
  refine ⟨by decide, ?_⟩
  obtain ⟨v, hv, hsys, _, _, _, hhr, ht, hw, _⟩ :=
    (created_row_stores_truthy_values exOwned 200 1).1
      ⟨none, { noFields with weight := .num 0, heartRate := .str "", temperature := .num 37,
                             bloodPressureSystolic := .str "120" },
        some "2024-03-02"⟩ (by decide)
  have hvit : exOwned.vitals = [] := by decide
  have h1 := hw.1 (Or.inr (Or.inr (Or.inr (Or.inl rfl))))
  have h2 := hhr.1 (Or.inr (Or.inr (Or.inr (Or.inr rfl))))
  have h3 := (ht.2 (by decide)).2.2.2.1 37 rfl
  have h4 := (hsys.2 (by decide)).2.2.2.2.1 "120" 120 rfl (by decide)
  rw [hv, hvit, List.nil_append, List.map_singleton, h1, h2, h3, h4]

/-! ## Failing uploads -/

theorem blobs_filter_fresh (s : Store) (name : String) (h : name ∉ s.blobs) :
    ({ s with blobs := s.blobs.filter (fun b => !(b == name)) } : Store) = s := by
  have : s.blobs.filter (fun b => !(b == name)) = s.blobs := by
    rw [List.filter_eq_self]
    intro b hb
    have hne : b ≠ name := fun hbn => h (hbn ▸ hb)
    simpa using hne
  rw [this]

theorem postUpload_no_file (s : Store) (now u : Nat) (body : UploadBody) (insertFails : Bool) :
    postUpload s now u none body insertFails = (s, ⟨400, .error "No file uploaded"⟩) := rfl

theorem postUpload_missing_field (s : Store) (now u : Nat) (f : UploadedFile)
    (body : UploadBody) (insertFails : Bool)
    (h : truthyStr body.reportType = false ∨ truthyStr body.date = false) :
    postUpload s now u (some f) body insertFails =
      ({ s with blobs := s.blobs.filter (fun b => !(b == f.filename)) },
       ⟨400, .error "Report type and date are required"⟩) := by
  rcases h with h | h <;> simp [postUpload, h]

theorem postUpload_insert_failed (s : Store) (now u : Nat) (f : UploadedFile)
    (body : UploadBody) (insertFails : Bool)
    (hrt : truthyStr body.reportType = true) (hd : truthyStr body.date = true)
    (h : insertFails = true ∨ fkReportOk s u = false) :
    postUpload s now u (some f) body insertFails =
      ({ s with blobs := s.blobs.filter (fun b => !(b == f.filename)) },
       ⟨500, .error "Failed to save report"⟩) := by
  rcases h with h | h <;> simp [postUpload, hrt, hd, h]

theorem postUpload_status (s : Store) (now u : Nat) (f : UploadedFile)
    (body : UploadBody) (insertFails : Bool)
    (h : (postUpload s now u (some f) body insertFails).2.status ≠ 201) :
    (truthyStr body.reportType = false ∨ truthyStr body.date = false) ∨
    (truthyStr body.reportType = true ∧ truthyStr body.date = true ∧
      (insertFails = true ∨ fkReportOk s u = false)) := by
  cases hrt : truthyStr body.reportType
  · exact Or.inl (Or.inl rfl)
  · cases hd : truthyStr body.date
    · exact Or.inl (Or.inr rfl)
    · cases hi : insertFails
      · cases hfk : fkReportOk s u
        · exact Or.inr ⟨rfl, rfl, Or.inr rfl⟩
        · exfalso
          apply h
          subst hi
          simp [postUpload, hrt, hd, hfk]
      · exact Or.inr ⟨rfl, rfl, Or.inl rfl⟩

/-- C27: let the name generated for the uploaded bytes be new in the uploads
directory.  An upload that fails, because reportType or date is missing or
because the insert of the report row fails after the bytes were written,
leaves the store exactly as it was before the call: the blob is removed, no
report row and no vitals row is added.  So every upload that does not answer
201 leaves the store unchanged. -/
theorem failed_upload_leaves_no_trace (s : Store) (now u : Nat) (f : UploadedFile)
    (body : UploadBody) (insertFails : Bool) (hfresh : f.filename ∉ s.blobs) :
    ((truthyStr body.reportType = false ∨ truthyStr body.date = false) →
      postUpload s now u (some f) body insertFails =
        (s, ⟨400, .error "Report type and date are required"⟩)) ∧
    (truthyStr body.reportType = true → truthyStr body.date = true →
      (insertFails = true ∨ fkReportOk s u = false) →
      postUpload s now u (some f) body insertFails =
        (s, ⟨500, .error "Failed to save report"⟩)) ∧
    ((postUpload s now u (some f) body insertFails).2.status ≠ 201 →
      (postUpload s now u (some f) body insertFails).1 = s) ∧
    postUpload s now u none body insertFails = (s, ⟨400, .error "No file uploaded"⟩) := by
  have h1 : (truthyStr body.reportType = false ∨ truthyStr body.date = false) →
      postUpload s now u (some f) body insertFails =
        (s, ⟨400, .error "Report type and date are required"⟩) := by
    intro h
    rw [postUpload_missing_field s now u f body insertFails h,
      blobs_filter_fresh s f.filename hfresh]
  have h2 : truthyStr body.reportType = true → truthyStr body.date = true →
      (insertFails = true ∨ fkReportOk s u = false) →
      postUpload s now u (some f) body insertFails =
        (s, ⟨500, .error "Failed to save report"⟩) := by
    intro hrt hd h
    rw [postUpload_insert_failed s now u f body insertFails hrt hd h,
      blobs_filter_fresh s f.filename hfresh]
  refine ⟨h1, h2, ?_, rfl⟩
  intro hst
  rcases postUpload_status s now u f body insertFails hst with h | ⟨hrt, hd, h⟩
  · rw [h1 h]
  · rw [h2 hrt hd h]

/-- Witness of C27: Bob's upload without a date, and his upload whose insert
fails, leave the store as it was. -/
theorem failed_upload_leaves_no_trace_witness :
    "1710-7.png" ∉ exOwned.blobs ∧
    postUpload exOwned 300 2 (some ⟨"1710-7.png", "scan.png", ".png"⟩)
        ⟨some "X-Ray", none, none⟩ false =
      (exOwned, ⟨400, .error "Report type and date are required"⟩) ∧
    postUpload exOwned 300 2 (some ⟨"1710-7.png", "scan.png", ".png"⟩)
        ⟨some "X-Ray", some "2024-03-05", none⟩ true =
      (exOwned, ⟨500, .error "Failed to save report"⟩) :=
  ⟨by decide,
   (failed_upload_leaves_no_trace exOwned 300 2 ⟨"1710-7.png", "scan.png", ".png"⟩
      ⟨some "X-Ray", none, none⟩ false (by decide)).1 (Or.inr (by decide)),
   (failed_upload_leaves_no_trace exOwned 300 2 ⟨"1710-7.png", "scan.png", ".png"⟩
      ⟨some "X-Ray", some "2024-03-05", none⟩ true (by decide)).2.1 (by decide) (by decide)
      (Or.inl rfl)⟩

/-! ## Download and detail -/

theorem getDownload_found (s : Store) (u R : Nat) (r : Report)
    (h : readableReport s u R = some r) :
    getDownload s u R =
      if s.blobs.contains r.filename then ⟨200, .download r.filename r.original_filename⟩
      else ⟨404, .error "File not found"⟩ := by
  unfold getDownload
  rw [h]
  dsimp only
  cases hc : s.blobs.contains r.filename
  · rfl
  · rfl

/-- C28 as stated fails: on the store where the file of Alice's report 1 is
gone from the uploads directory, detail returns the report to Alice and
download answers NotFound (404 "File not found"), so download returns NotFound
although detail does not. -/
theorem download_file_missing :
    exNoBlob.reports.map (fun r => (r.id, r.user_id, r.filename)) = [(1, 1, "1709-42.pdf")] ∧
    exNoBlob.blobs = [] ∧
    (getReport exNoBlob 1 1).status = 200 ∧
    getDownload exNoBlob 1 1 = ⟨404, .error "File not found"⟩ ∧
    ¬ ((getDownload exNoBlob 1 1).isNotFound ↔ (getReport exNoBlob 1 1).isNotFound) := by
  decide

/-- C28 (amended): download and detail run the same query, so they authorise
alike.  Download answers the NotFound "Report not found or access denied"
exactly when detail answers it; download finds a report exactly when detail
returns it, and it is the same report.  Having found the report, download
streams the file under the report's original filename when the file is in the
uploads directory and answers the NotFound "File not found" when it is not.
So download returns NotFound exactly when detail returns NotFound or the file
of the report that detail returns is missing. -/
theorem download_authorised_as_detail (s : Store) (u R : Nat) :
    (getDownload s u R = ⟨404, .error "Report not found or access denied"⟩ ↔
      getReport s u R = ⟨404, .error "Report not found or access denied"⟩) ∧
    (∀ r v, getReport s u R = ⟨200, .reportDetail r v⟩ →
      readableReport s u R = some r ∧
      (r.filename ∈ s.blobs →
        getDownload s u R = ⟨200, .download r.filename r.original_filename⟩) ∧
      (r.filename ∉ s.blobs → getDownload s u R = ⟨404, .error "File not found"⟩)) ∧
    (∀ name asName, getDownload s u R = ⟨200, .download name asName⟩ →
      ∃ r v, getReport s u R = ⟨200, .reportDetail r v⟩ ∧ name = r.filename ∧
        asName = r.original_filename) ∧
    ((getDownload s u R).isNotFound ↔
      ((getReport s u R).isNotFound ∨
        ∃ r v, getReport s u R = ⟨200, .reportDetail r v⟩ ∧ r.filename ∉ s.blobs)) := by
  cases hf : readableReport s u R with
  | none =>
    have hd : getDownload s u R = ⟨404, .error "Report not found or access denied"⟩ := by
      simp only [getDownload, hf]
    have hg : getReport s u R = ⟨404, .error "Report not found or access denied"⟩ := by
      simp only [getReport, hf]
    rw [hd, hg]
    simp [Response.isNotFound]
  | some r =>
    have hd := getDownload_found s u R r hf
    have hg : getReport s u R =
        ⟨200, .reportDetail r (s.vitals.filter (fun v => v.report_id == some R)).head?⟩ := by
      simp only [getReport, hf]
    refine ⟨?_, ?_, ?_, ?_⟩
    · rw [hd, hg]
      by_cases hb : s.blobs.contains r.filename = true
      · rw [if_pos hb]
        simp
      · rw [if_neg hb]
        simp
    · intro r' v' h
      rw [hg] at h
      simp only [Response.mk.injEq, Body.reportDetail.injEq, true_and] at h
      rw [← h.1]
      refine ⟨rfl, ?_, ?_⟩
      · intro hb
        rw [hd, if_pos (by simpa using hb)]
      · intro hb
        rw [hd, if_neg (by simpa using hb)]
    · intro name asName h
      rw [hd] at h
      by_cases hb : s.blobs.contains r.filename = true
      · rw [if_pos hb] at h
        simp only [Response.mk.injEq, Body.download.injEq, true_and] at h
        exact ⟨r, _, hg, h.1.symm, h.2.symm⟩
      · rw [if_neg hb] at h
        simp at h
    · rw [hd, hg]
      by_cases hb : s.blobs.contains r.filename = true
      · have hmem : r.filename ∈ s.blobs := by simpa using hb
        rw [if_pos hb]
        constructor
        · intro h
          simp [Response.isNotFound] at h
        · rintro (h | ⟨r', v', h, hnot⟩)
          · simp [Response.isNotFound] at h
          · simp only [Response.mk.injEq, Body.reportDetail.injEq, true_and] at h
            exact absurd (h.1 ▸ hmem) hnot
      · have hmem : r.filename ∉ s.blobs := by simpa using hb
        rw [if_neg hb]
        constructor
        · intro _
          exact Or.inr ⟨r, _, rfl, hmem⟩
        · intro _
          rfl

/-- Witness of C28 (amended): Alice's file is in place and she downloads
report 1 under its original name; Bob, who has no access, gets NotFound from
download as from detail; with the file gone Alice's download is NotFound. -/
theorem download_authorised_as_detail_witness :
    "1709-42.pdf" ∈ exOwned.blobs ∧
    getDownload exOwned 1 1 = ⟨200, .download "1709-42.pdf" "blood.pdf"⟩ ∧
    getDownload exOwned 2 1 = ⟨404, .error "Report not found or access denied"⟩ ∧
    getDownload exNoBlob 1 1 = ⟨404, .error "File not found"⟩ := by
  have h := download_authorised_as_detail exOwned 1 1
  have h' := download_authorised_as_detail exOwned 2 1
  have h2 := download_authorised_as_detail exNoBlob 1 1
  refine ⟨by decide, ?_, h'.1.2 (by decide), ?_⟩
  · exact (h.2.1 ⟨1, 1, "1709-42.pdf", "blood.pdf", "pdf", "Blood Test", "2024-03-01", 100⟩
      none (by decide)).2.1 (by decide)
  · exact (h2.2.1 ⟨1, 1, "1709-42.pdf", "blood.pdf", "pdf", "Blood Test", "2024-03-01", 100⟩
      none (by decide)).2.2 (by decide)

/-! ## The listing of owned reports -/

theorem reportBefore_total (a b : Report) : reportBefore a b ∨ reportBefore b a := by
  unfold reportBefore
  rcases textLt_trichotomy a.date b.date with h | h | h
  · exact Or.inr (Or.inl h)
  · rcases Nat.le_total a.created_at b.created_at with hc | hc
    · exact Or.inr (Or.inr ⟨h.symm, hc⟩)
    · exact Or.inl (Or.inr ⟨h, hc⟩)
  · exact Or.inl (Or.inl h)

theorem reportBefore_trans {a b c : Report} (h1 : reportBefore a b) (h2 : reportBefore b c) :
    reportBefore a c := by
  unfold reportBefore at *
  rcases h1 with h1 | ⟨e1, c1⟩ <;> rcases h2 with h2 | ⟨e2, c2⟩
  · exact Or.inl (textLt_trans h2 h1)
  · exact Or.inl (e2 ▸ h1)
  · exact Or.inl (e1 ▸ h2)
  · exact Or.inr ⟨e1.trans e2, le_trans c2 c1⟩

theorem sorted_reports (l : List Report) : List.Sorted reportBefore (List.insertionSort reportBefore l) :=
  @List.sorted_insertionSort _ reportBefore _ ⟨reportBefore_total⟩
    ⟨fun _ _ _ => reportBefore_trans⟩ _

theorem optEq_iff (p : Option String) (x : String) :
    (if truthyStr p then x == p.getD "" else true) = true ↔
      ∀ d, p = some d → d ≠ "" → x = d := by
  cases p with
  | none => simp [truthyStr]
  | some d =>
    by_cases hd : d = ""
    · simp [truthyStr, hd]
    · simp [truthyStr, hd]

theorem reportSelected_iff (s : Store) (u : Nat) (q : ReportQuery) (r : Report) :
    reportSelected s u q r = true ↔
      r.user_id = u ∧ ReportMatches q r ∧
      (truthyStr q.vitalType = true →
        ∃ v ∈ s.vitals, v.report_id = some r.id ∧
          reportTypeClause (q.vitalType.getD "") v = true) := by
  unfold reportSelected ReportMatches
  rw [Bool.and_eq_true, Bool.and_eq_true, Bool.and_eq_true, optEq_iff, optEq_iff]
  cases hvt : truthyStr q.vitalType
  · simp [and_assoc]
  · simp [and_assoc]

theorem getReports_eq (s : Store) (u : Nat) (q : ReportQuery) :
    getReports s u q = ⟨200, .reports ((List.insertionSort reportBefore
      (s.reports.filter (reportSelected s u q))).map
        (fun r => ⟨r, (s.access_shares.filter (fun g => g.report_id == r.id)).length⟩))⟩ :=
  rfl

theorem getReports_rows (s : Store) (u : Nat) (q : ReportQuery) :
    ∃ rows, getReports s u q = ⟨200, .reports rows⟩ ∧
      List.Sorted (fun a b : ReportRow => reportBefore a.report b.report) rows ∧
      (∀ x ∈ rows, x.share_count =
        (s.access_shares.filter (fun g => g.report_id == x.report.id)).length) ∧
      (rows.map (·.report)).Perm (s.reports.filter (reportSelected s u q)) := by
  refine ⟨_, getReports_eq s u q, ?_, ?_, ?_⟩
  · rw [List.Sorted, List.pairwise_map]
    exact sorted_reports _
  · intro x hx
    rw [List.mem_map] at hx
    obtain ⟨r, _, rfl⟩ := hx
    rfl
  · rw [List.map_map]
    have : ((fun x : ReportRow => x.report) ∘ fun r =>
        (⟨r, (s.access_shares.filter (fun g => g.report_id == r.id)).length⟩ : ReportRow))
        = id := rfl
    rw [this, List.map_id]
    exact List.perm_insertionSort _ _

/-- C24: with no vitalType parameter, the listing of owned reports answers
with rows ordered by report date descending and, on equal dates, by creation
time descending; the reports of the rows are exactly the reports of `reports`
owned by the caller whose date and report type equal the parameters that are
given (each such report as often as in the table, nothing else); and every
row carries as `share_count` the number of grants whose `report_id` is the
row's report. -/
theorem ownedReports_listing (s : Store) (u : Nat) (q : ReportQuery)
    (hq : q.vitalType = none ∨ q.vitalType = some "") :
    ∃ rows, getReports s u q = ⟨200, .reports rows⟩ ∧
      List.Sorted (fun a b : ReportRow =>
        textLt b.report.date a.report.date ∨
          (a.report.date = b.report.date ∧ b.report.created_at ≤ a.report.created_at)) rows ∧
      (∀ x ∈ rows, x.report ∈ s.reports ∧ x.report.user_id = u ∧ ReportMatches q x.report ∧
        x.share_count =
          (s.access_shares.filter (fun g => g.report_id == x.report.id)).length) ∧
      (∀ r, r.user_id = u → ReportMatches q r →
        (rows.map (·.report)).count r = s.reports.count r) := by
  have hvt : truthyStr q.vitalType = false := by
    rcases hq with h | h <;> simp [h, truthyStr]
  obtain ⟨rows, hrows, hsorted, hcount, hperm⟩ := getReports_rows s u q
  refine ⟨rows, hrows, hsorted, ?_, ?_⟩
  · intro x hx
    have hmem : x.report ∈ s.reports.filter (reportSelected s u q) :=
      hperm.mem_iff.1 (List.mem_map_of_mem (fun y : ReportRow => y.report) hx)
    rw [List.mem_filter, reportSelected_iff] at hmem
    exact ⟨hmem.1, hmem.2.1, hmem.2.2.1, hcount x hx⟩
  · intro r hu hm
    have hsel : reportSelected s u q r = true := by
      rw [reportSelected_iff]
      refine ⟨hu, hm, ?_⟩
      intro h
      rw [hvt] at h
      cases h
    rw [hperm.count_eq]
    exact @List.count_filter _ _ _ (reportSelected s u q) r s.reports hsel

/-- Witness of C24: Alice's listing by the date 2024-03-01 is her report 1 with
one grant; Bob's listing is empty. -/
theorem ownedReports_listing_witness :
    getReports exShared 1 ⟨some "2024-03-01", none, none⟩ = ⟨200, .reports
      [⟨⟨1, 1, "1709-42.pdf", "blood.pdf", "pdf", "Blood Test", "2024-03-01", 100⟩, 1⟩]⟩ ∧
    getReports exShared 2 ⟨none, none, none⟩ = ⟨200, .reports []⟩ := by
  constructor
  · decide
  · obtain ⟨rows, hrows, _, hmem, _⟩ :=
      ownedReports_listing exShared 2 ⟨none, none, none⟩ (Or.inl rfl)
    have hnil : rows = [] := by
      rw [List.eq_nil_iff_forall_not_mem]
      intro x hx
      have h1 := hmem x hx
      have h2 : ∀ r ∈ exShared.reports, r.user_id ≠ 2 := by decide
      exact h2 x.report h1.1 h1.2.1
    rw [hrows, hnil]

/-! ## The category filter of the report listing -/

theorem reportTypeClause_three (c : String) (v : Vital)
    (hc : c ∈ ["blood_pressure", "heart_rate", "cholesterol"]) :
    reportTypeClause c v = true ↔ CategoryPresent c v := by
  simp only [List.mem_cons, List.mem_singleton, List.not_mem_nil, or_false] at hc
  rcases hc with rfl | rfl | rfl <;> simp [reportTypeClause, CategoryPresent]

theorem reportTypeClause_sugar (v : Vital) :
    reportTypeClause "blood_sugar" v = true ↔ v.blood_sugar_fasting ≠ .null := by
  simp [reportTypeClause]

theorem reportTypeClause_other (c : String) (v : Vital)
    (hc : c ∉ ["blood_pressure", "blood_sugar", "heart_rate", "cholesterol"]) :
    reportTypeClause c v = false := by
  simp only [List.mem_cons, List.mem_singleton, List.not_mem_nil, or_false, not_or] at hc
  simp [reportTypeClause, hc]

theorem mem_getReports (s : Store) (u : Nat) (q : ReportQuery) (c : String)
    (hc : q.vitalType = some c) (hne : c ≠ "") (r : Report) :
    r ∈ s.reports.filter (reportSelected s u q) ↔
      r ∈ s.reports ∧ r.user_id = u ∧ ReportMatches q r ∧
        HasLinkedVital s r (fun v => reportTypeClause c v = true) := by
  rw [List.mem_filter, reportSelected_iff]
  have hvt : truthyStr (some c) = true := by simp [truthyStr, hne]
  simp only [hc, hvt, true_implies, Option.getD_some, HasLinkedVital]

/-- C23 as stated fails: Alice owns report 1 and a vitals row linked to it has
a non-null weight, yet her listing for the category weight is empty. -/
theorem weight_category_lists_nothing :
    Owns exWeightReport 1 1 ∧
    exWeightReport.vitals.map (fun v => (v.report_id, v.weight)) = [(some 1, .num 70)] ∧
    JsVal.num 70 ≠ JsVal.null ∧
    getReports exWeightReport 1 ⟨none, none, some "weight"⟩ = ⟨200, .reports []⟩ := by
  decide

/-- C23 (amended): the listing of owned reports knows four categories.  For
blood_pressure, heart_rate and cholesterol it contains a report iff the caller
owns it (and it passes the other filters) and a vitals row linked to it has
the category's field (systolic, heart rate, cholesterol) non-null.  For
blood_sugar it contains every such report with a linked row whose fasting
value is non-null, and only reports with a linked row that has fasting or
postprandial.  For weight, temperature and any other non-empty value it is
empty. -/
theorem ownedReports_by_category (s : Store) (u : Nat) (q : ReportQuery) (c : String)
    (hc : q.vitalType = some c) (hne : c ≠ "") :
    ∃ rows, getReports s u q = ⟨200, .reports rows⟩ ∧
      (c ∈ ["blood_pressure", "heart_rate", "cholesterol"] →
        ∀ r, r ∈ rows.map (·.report) ↔
          r ∈ s.reports ∧ r.user_id = u ∧ ReportMatches q r ∧
            HasLinkedVital s r (CategoryPresent c)) ∧
      (c = "blood_sugar" →
        ∀ r, (r ∈ s.reports ∧ r.user_id = u ∧ ReportMatches q r ∧
              HasLinkedVital s r (fun v => v.blood_sugar_fasting ≠ .null) →
            r ∈ rows.map (·.report)) ∧
          (r ∈ rows.map (·.report) →
            r ∈ s.reports ∧ r.user_id = u ∧ ReportMatches q r ∧
              HasLinkedVital s r (CategoryPresent "blood_sugar"))) ∧
      (c ∉ ["blood_pressure", "blood_sugar", "heart_rate", "cholesterol"] → rows = []) := by
  obtain ⟨rows, hrows, _, _, hperm⟩ := getReports_rows s u q
  have hmem : ∀ r, r ∈ rows.map (·.report) ↔
      r ∈ s.reports ∧ r.user_id = u ∧ ReportMatches q r ∧
        HasLinkedVital s r (fun v => reportTypeClause c v = true) := fun r => by
    rw [hperm.mem_iff, mem_getReports s u q c hc hne]
  refine ⟨rows, hrows, ?_, ?_, ?_⟩
  · intro h3 r
    rw [hmem r]
    unfold HasLinkedVital
    simp only [reportTypeClause_three c _ h3]
  · intro hs r
    subst hs
    rw [hmem r]
    unfold HasLinkedVital
    simp only [reportTypeClause_sugar]
    constructor
    · exact id
    · rintro ⟨h1, h2, h3, v, hv, hl, hf⟩
      exact ⟨h1, h2, h3, v, hv, hl, by simp [CategoryPresent, hf]⟩
  · intro hother
    rw [List.eq_nil_iff_forall_not_mem]
    intro x hx
    have := (hmem x.report).1 (List.mem_map_of_mem (fun y : ReportRow => y.report) hx)
    obtain ⟨_, _, _, v, _, _, hcl⟩ := this
    rw [reportTypeClause_other c v hother] at hcl
    cases hcl

/-- Witness of C23 (amended): Alice's report 1 has a linked heart-rate reading;
her listing for temperature is empty. -/
theorem ownedReports_by_category_witness :
    exLinked.vitals.map (fun v => (v.report_id, v.heart_rate)) = [(some 1, .num 72)] ∧
    getReports exLinked 1 ⟨none, none, some "temperature"⟩ = ⟨200, .reports []⟩ := by
  refine ⟨by decide, ?_⟩
  obtain ⟨rows, hrows, _, _, hnil⟩ :=
    ownedReports_by_category exLinked 1 ⟨none, none, some "temperature"⟩ "temperature" rfl
      (by decide)
  rw [hrows, hnil (by decide)]

/-! ## Two category predicates -/

/-- C29 as stated fails: for the category weight a row with a weight passes
the filter of the vitals list and not the clause of the report listing; for a
string that is no category (`all`) every row passes the former and none the
latter. -/
theorem category_predicates_differ :
    exWeightReport.vitals.map (fun v => (v.weight, reportTypeClause "weight" v,
        vitalTypeKeeps "weight" v, reportTypeClause "all" v, vitalTypeKeeps "all" v)) =
      [(.num 70, false, true, false, true)] := by
  decide

/-- C29 (amended): the report listing and the vitals list each have their own
category predicate.  On blood_pressure, heart_rate and cholesterol the two
agree on every row; on blood_sugar a row that passes the report clause passes
the vitals filter; on every other string the report clause holds for no row,
while the vitals filter tests the field for weight and temperature and holds
for every row on a string that is no category of the table. -/
theorem category_predicates_compared (c : String) (v : Vital) :
    (c ∈ ["blood_pressure", "heart_rate", "cholesterol"] →
      reportTypeClause c v = vitalTypeKeeps c v) ∧
    (c = "blood_sugar" → reportTypeClause c v = true → vitalTypeKeeps c v = true) ∧
    (c ∉ ["blood_pressure", "blood_sugar", "heart_rate", "cholesterol"] →
      reportTypeClause c v = false) ∧
    (c = "weight" → (vitalTypeKeeps c v = true ↔ v.weight ≠ .null)) ∧
    (c = "temperature" → (vitalTypeKeeps c v = true ↔ v.temperature ≠ .null)) ∧
    (c ∉ tableCategories → vitalTypeKeeps c v = true) := by
  refine ⟨?_, ?_, reportTypeClause_other c v, ?_, ?_, vitalTypeKeeps_other c v⟩
  · intro h3
    have hmem : c ∈ tableCategories := by
      simp only [List.mem_cons, List.mem_singleton, List.not_mem_nil, or_false] at h3
      rcases h3 with rfl | rfl | rfl <;> simp [tableCategories]
    rw [Bool.eq_iff_iff, reportTypeClause_three c v h3, vitalTypeKeeps_table c v hmem]
  · intro hs hcl
    subst hs
    rw [reportTypeClause_sugar] at hcl
    rw [vitalTypeKeeps_table _ v (by simp [tableCategories])]
    simp [CategoryPresent, hcl]
  · intro hw
    subst hw
    rw [vitalTypeKeeps_table _ v (by simp [tableCategories])]
    simp [CategoryPresent]
  · intro ht
    subst ht
    rw [vitalTypeKeeps_table _ v (by simp [tableCategories])]
    simp [CategoryPresent]

/-- Witness of C29 (amended): on heart_rate the two predicates give the same
answer for a row that holds nothing but a heart rate. -/
theorem category_predicates_compared_witness :
    reportTypeClause "heart_rate"
        (mkVital 1 1 none { noFields with heartRate := .num 72 } "2024-03-01" 100) =
      vitalTypeKeeps "heart_rate"
        (mkVital 1 1 none { noFields with heartRate := .num 72 } "2024-03-01" 100) :=
  (category_predicates_compared "heart_rate"
    (mkVital 1 1 none { noFields with heartRate := .num 72 } "2024-03-01" 100)).1 (by decide)

/-! ## The listings of shared reports -/

theorem filter_key_eq_find {α β : Type} [DecidableEq β] (f : α → β) (l : List α)
    (h : (l.map f).Nodup) (k : β) :
    l.filter (fun x => f x == k) = (l.find? (fun x => f x == k)).toList := by
  induction l with
  | nil => rfl
  | cons a l ih =>
    rw [List.map_cons, List.nodup_cons] at h
    by_cases hk : f a = k
    · have hnil : l.filter (fun x => f x == k) = [] := by
        rw [List.filter_eq_nil_iff]
        intro y hy hy'
        exact h.1 (by rw [hk, ← beq_iff_eq.1 hy']; exact List.mem_map_of_mem f hy)
      simp [List.filter_cons, List.find?_cons, hk, hnil]
    · simp [List.filter_cons, List.find?_cons, hk, ih h.2]

theorem joinOwner_eq (s : Store) (hwf : s.WF) (r : Report) (g : AccessShare) :
    joinOwner s.users r g =
      [⟨r, g.role, g.owner_id,
        (s.users.find? (fun x => x.id == g.owner_id)).map (·.username)⟩] := by
  unfold joinOwner
  rw [filter_key_eq_find (fun x : User => x.id) s.users hwf.users_id g.owner_id]
  cases s.users.find? (fun x => x.id == g.owner_id) <;> rfl

theorem joinOwnerFull_eq (s : Store) (hwf : s.WF) (r : Report) (g : AccessShare) :
    joinOwnerFull s.users r g =
      [⟨r, g.role, g.created_at,
        (s.users.find? (fun x => x.id == g.owner_id)).map (·.username),
        (s.users.find? (fun x => x.id == g.owner_id)).map (·.email)⟩] := by
  unfold joinOwnerFull
  rw [filter_key_eq_find (fun x : User => x.id) s.users hwf.users_id g.owner_id]
  cases s.users.find? (fun x => x.id == g.owner_id) <;> rfl

theorem joinOwnerFull_report (users : List User) (r : Report) (g : AccessShare)
    (row : SharedWithMeRow) (h : row ∈ joinOwnerFull users r g) : row.report = r := by
  unfold joinOwnerFull at h
  split at h
  · rw [List.mem_singleton] at h
    rw [h]
  · rw [List.mem_map] at h
    obtain ⟨_, _, hrow⟩ := h
    rw [← hrow]

theorem sharedWithMeJoin_filter_report (s : Store) (hwf : s.WF) (u : Nat) (r : Report)
    (hr : r ∈ s.reports) :
    (sharedWithMeJoin s u).filter (fun x => x.report.id == r.id) =
      (s.access_shares.filter
        (fun g => r.id == g.report_id && g.shared_with_user_id == u)).flatMap
        (joinOwnerFull s.users r) := by
  unfold sharedWithMeJoin
  rw [List.filter_flatMap]
  rw [flatMap_single_key (fun x : Report => x.id) _ s.reports hwf.reports_id r hr]
  · rw [List.filter_eq_self]
    intro row hrow
    rw [List.mem_flatMap] at hrow
    obtain ⟨g, _, hrow⟩ := hrow
    rw [joinOwnerFull_report s.users r g row hrow]
    simp
  · intro y _ hne
    rw [List.filter_eq_nil_iff]
    intro row hrow
    rw [List.mem_flatMap] at hrow
    obtain ⟨g, _, hrow⟩ := hrow
    rw [joinOwnerFull_report s.users y g row hrow]
    simpa using hne

theorem flatMap_singleton_fun {α β : Type} (l : List α) (f : α → List β) (g : α → β)
    (h : ∀ a ∈ l, f a = [g a]) : l.flatMap f = l.map g := by
  induction l with
  | nil => rfl
  | cons a l ih =>
    rw [List.flatMap_cons, List.map_cons, h a (List.mem_cons_self _ _),
      ih (fun b hb => h b (List.mem_cons_of_mem _ hb))]
    rfl

theorem sharedRowBefore_total (a b : SharedReportRow) :
    sharedRowBefore a b ∨ sharedRowBefore b a := by
  unfold sharedRowBefore
  rcases textLt_trichotomy a.report.date b.report.date with h | h | h
  · exact Or.inr (Or.inl h)
  · rcases Nat.le_total a.report.created_at b.report.created_at with hc | hc
    · exact Or.inr (Or.inr ⟨h.symm, hc⟩)
    · exact Or.inl (Or.inr ⟨h, hc⟩)
  · exact Or.inl (Or.inl h)

theorem sharedRowBefore_trans {a b c : SharedReportRow} (h1 : sharedRowBefore a b)
    (h2 : sharedRowBefore b c) : sharedRowBefore a c := by
  unfold sharedRowBefore at *
  rcases h1 with h1 | ⟨e1, c1⟩ <;> rcases h2 with h2 | ⟨e2, c2⟩
  · exact Or.inl (textLt_trans h2 h1)
  · exact Or.inl (e2 ▸ h1)
  · exact Or.inl (e1 ▸ h2)
  · exact Or.inr ⟨e1.trans e2, le_trans c2 c1⟩

theorem mem_sharedJoin_report (s : Store) (u : Nat) (x : SharedReportRow)
    (h : x ∈ sharedJoin s u) : x.report ∈ s.reports := by
  unfold sharedJoin at h
  rw [List.mem_flatMap] at h
  obtain ⟨r, hr, hx⟩ := h
  rw [List.mem_flatMap] at hx
  obtain ⟨g, _, hx⟩ := hx
  rw [joinOwner_report s.users r g x hx]
  exact hr

theorem mem_sharedWithMeJoin_report (s : Store) (u : Nat) (x : SharedWithMeRow)
    (h : x ∈ sharedWithMeJoin s u) : x.report ∈ s.reports := by
  unfold sharedWithMeJoin at h
  rw [List.mem_flatMap] at h
  obtain ⟨r, hr, hx⟩ := h
  rw [List.mem_flatMap] at hx
  obtain ⟨g, _, hx⟩ := hx
  rw [joinOwnerFull_report s.users r g x hx]
  exact hr

/-- C25 as stated fails: Bob holds a grant on report 1 (dated 2024-03-01),
created at time 102, and a later grant on report 2 (dated 2024-01-01), created
at time 103.  `GET /shares/shared-with-me` lists report 2 first (latest grant
first); `GET /reports/shared` lists report 1 first (latest report date first),
which is not the order of grant creation time descending. -/
theorem shared_listing_ordered_by_report_date :
    exTwoShared.access_shares.map
        (fun g => (g.report_id, g.shared_with_user_id, g.created_at)) =
      [(1, 2, 102), (2, 2, 103)] ∧
    exTwoShared.reports.map (fun r => (r.id, r.date)) =
      [(1, "2024-03-01"), (2, "2024-01-01")] ∧
    getShared exTwoShared 2 = ⟨200, .sharedReports
      [⟨⟨1, 1, "1709-42.pdf", "blood.pdf", "pdf", "Blood Test", "2024-03-01", 100⟩,
          "viewer", 1, some "alice"⟩,
       ⟨⟨2, 1, "1709-43.png", "xray.png", "png", "X-Ray", "2024-01-01", 101⟩,
          "editor", 1, some "alice"⟩]⟩ ∧
    getSharedWithMe exTwoShared 2 = ⟨200, .sharedWithMe
      [⟨⟨2, 1, "1709-43.png", "xray.png", "png", "X-Ray", "2024-01-01", 101⟩,
          "editor", 103, some "alice", some "alice@example.org"⟩,
       ⟨⟨1, 1, "1709-42.pdf", "blood.pdf", "pdf", "Blood Test", "2024-03-01", 100⟩,
          "viewer", 102, some "alice", some "alice@example.org"⟩]⟩ := by
  decide

/-- C25 (amended): on a store that meets the schema constraints, each of the
two listings of reports shared with the caller has exactly one entry per
grant whose grantee is the caller and whose report is in `reports`: for every
report the entries of that report are, up to order, the caller's grants on it,
each carrying the report, the grant's role and the username of the grant's
owner (absent when `owner_id` is no account), and no entry names another
report.  `GET /shares/shared-with-me` orders the entries by grant creation
time descending; `GET /reports/shared` orders them by report date descending
and, on equal dates, by report creation time descending. -/
theorem shared_listings_entry_per_grant (s : Store) (hwf : s.WF) (u : Nat) :
    (∃ rows, getSharedWithMe s u = ⟨200, .sharedWithMe rows⟩ ∧
      List.Sorted (fun a b : SharedWithMeRow => b.shared_at ≤ a.shared_at) rows ∧
      (∀ x ∈ rows, x.report ∈ s.reports) ∧
      ∀ r ∈ s.reports, (rows.filter (fun x => x.report.id == r.id)).Perm
        ((s.access_shares.filter
          (fun g => r.id == g.report_id && g.shared_with_user_id == u)).map
          (fun g => ⟨r, g.role, g.created_at,
            (s.users.find? (fun x => x.id == g.owner_id)).map (·.username),
            (s.users.find? (fun x => x.id == g.owner_id)).map (·.email)⟩))) ∧
    (∃ rows, getShared s u = ⟨200, .sharedReports rows⟩ ∧
      List.Sorted (fun a b : SharedReportRow =>
        textLt b.report.date a.report.date ∨
          (a.report.date = b.report.date ∧ b.report.created_at ≤ a.report.created_at)) rows ∧
      (∀ x ∈ rows, x.report ∈ s.reports) ∧
      ∀ r ∈ s.reports, (rows.filter (fun x => x.report.id == r.id)).Perm
        ((s.access_shares.filter
          (fun g => r.id == g.report_id && g.shared_with_user_id == u)).map
          (fun g => ⟨r, g.role, g.owner_id,
            (s.users.find? (fun x => x.id == g.owner_id)).map (·.username)⟩))) := by
  constructor
  · refine ⟨_, rfl, ?_, ?_, ?_⟩
    · exact @List.sorted_insertionSort _ sharedAtBefore _
        ⟨fun a b => Nat.le_total b.shared_at a.shared_at⟩
        ⟨fun a b c (h1 : b.shared_at ≤ a.shared_at) (h2 : c.shared_at ≤ b.shared_at) =>
          le_trans h2 h1⟩ _
    · intro x hx
      exact mem_sharedWithMeJoin_report s u x ((List.perm_insertionSort _ _).mem_iff.1 hx)
    · intro r hr
      refine ((List.perm_insertionSort _ _).filter _).trans ?_
      rw [sharedWithMeJoin_filter_report s hwf u r hr,
        flatMap_singleton_fun _ _ _ (fun g _ => joinOwnerFull_eq s hwf r g)]
  · refine ⟨_, rfl, ?_, ?_, ?_⟩
    · exact @List.sorted_insertionSort _ sharedRowBefore _ ⟨sharedRowBefore_total⟩
        ⟨fun _ _ _ => sharedRowBefore_trans⟩ _
    · intro x hx
      exact mem_sharedJoin_report s u x ((List.perm_insertionSort _ _).mem_iff.1 hx)
    · intro r hr
      refine ((List.perm_insertionSort _ _).filter _).trans ?_
      rw [sharedJoin_filter_report s hwf u r hr,
        flatMap_singleton_fun _ _ _ (fun g _ => joinOwner_eq s hwf r g)]

/-- Witness of C25 (amended): Carol holds no grant; both of her listings are
empty. -/
theorem shared_listings_entry_per_grant_witness :
    exTwoShared.WF ∧
    getSharedWithMe exTwoShared 3 = ⟨200, .sharedWithMe []⟩ ∧
    getShared exTwoShared 3 = ⟨200, .sharedReports []⟩ := by
  obtain ⟨⟨rows, hrows, _, hmem, hperm⟩, ⟨rows', hrows', _, hmem', hperm'⟩⟩ :=
    shared_listings_entry_per_grant exTwoShared (by decide) 3
  have hno : ∀ r ∈ exTwoShared.reports, exTwoShared.access_shares.filter
      (fun g => r.id == g.report_id && g.shared_with_user_id == 3) = [] := by decide
  refine ⟨by decide, ?_, ?_⟩
  · have hnil : rows = [] := by
      rw [List.eq_nil_iff_forall_not_mem]
      intro x hx
      have hr := hmem x hx
      have hp := hperm x.report hr
      rw [hno x.report hr] at hp
      have hin : x ∈ rows.filter (fun y => y.report.id == x.report.id) := by
        simp [List.mem_filter, hx]
      rw [hp.eq_nil] at hin
      cases hin
    rw [hrows, hnil]
  · have hnil : rows' = [] := by
      rw [List.eq_nil_iff_forall_not_mem]
      intro x hx
      have hr := hmem' x hx
      have hp := hperm' x.report hr
      rw [hno x.report hr] at hp
      have hin : x ∈ rows'.filter (fun y => y.report.id == x.report.id) := by
        simp [List.mem_filter, hx]
      rw [hp.eq_nil] at hin
      cases hin
    rw [hrows', hnil]

/-! ## The upload file filter -/

/-- A file whose lower-cased extension is one of the five and whose declared
content type is the type of one of these formats passes the filter. -/
theorem fileFilter_accepts_listed (f : IncomingFile)
    (hext : (extnameChars f.originalname.data).map Char.toLower ∈
      [".jpeg".data, ".jpg".data, ".png".data, ".gif".data, ".pdf".data])
    (hmime : f.mimetype ∈
      ["image/jpeg", "image/jpg", "image/png", "image/gif", "application/pdf"]) :
    fileFilter f = true := by
  have h1 : allowedTypesTest ((extnameChars f.originalname.data).map Char.toLower) = true := by
    simp only [List.mem_cons, List.mem_singleton, List.not_mem_nil, or_false] at hext
    rcases hext with h | h | h | h | h <;> rw [h] <;> decide
  have h2 : allowedTypesTest f.mimetype.data = true := by
    simp only [List.mem_cons, List.mem_singleton, List.not_mem_nil, or_false] at hmime
    rcases hmime with h | h | h | h | h <;> rw [h] <;> decide
  simp only [fileFilter, h1, h2, Bool.and_self]

/-- A file the filter rejects reaches neither the disk nor the handler: the
store is unchanged and the answer is 400 with the filter's message. -/
theorem uploadRoute_rejected (s : Store) (now u : Nat) (f : IncomingFile) (body : UploadBody)
    (insertFails : Bool) (h : fileFilter f = false) :
    uploadRoute s now u (some f) body insertFails =
      (s, ⟨400, .error "Only PDF and image files are allowed"⟩) := by
  simp [uploadRoute, h]

/-- The filter tests for an occurrence of one of the five words anywhere in
the lower-cased extension and anywhere in the content type. -/
theorem fileFilter_iff (f : IncomingFile) :
    fileFilter f = true ↔
      (∃ w ∈ ["jpeg", "jpg", "png", "gif", "pdf"],
        occursIn w.data ((extnameChars f.originalname.data).map Char.toLower) = true) ∧
      (∃ w ∈ ["jpeg", "jpg", "png", "gif", "pdf"], occursIn w.data f.mimetype.data = true) := by
  simp [fileFilter, allowedTypesTest, or_assoc]

/-- C26 (the code at the failing input): the file named `scan.jpgx` with the
declared type `image/jpeg` has the extension `jpgx`, which is none of jpeg,
jpg, png, gif, pdf, and the filter accepts it (the pattern has no anchors and
finds `jpg` inside `.jpgx`); the upload stores the bytes and a report row with
`file_type` `jpgx`.  Likewise `notes.pdf` with the declared type
`text/x-pdf-notes` is accepted. -/
theorem jpgx_file_is_accepted :
    (extnameChars "scan.jpgx".data).map Char.toLower = ".jpgx".data ∧
    "jpgx" ∉ ["jpeg", "jpg", "png", "gif", "pdf"] ∧
    fileFilter ⟨"scan.jpgx", "image/jpeg", "1710-9.jpgx"⟩ = true ∧
    (uploadRoute exOwned 300 2 (some ⟨"scan.jpgx", "image/jpeg", "1710-9.jpgx"⟩)
      ⟨some "X-Ray", some "2024-03-05", none⟩ false).2.status = 201 ∧
    (uploadRoute exOwned 300 2 (some ⟨"scan.jpgx", "image/jpeg", "1710-9.jpgx"⟩)
      ⟨some "X-Ray", some "2024-03-05", none⟩ false).1.reports.map
        (fun r => (r.id, r.user_id, r.file_type)) = [(1, 1, "pdf"), (2, 2, "jpgx")] ∧
    (uploadRoute exOwned 300 2 (some ⟨"scan.jpgx", "image/jpeg", "1710-9.jpgx"⟩)
      ⟨some "X-Ray", some "2024-03-05", none⟩ false).1.blobs =
        ["1710-9.jpgx", "1709-42.pdf"] ∧
    fileFilter ⟨"notes.pdf", "text/x-pdf-notes", "1710-10.pdf"⟩ = true := by
  decide

/-! ## Overlapping share requests -/

/-- The four statements of a share request run back to back are the handler
`postShareWith` (with `insertFails = false`: `postShare`). -/
theorem postShareWith_as_steps (insertFails : Bool) (s : Store) (now u R : Nat)
    (body : ShareBody) :
    (stepsShare insertFails now 4 (s, beginShare u R body)).1 =
      (postShareWith insertFails s now u R body).1 ∧
    (stepsShare insertFails now 4 (s, beginShare u R body)).2.phase =
      .answered (postShareWith insertFails s now u R body).2 := by
  unfold postShareWith beginShare
  dsimp only
  by_cases h1 : (!truthyStr body.sharedWithEmail) = true
  · simp [h1, stepsShare, stepShare]
  by_cases h2 : (!(["viewer", "editor"].contains (body.role.getD "viewer"))) = true
  · simp only [h1, h2, if_true, if_false]
    simp [stepsShare, stepShare]
  simp only [h1, h2, Bool.false_eq_true, if_false]
  cases h3 : s.reports.find? (fun r => r.id == R && r.user_id == u) with
  | none => simp [stepsShare, stepShare, h3]
  | some r =>
    cases h4 : s.users.find? (fun x => x.email == body.sharedWithEmail.getD "") with
    | none => simp [stepsShare, stepShare, h3, h4]
    | some x =>
      by_cases h5 : x.id = u
      · simp [stepsShare, stepShare, h3, h4, h5]
      · cases h6 : s.access_shares.find?
            (fun g => g.report_id == R && g.shared_with_user_id == x.id) with
        | some g => simp [stepsShare, stepShare, h3, h4, h5, h6]
        | none =>
          by_cases h7 : (!insertFails && fkShareOk s R u x.id) = true
          · simp [stepsShare, stepShare, h3, h4, h5, h6, h7]
          · simp [stepsShare, stepShare, h3, h4, h5, h6, h7]

theorem stepShare_answered (insertFails : Bool) (s : Store) (now : Nat) (t : ShareTask)
    (h : t.isAnswered = true) : stepShare insertFails s now t = (s, t) := by
  unfold ShareTask.isAnswered at h
  unfold stepShare
  cases hp : t.phase <;> simp [hp] at h ⊢

theorem not_insert_of_answered (t : ShareTask) (x : Nat) (h : t.isAnswered = true) :
    t.phase ≠ .insert x := by
  intro hp
  simp [ShareTask.isAnswered, hp] at h

theorem stepShare_reportId (insertFails : Bool) (s : Store) (now : Nat) (t : ShareTask) :
    (stepShare insertFails s now t).2.reportId = t.reportId := by
  unfold stepShare
  dsimp only
  cases hp : t.phase <;> simp only [] <;> repeat' split
  all_goals rfl

theorem stepShare_insert_phase (insertFails : Bool) (s : Store) (now : Nat) (t : ShareTask)
    (x : Nat) (h : (stepShare insertFails s now t).2.phase = .insert x) :
    (stepShare insertFails s now t).1 = s ∧
    s.access_shares.filter
      (fun g => g.report_id == t.reportId && g.shared_with_user_id == x) = [] := by
  unfold stepShare at h ⊢
  dsimp only at h ⊢
  cases hp : t.phase with
  | reportLookup =>
    simp only [hp] at h
    split at h <;> simp at h
  | userLookup =>
    simp only [hp] at h
    split at h
    · simp at h
    · split at h <;> simp at h
  | shareLookup y =>
    simp only [hp] at h ⊢
    cases hf : s.access_shares.find?
        (fun g => g.report_id == t.reportId && g.shared_with_user_id == y) with
    | some g =>
      rw [hf] at h
      simp at h
    | none =>
      rw [hf] at h
      simp only [SharePhase.insert.injEq] at h
      subst h
      refine ⟨rfl, ?_⟩
      rw [List.filter_eq_nil_iff]
      exact List.find?_eq_none.1 hf
  | update y =>
    simp only [hp] at h
    simp at h
  | insert y =>
    simp only [hp] at h
    split at h <;> simp at h
  | answered r =>
    simp only [hp] at h
    cases h

theorem insert_pairUnique (s : Store) (hpu : PairUnique s) (g : AccessShare) (seq : Nat)
    (h : s.access_shares.filter
      (fun a => a.report_id == g.report_id && a.shared_with_user_id == g.shared_with_user_id)
      = []) :
    PairUnique { s with access_shares := s.access_shares ++ [g], shareSeq := seq } := by
  intro R u
  dsimp only
  rw [List.filter_append, List.length_append]
  by_cases hp : g.report_id = R ∧ g.shared_with_user_id = u
  · obtain ⟨h1, h2⟩ := hp
    subst h1 h2
    rw [h]
    simp
  · have : ([g] : List AccessShare).filter
        (fun a => a.report_id == R && a.shared_with_user_id == u) = [] := by
      rw [List.filter_eq_nil_iff]
      intro a ha
      rw [List.mem_singleton] at ha
      subst ha
      simpa using hp
    rw [this]
    simpa using hpu R u

theorem stepShare_pairUnique (insertFails : Bool) (s : Store) (now : Nat) (t : ShareTask)
    (hpu : PairUnique s)
    (habs : ∀ x, t.phase = .insert x → s.access_shares.filter
      (fun g => g.report_id == t.reportId && g.shared_with_user_id == x) = []) :
    PairUnique (stepShare insertFails s now t).1 := by
  unfold stepShare
  dsimp only
  cases hp : t.phase with
  | reportLookup =>
    simp only []
    split <;> exact hpu
  | userLookup =>
    simp only []
    split
    · exact hpu
    · split <;> exact hpu
  | shareLookup y =>
    simp only []
    split <;> exact hpu
  | update y =>
    simp only []
    intro R u
    dsimp only
    rw [filter_pair_setRole]
    exact hpu R u
  | insert y =>
    simp only []
    split
    · exact insert_pairUnique s hpu _ _ (habs y hp)
    · exact hpu
  | answered r => exact hpu

theorem handle_shares_sublist (s : Store) (now u : Nat) (op : Op)
    (h : ∀ R body, op ≠ .share R body) :
    (handle s now u op).1.access_shares.Sublist s.access_shares := by
  cases op with
  | upload file body insertFails =>
    exact (postUpload_shares s now u file body insertFails) ▸ List.Sublist.refl _
  | reportDetail id => exact List.Sublist.refl _
  | reportDownload id => exact List.Sublist.refl _
  | reportDelete id => exact deleteReport_shares_sublist s u id
  | sharedReports => exact List.Sublist.refl _
  | share R body => exact absurd rfl (h R body)
  | listShares R => exact List.Sublist.refl _
  | revoke G => exact deleteShare_shares_sublist s u G
  | vitalCreate body => exact (postVital_shares s now u body) ▸ List.Sublist.refl _
  | vitalUpdate id body => exact (putVital_shares s u id body) ▸ List.Sublist.refl _
  | vitalDelete id => exact (deleteVital_shares s u id) ▸ List.Sublist.refl _

theorem startsShare_of_share (q : Request) (R : Nat) (body : ShareBody)
    (h : q.op = .share R body) : (Event.serve q).startsShare = true := by
  simp [Event.startsShare, h]

theorem sharesInv_serve (c : Config) (q : Request) (hinv : SharesInv c)
    (hok : (Event.serve q).startsShare = true → c.inflight.all (·.isAnswered) = true) :
    SharesInv (exec1 c (.serve q)) := by
  obtain ⟨hpu, hone, habs⟩ := hinv
  refine ⟨handle_pairUnique c.store q.now q.userId q.op hpu, hone, ?_⟩
  intro j t x hj hp
  by_cases hs : ∃ R body, q.op = .share R body
  · obtain ⟨R, body, hq⟩ := hs
    have hall := hok (startsShare_of_share q R body hq)
    rw [List.all_eq_true] at hall
    exact absurd hp (not_insert_of_answered t x (hall t (List.getElem?_mem hj)))
  · have hsub := handle_shares_sublist c.store q.now q.userId q.op
      (fun R body h => hs ⟨R, body, h⟩)
    have := hsub.filter (fun g => g.report_id == t.reportId && g.shared_with_user_id == x)
    rw [habs j t x hj hp] at this
    exact List.eq_nil_of_sublist_nil this

theorem sharesInv_arrive (c : Config) (u R : Nat) (body : ShareBody) (hinv : SharesInv c)
    (hall : c.inflight.all (·.isAnswered) = true) :
    SharesInv (exec1 c (.arrive u R body)) := by
  obtain ⟨hpu, _, habs⟩ := hinv
  rw [List.all_eq_true] at hall
  refine ⟨hpu, ⟨c.inflight.length, ?_⟩, ?_⟩
  · intro j t hne hj
    simp only [exec1] at hj
    rcases Nat.lt_or_gt_of_ne hne with hlt | hgt
    · rw [List.getElem?_append_left hlt] at hj
      exact hall t (List.getElem?_mem hj)
    · rw [List.getElem?_eq_none (by simp; omega)] at hj
      cases hj
  · intro j t x hj hp
    simp only [exec1] at hj ⊢
    by_cases hlt : j < c.inflight.length
    · rw [List.getElem?_append_left hlt] at hj
      exact habs j t x hj hp
    · rw [List.getElem?_append_right (Nat.le_of_not_lt hlt)] at hj
      have ht : t = beginShare u R body := by
        cases hk : j - c.inflight.length with
        | zero =>
          rw [hk] at hj
          simpa using hj.symm
        | succ k =>
          rw [hk] at hj
          simp at hj
      rw [ht] at hp
      unfold beginShare at hp
      dsimp only at hp
      split at hp
      · cases hp
      · split at hp <;> cases hp

theorem sharesInv_advance (c : Config) (k now : Nat) (insertFails : Bool) (hinv : SharesInv c) :
    SharesInv (exec1 c (.advance k now insertFails)) := by
  obtain ⟨hpu, ⟨i, hone⟩, habs⟩ := hinv
  simp only [exec1]
  cases hk : c.inflight[k]? with
  | none => exact ⟨hpu, ⟨i, hone⟩, habs⟩
  | some t =>
    dsimp only
    have hlen : k < c.inflight.length := by
      rcases List.getElem?_eq_some.1 hk with ⟨h, _⟩
      exact h
    have hget : ∀ (j : Nat) (t' : ShareTask),
        (c.inflight.set k (stepShare insertFails c.store now t).2)[j]? = some t' →
        (j = k ∧ t' = (stepShare insertFails c.store now t).2) ∨
        (j ≠ k ∧ c.inflight[j]? = some t') := by
      intro j t' hj
      rw [List.getElem?_set] at hj
      by_cases hjk : k = j
      · rw [if_pos hjk, if_pos hlen, Option.some.injEq] at hj
        exact Or.inl ⟨hjk.symm, hj.symm⟩
      · rw [if_neg hjk] at hj
        exact Or.inr ⟨fun h => hjk h.symm, hj⟩
    refine ⟨stepShare_pairUnique insertFails c.store now t hpu (fun x hp => habs k t x hk hp),
      ⟨i, ?_⟩, ?_⟩
    · intro j t' hne hj
      rcases hget j t' hj with ⟨hjk, ht'⟩ | ⟨_, hold⟩
      · have hans := hone k t (hjk ▸ hne) hk
        rw [ht', stepShare_answered insertFails c.store now t hans]
        exact hans
      · exact hone j t' hne hold
    · intro j t' x hj hp
      rcases hget j t' hj with ⟨_, ht'⟩ | ⟨hjk, hold⟩
      · rw [ht'] at hp ⊢
        obtain ⟨hs, hnil⟩ := stepShare_insert_phase insertFails c.store now t x hp
        rw [hs, stepShare_reportId]
        exact hnil
      · have hji : j = i := by
          by_contra hne
          exact not_insert_of_answered t' x (hone j t' hne hold) hp
        have hans := hone k t (fun h => hjk (hji.trans h.symm)) hk
        rw [stepShare_answered insertFails c.store now t hans]
        exact habs j t' x hold hp

theorem sharesInv_exec (c : Config) (es : List Event) (hinv : SharesInv c)
    (h : sharesApart c es = true) : SharesInv (exec c es) := by
  induction es generalizing c with
  | nil => exact hinv
  | cons e es ih =>
    simp only [sharesApart, Bool.and_eq_true, Bool.or_eq_true, Bool.not_eq_true'] at h
    apply ih _ _ h.2
    cases e with
    | serve q =>
      apply sharesInv_serve c q hinv
      intro hs
      rcases h.1 with h1 | h1
      · rw [hs] at h1
        cases h1
      · exact h1
    | arrive u R body =>
      apply sharesInv_arrive c u R body hinv
      rcases h.1 with h1 | h1
      · simp [Event.startsShare] at h1
      · exact h1
    | advance k now insertFails => exact sharesInv_advance c k now insertFails hinv

theorem sharesInv_init (fk : Bool) (users : List User) :
    SharesInv ⟨Store.init fk users, []⟩ := by
  refine ⟨?_, ⟨0, ?_⟩, ?_⟩
  · intro R u
    simp [Store.init]
  · intro j t _ hj
    simp at hj
  · intro j t x hj
    simp at hj

theorem exec_serve (s : Store) (reqs : List Request) :
    exec ⟨s, []⟩ (reqs.map .serve) = ⟨run s reqs, []⟩ := by
  induction reqs generalizing s with
  | nil => rfl
  | cons q qs ih =>
    simp only [List.map_cons, exec, exec1, run]
    exact ih _

theorem sharesApart_serve (s : Store) (reqs : List Request) :
    sharesApart ⟨s, []⟩ (reqs.map .serve) = true := by
  induction reqs generalizing s with
  | nil => rfl
  | cons q qs ih =>
    simp only [List.map_cons, sharesApart, exec1, List.all_nil, Bool.or_true, Bool.true_and]
    exact ih _

/-- C7 as stated fails: from the empty tables Alice uploads a report, then two
of her requests to share it with Bob are in flight together.  Each runs its
lookup of the grant before the other runs its insert, so both find no grant
and both insert: the table then holds two grants for the pair (report 1,
Bob), and both requests have been answered 201. -/
theorem overlapping_shares_leave_two_grants :
    exStart.store.access_shares = [] ∧
    (exec exStart exOverlapDone).store.access_shares.map
      (fun g => (g.id, g.report_id, g.shared_with_user_id, g.role)) =
      [(1, 1, 2, "viewer"), (2, 1, 2, "editor")] ∧
    (exec exStart exOverlapDone).inflight.map (·.phase) =
      [.answered ⟨201, .shareCreated "Report shared successfully" 1⟩,
       .answered ⟨201, .shareCreated "Report shared successfully" 2⟩] ∧
    ¬ ((exec exStart exOverlapDone).store.access_shares.filter
      (fun g => g.report_id == 1 && g.shared_with_user_id == 2)).length ≤ 1 := by
  decide

/-- C7 (amended): whatever accounts exist and whatever the foreign-key
setting, in every store reached from the empty tables by a schedule in which
no two share requests overlap (a share request starts only when every
earlier share request has been answered; requests of the other routes may
come at any point, also between two statements of a share request), the
grant table holds at most one grant for every (report_id,
shared_with_user_id) pair.  In particular this is so when the requests
(upload, report delete, share, revoke, vitals create, update and delete, and
the reads) are served one after another. -/
theorem one_grant_per_pair_when_shares_apart (fk : Bool) (users : List User)
    (es : List Event) (h : sharesApart ⟨Store.init fk users, []⟩ es = true) (R u : Nat) :
    ((exec ⟨Store.init fk users, []⟩ es).store.access_shares.filter
      (fun g => g.report_id == R && g.shared_with_user_id == u)).length ≤ 1 ∧
    (∀ reqs : List Request,
      ((run (Store.init fk users) reqs).access_shares.filter
        (fun g => g.report_id == R && g.shared_with_user_id == u)).length ≤ 1) := by
  refine ⟨(sharesInv_exec _ es (sharesInv_init fk users) h).1 R u, ?_⟩
  intro reqs
  have h0 : PairUnique (Store.init fk users) := (sharesInv_init fk users).1
  exact run_pairUnique _ reqs h0 R u

/-- Witness of C7 (amended): Alice's two share requests do not overlap (a
request of Bob is served between the statements of the first); the second
finds the grant of the first and updates its role. -/
theorem one_grant_per_pair_when_shares_apart_witness :
    sharesApart ⟨Store.init false [alice, bob, carol], []⟩ exApart = true ∧
    (exec ⟨Store.init false [alice, bob, carol], []⟩ exApart).store.access_shares.map
      (fun g => (g.id, g.report_id, g.shared_with_user_id, g.role)) = [(1, 1, 2, "editor")] ∧
    ((exec ⟨Store.init false [alice, bob, carol], []⟩ exApart).store.access_shares.filter
      (fun g => g.report_id == 1 && g.shared_with_user_id == 2)).length ≤ 1 :=
  ⟨by decide, by decide,
   (one_grant_per_pair_when_shares_apart false [alice, bob, carol] exApart (by decide) 1 2).1⟩

/-- C12 as stated fails: after the schedule `exOverlap` Bob has a grant on
report 1 with the role `viewer` (the concurrent creator won), and Alice's
second request, whose lookup had found no grant, has issued its insert for
the same pair with the role `editor`.  The insert does not fail: a second
grant row is stored, the request is answered 201 with the new id, and the
existing grant keeps the role `viewer`.  Nothing is retried as an update. -/
theorem insert_beside_existing_grant :
    (exec exStart exOverlap).store.access_shares.map
      (fun g => (g.id, g.report_id, g.shared_with_user_id, g.role)) = [(1, 1, 2, "viewer")] ∧
    HasGrant (exec exStart exOverlap).store 2 1 ∧
    (exec exStart exOverlap).inflight[1]? =
      some ⟨1, 1, ⟨some "bob@example.org", some "editor"⟩, .insert 2⟩ ∧
    (exec1 (exec exStart exOverlap) (.advance 1 103 false)).store.access_shares.map
      (fun g => (g.id, g.report_id, g.shared_with_user_id, g.role)) =
      [(1, 1, 2, "viewer"), (2, 1, 2, "editor")] ∧
    (exec1 (exec exStart exOverlap) (.advance 1 103 false)).inflight[1]? =
      some ⟨1, 1, ⟨some "bob@example.org", some "editor"⟩,
        .answered ⟨201, .shareCreated "Report shared successfully" 2⟩⟩ ∧
    (exec1 (exec exStart exOverlap) (.advance 1 103 false)).store.access_shares.map
      (fun g => (g.id, g.report_id, g.shared_with_user_id, g.role)) ≠ [(1, 1, 2, "editor")] := by
  decide

/-- C12 (amended): a share request that has issued the insert of a new grant
(its lookup found no grant for the pair) is not guarded by a uniqueness
constraint and is never retried as an update.  Whatever grants the table
holds by then, a grant for the same pair included, the insert appends one
row for the pair with the requested role, leaves every existing grant as it
is, and the request is answered 201 with the new id.  When the insert fails
(an injected error, or a foreign key under enforcement) the request is
answered 500 "Failed to create share" and the store is unchanged. -/
theorem insert_appends_or_answers_500 (s : Store) (now : Nat) (t : ShareTask) (x : Nat)
    (hp : t.phase = .insert x) :
    (fkShareOk s t.reportId t.ownerId x = true →
      (stepShare false s now t).1.access_shares = s.access_shares ++
        [⟨nextId s.shareSeq (s.access_shares.map (·.id)), t.reportId, t.ownerId, x,
          t.body.sharedWithEmail.getD "", t.body.role.getD "viewer", now⟩] ∧
      (stepShare false s now t).2.phase = .answered
        ⟨201, .shareCreated "Report shared successfully"
          (nextId s.shareSeq (s.access_shares.map (·.id)))⟩) ∧
    (fkShareOk s t.reportId t.ownerId x = false →
      stepShare false s now t =
        (s, { t with phase := .answered ⟨500, .error "Failed to create share"⟩ })) ∧
    stepShare true s now t =
      (s, { t with phase := .answered ⟨500, .error "Failed to create share"⟩ }) := by
  refine ⟨?_, ?_, ?_⟩
  · intro hfk
    simp [stepShare, hp, hfk]
  · intro hfk
    simp [stepShare, hp, hfk]
  · simp [stepShare, hp]

/-- Witness of C12 (amended): at the point the counterexample reaches, the
insert of Alice's second request appends the grant 2 beside the grant 1. -/
theorem insert_appends_or_answers_500_witness :
    (exec exStart exOverlap).store.access_shares.map (fun g => (g.id, g.role)) =
      [(1, "viewer")] ∧
    (stepShare false (exec exStart exOverlap).store 103
      ⟨1, 1, ⟨some "bob@example.org", some "editor"⟩, .insert 2⟩).1.access_shares =
      (exec exStart exOverlap).store.access_shares ++
        [⟨2, 1, 1, 2, "bob@example.org", "editor", 103⟩] :=
  ⟨by decide,
   ((insert_appends_or_answers_500 (exec exStart exOverlap).store 103
      ⟨1, 1, ⟨some "bob@example.org", some "editor"⟩, .insert 2⟩ 2 rfl).1 (by decide)).1.trans
      (by decide)⟩

/-- A share request that arrives with nothing else in flight and whose four
statements run with no other event in between leaves the store and sends
the answer of `postShareWith` (with `insertFails = false`: of `postShare`,
which is what `handle` serves). -/
theorem exec_share_alone (insertFails : Bool) (s : Store) (now u R : Nat) (body : ShareBody) :
    (exec ⟨s, []⟩ [.arrive u R body, .advance 0 now insertFails, .advance 0 now insertFails,
      .advance 0 now insertFails, .advance 0 now insertFails]).store =
      (postShareWith insertFails s now u R body).1 ∧
    (exec ⟨s, []⟩ [.arrive u R body, .advance 0 now insertFails, .advance 0 now insertFails,
      .advance 0 now insertFails, .advance 0 now insertFails]).inflight.map (·.phase) =
      [.answered (postShareWith insertFails s now u R body).2] := by
  have h := postShareWith_as_steps insertFails s now u R body
  simp only [stepsShare] at h
  rw [← h.1, ← h.2]
  simp [exec, exec1]

end HealthWallet
